import Mathlib

/-!
# Machine OS builder: build controller

A shallow embedding of `pkg/controller/build/build_controller.go` and of
`cmd/machine-os-builder/start.go`.

* Kubernetes objects are records holding the fields the controller reads or writes.
* The collaborators of the controller (API clients, builder backend, work queue)
  are observed through a history of events.  Every call to a collaborator appends
  one event holding the request and the response; the response of a collaborator
  is an arbitrary function of the history so far and of the request (`Env`).
* Informer caches (listers) are snapshots: their `Get` can only fail with NotFound.
* An object that a callee changes through a pointer is returned next to the callee's result.
* Timestamps of conditions are left out; logging is left out.
-/

namespace MachineOSBuilder

/-! ## Errors -/

/-- The status reasons of an API error the controller tests for. -/
inductive ErrKind where
  | notFound
  | alreadyExists
  | conflict
  | other
  deriving DecidableEq, Repr

/-- A Go `error`: the status reason seen through `errors.As` and the message. -/
structure Err where
  kind : ErrKind
  msg : String
  deriving DecidableEq, Repr

/-- The wrapping done by `fmt.Errorf("...: %w", err)`: the reason is kept. -/
def Err.wrap (pre : String) (e : Err) : Err :=
  { e with msg := pre ++ e.msg }

/-- An error made by `fmt.Errorf` without a wrapped cause. -/
def Err.new (msg : String) : Err :=
  { kind := ErrKind.other, msg := msg }

/-- The verb `%q` of `fmt`: the string between double quotes; escapes are left out. -/
def quoted (s : String) : String := "\"" ++ s ++ "\""

/-- The test of `k8serrors.IsNotFound`. -/
def IsNotFound (e : Err) : Bool := e.kind == ErrKind.notFound

/-- The test of `k8serrors.IsAlreadyExists`. -/
def IsAlreadyExists (e : Err) : Bool := e.kind == ErrKind.alreadyExists

/-- The test of `k8serrors.IsConflict`. -/
def IsConflict (e : Err) : Bool := e.kind == ErrKind.conflict

/-- A Go result pair `(value, error)` in which exactly one side is meaningful. -/
inductive Res (α : Type) where
  | ok (a : α)
  | err (e : Err)
  deriving DecidableEq, Repr

/-! ## Objects -/

/-- The three values of `metav1.ConditionStatus`. -/
inductive ConditionStatus where
  | condTrue
  | condFalse
  | condUnknown
  deriving DecidableEq, Repr

/-- A `metav1.Condition` without its timestamps. -/
structure Condition where
  condType : String
  status : ConditionStatus
  reason : String
  message : String
  deriving DecidableEq, Repr

/-- The condition type `mcfgv1alpha1.MachineOSBuildPrepared`. -/
def MachineOSBuildPrepared : String := "Prepared"
/-- The condition type `mcfgv1alpha1.MachineOSBuilding`. -/
def MachineOSBuilding : String := "Building"
/-- The condition type `mcfgv1alpha1.MachineOSBuildFailed`. -/
def MachineOSBuildFailed : String := "Failed"
/-- The condition type `mcfgv1alpha1.MachineOSBuildInterrupted`. -/
def MachineOSBuildInterrupted : String := "Interrupted"
/-- The condition type `mcfgv1alpha1.MachineOSBuildSucceeded`. -/
def MachineOSBuildSucceeded : String := "Succeeded"

/-- The five lifecycle condition types of a build record. -/
def lifecycleTypes : List String :=
  [MachineOSBuildPrepared, MachineOSBuilding, MachineOSBuildFailed,
   MachineOSBuildInterrupted, MachineOSBuildSucceeded]

/-- A reference that only holds a name. -/
structure NameRef where
  name : String
  deriving DecidableEq, Repr

/-- A `corev1.ObjectReference`. -/
structure ObjectReference where
  kind : String
  ns : String
  name : String
  apiVersion : String
  resourceVersion : String
  deriving DecidableEq, Repr

/-- The `mcfgv1alpha1.ObjectReference` stored in a builder reference. -/
structure BuilderObjectReference where
  name : String
  group : String
  ns : String
  resource : String
  deriving DecidableEq, Repr

/-- The `mcfgv1alpha1.MachineOSBuilderReference`. -/
structure MachineOSBuilderReference where
  imageBuilderType : String
  podImageBuilder : Option BuilderObjectReference
  deriving DecidableEq, Repr

/-- The spec of a build record. -/
structure MachineOSBuildSpec where
  renderedImagePushspec : String
  version : Int
  configGeneration : Int
  desiredConfig : NameRef
  machineOSConfig : NameRef
  deriving DecidableEq, Repr

/-- The status of a build record. -/
structure MachineOSBuildStatus where
  conditions : List Condition
  builderReference : Option MachineOSBuilderReference
  finalImagePushspec : String
  buildStart : Option Nat
  deriving DecidableEq, Repr

/-- A build record (`MachineOSBuild`). -/
structure MachineOSBuild where
  ns : String
  name : String
  resourceVersion : String
  spec : MachineOSBuildSpec
  status : MachineOSBuildStatus
  deriving DecidableEq, Repr

/-- The build inputs of a build configuration. -/
structure BuildInputs where
  baseOSExtensionsImagePullspec : String
  baseOSImagePullspec : String
  baseImagePullSecret : NameRef
  imageBuilderType : String
  renderedImagePushSecret : NameRef
  renderedImagePushspec : String
  releaseVersion : String
  deriving DecidableEq, Repr

/-- The spec of a build configuration. -/
structure MachineOSConfigSpec where
  machineConfigPool : NameRef
  buildInputs : BuildInputs
  deriving DecidableEq, Repr

/-- The status of a build configuration. -/
structure MachineOSConfigStatus where
  currentImagePullspec : String
  deriving DecidableEq, Repr

/-- A build configuration (`MachineOSConfig`). -/
structure MachineOSConfig where
  ns : String
  name : String
  resourceVersion : String
  spec : MachineOSConfigSpec
  status : MachineOSConfigStatus
  deriving DecidableEq, Repr

/-- The `Spec.Configuration` of a pool: the desired rendered configuration and its sources. -/
structure PoolConfiguration where
  name : String
  source : List ObjectReference
  deriving DecidableEq, Repr

/-- A `MachineConfigPool`. -/
structure MachineConfigPool where
  name : String
  resourceVersion : String
  configuration : PoolConfiguration
  deriving DecidableEq, Repr

/-- A `corev1.ConfigMap`; `data` is the map `Data`. -/
structure ConfigMap where
  name : String
  data : List (String × String)
  deriving DecidableEq, Repr

/-- A `corev1.Secret`; `labels` and `data` are the maps `Labels` and `Data`. -/
structure Secret where
  name : String
  labels : List (String × String)
  data : List (String × List Nat)
  deriving DecidableEq, Repr

/-- A rendered `MachineConfig`, with its content kept whole. -/
structure MachineConfig where
  name : String
  raw : String
  deriving DecidableEq, Repr

/-- The lookup `m[key]` of a Go map, with the `ok` flag as the option. -/
def mapGet {β : Type} (m : List (String × β)) (key : String) : Option β :=
  (m.find? (fun kv => kv.1 == key)).map (fun kv => kv.2)

/-- The lookup `m[key]` of a Go map of strings without the `ok` flag: a missing key gives "". -/
def mapGetD (m : List (String × String)) (key : String) : String :=
  (mapGet m key).getD ""

/-! ## start.go -/

/-- The constants of package `build` that `start.go` refers to. -/
structure BuilderConstants where
  ImageBuilderTypeConfigMapKey : String
  OpenshiftImageBuilder : String
  CustomPodImageBuilder : String

/-- Embedding of `getImageBuilderType`. -/
def getImageBuilderType (k : BuilderConstants) (cm : ConfigMap) : Res String :=
  match mapGet cm.data k.ImageBuilderTypeConfigMapKey with
  | none => Res.ok k.CustomPodImageBuilder
  | some configMapImageBuilder =>
    if configMapImageBuilder = "" then
      Res.ok k.CustomPodImageBuilder
    else if configMapImageBuilder ≠ k.OpenshiftImageBuilder ∧
        configMapImageBuilder ≠ k.CustomPodImageBuilder then
      Res.err (Err.new ("invalid " ++ k.ImageBuilderTypeConfigMapKey ++ " " ++
        quoted configMapImageBuilder))
    else
      Res.ok configMapImageBuilder

/-! ## Library functions (client-go, apimachinery) -/

/-- The function `strings.Split(s, "/")` on the characters of a string. -/
def splitSlash : List Char → List (List Char)
  | [] => [[]]
  | c :: cs =>
    if c = '/' then [] :: splitSlash cs
    else
      match splitSlash cs with
      | [] => [[c]]
      | p :: ps => (c :: p) :: ps

/-- The function `cache.SplitMetaNamespaceKey`: namespace and name of a key. -/
def SplitMetaNamespaceKey (key : String) : Res (String × String) :=
  match splitSlash key.data with
  | [name] => Res.ok ("", String.mk name)
  | [ns, name] => Res.ok (String.mk ns, String.mk name)
  | _ => Res.err (Err.new ("unexpected key format: " ++ quoted key))

/-- The function `cache.DeletionHandlingMetaNamespaceKeyFunc` on an object that is not a
tombstone: the key of an object with the given namespace and name. -/
def MetaNamespaceKey (ns name : String) : String :=
  if ns.length > 0 then ns ++ "/" ++ name else name

/-- The function `strings.Contains` on character lists. -/
def containsChars (s sub : List Char) : Bool :=
  s.tails.any (fun t => sub.isPrefixOf t)

/-- The function `strings.Contains`. -/
def stringsContains (s sub : String) : Bool := containsChars s.data sub.data

/-- The key `corev1.DockerConfigJsonKey`. -/
def DockerConfigJsonKey : String := ".dockerconfigjson"

/-- The group that `ObjectReference.GroupVersionKind()` reads off the API version:
`schema.ParseGroupVersion` gives no group for "v1" and "g" for "g/v"; when the API
version does not parse, the group stays empty. -/
def ObjectReference.group (r : ObjectReference) : String :=
  match splitSlash r.apiVersion.data with
  | [g, _] => String.mk g
  | _ => ""

/-- The number of attempts of `retry.DefaultRetry` (`Steps: 5`). -/
def DefaultRetrySteps : Nat := 5

/-- The function `retry.RetryOnConflict` with a backoff of the given number of steps: `fn`
runs again while it fails with a conflict and steps are left; the pauses between attempts are
left out. `σ` holds what the closure reads and writes across attempts. -/
def RetryOnConflict {σ : Type} (fn : σ → Option Err × σ) : Nat → σ → Option Err × σ
  | 0, s => (none, s)
  | n + 1, s =>
    match fn s with
    | (none, s1) => (none, s1)
    | (some e, s1) =>
      if IsConflict e then
        (if n = 0 then (some e, s1) else RetryOnConflict fn n s1)
      else (some e, s1)

/-! ## Build requests and helper results -/

/-- The build request `ImageBuildRequest`; the type is declared outside the sources, the fields
are the ones the controller sets, together with the pair the request is made from. -/
structure ImageBuildRequest where
  machineOSConfig : MachineOSConfig
  machineOSBuild : MachineOSBuild
  mcoImagePullspec : String
  hasEtcPkiEntitlementKeys : Bool
  hasEtcPkiRpmGpgKeys : Bool
  hasEtcYumReposDConfigs : Bool
  deriving DecidableEq, Repr

/-- The result `ctrlcommon.Images` of parsing the images ConfigMap. -/
structure Images where
  machineConfigOperator : String
  deriving DecidableEq, Repr

/-- The result `ctrlcommon.OSImageURLConfig` of parsing the OS image URL ConfigMap. -/
structure OSImageURLConfig where
  baseOSContainerImage : String
  baseOSExtensionsContainerImage : String
  releaseVersion : String
  deriving DecidableEq, Repr

/-! ## Events -/

/-- One call to a collaborator, with the request and the response. -/
inductive Event where
  | buildUpdateStatus (mosb : MachineOSBuild) (res : Option Err)
  | buildUpdate (mosb : MachineOSBuild) (res : Res MachineOSBuild)
  | buildCreate (mosb : MachineOSBuild) (res : Res MachineOSBuild)
  | buildDelete (name : String) (res : Option Err)
  | configUpdateStatus (mosc : MachineOSConfig) (res : Option Err)
  | configUpdate (mosc : MachineOSConfig) (res : Option Err)
  | poolGet (name : String) (res : Res MachineConfigPool)
  | poolUpdate (pool : MachineConfigPool) (res : Option Err)
  | configMapGet (name : String) (res : Res ConfigMap)
  | configMapCreate (cm : ConfigMap) (res : Option Err)
  | configMapDelete (name : String) (res : Option Err)
  | secretGet (name : String) (res : Res Secret)
  | secretCreate (secret : Secret) (res : Res Secret)
  | secretUpdate (secret : Secret) (res : Res Secret)
  | machineConfigGet (name : String) (res : Res MachineConfig)
  | startBuild (ibr : ImageBuildRequest) (res : Res ObjectReference)
  | isBuildRunning (mosb : MachineOSBuild) (mosc : MachineOSConfig) (running : Bool)
      (err : Option Err)
  | deleteBuildObject (mosb : MachineOSBuild) (mosc : MachineOSConfig) (res : Option Err)
  | queueAdd (key : String)
  | queueAddRateLimited (key : String)
  | queueAddAfter (key : String) (delay : Nat)
  | queueForget (key : String)
  deriving DecidableEq, Repr

/-- The history of the calls made so far, oldest first. -/
abbrev History := List Event

/-! ## Environment -/

/-- The responses of the API server, each a function of the history and of the request. -/
structure Api where
  buildUpdateStatus : History → MachineOSBuild → Option Err
  buildUpdate : History → MachineOSBuild → Res MachineOSBuild
  buildCreate : History → MachineOSBuild → Res MachineOSBuild
  buildDelete : History → String → Option Err
  configUpdateStatus : History → MachineOSConfig → Option Err
  configUpdate : History → MachineOSConfig → Option Err
  poolGet : History → String → Res MachineConfigPool
  poolUpdate : History → MachineConfigPool → Option Err
  configMapGet : History → String → Res ConfigMap
  configMapCreate : History → ConfigMap → Option Err
  configMapDelete : History → String → Option Err
  secretGet : History → String → Res Secret
  secretCreate : History → Secret → Res Secret
  secretUpdate : History → Secret → Res Secret
  machineConfigGet : History → String → Res MachineConfig

/-- The builder backend behind the interface `ImageBuilder`. -/
structure ImageBuilder where
  StartBuild : History → ImageBuildRequest → Res ObjectReference
  IsBuildRunning : History → MachineOSBuild → MachineOSConfig → Bool × Option Err
  DeleteBuildObject : History → MachineOSBuild → MachineOSConfig → Option Err

/-- The functions and constants of this repository and of its libraries that the controller
calls and that are declared outside the sources; all of them are pure. -/
structure Helpers where
  parseNamed : String → Res String
  withTag : String → String → Res String
  ParseImagePullspec : String → String → Res String
  canonicalizePullSecret : Secret → Res Secret
  isCanonicalizedSecret : Secret → Bool
  validateCanonicalizedSecret : Secret → Option Err
  hasCanonicalizedSecretLabels : Secret → Bool
  OriginalSecretNameLabelKey : String
  EtcPkiEntitlementSecretName : String
  EtcPkiRpmGpgSecretName : String
  EtcYumReposDConfigMapName : String
  MachineConfigOSImageURLConfigMapName : String
  MachineConfigOperatorImagesConfigMapName : String
  ParseOSImageURLConfigMap : ConfigMap → Res OSImageURLConfig
  ParseImagesFromConfigMap : ConfigMap → Res Images
  newImageBuildRequest : MachineOSConfig → MachineOSBuild → ImageBuildRequest
  newImageBuildRequestFromBuildInputs : MachineOSBuild → MachineOSConfig → ImageBuildRequest
  getDigestConfigMapName : ImageBuildRequest → String
  getMCConfigMapName : ImageBuildRequest → String
  getDockerfileConfigMapName : ImageBuildRequest → String
  toConfigMap : ImageBuildRequest → MachineConfig → Res ConfigMap
  dockerfileToConfigMap : ImageBuildRequest → Res ConfigMap

/-- The configuration `BuildControllerConfig`; `UpdateDelay` is not read by the controller. -/
structure BuildControllerConfig where
  MaxRetries : Int

/-- The configuration `DefaultBuildControllerConfig`. -/
def DefaultBuildControllerConfig : BuildControllerConfig := { MaxRetries := 5 }

/-- Everything a handler of the controller depends on. -/
structure Env where
  machineOSBuilds : List MachineOSBuild
  machineOSConfigs : List MachineOSConfig
  pools : List MachineConfigPool
  api : Api
  imageBuilder : ImageBuilder
  helpers : Helpers
  config : BuildControllerConfig
  now : Nat
  pushSecretFirst : Bool

/-- The error of a lister whose cache has no object of the given name. -/
def listerNotFound (name : String) : Err :=
  { kind := ErrKind.notFound, msg := quoted name ++ " not found" }

/-- The call `machineOSBuildLister.Get`. -/
def Env.machineOSBuildListerGet (env : Env) (name : String) : Res MachineOSBuild :=
  match env.machineOSBuilds.find? (fun b => b.name == name) with
  | some b => Res.ok b
  | none => Res.err (listerNotFound name)

/-- The call `machineOSConfigLister.Get`. -/
def Env.machineOSConfigListerGet (env : Env) (name : String) : Res MachineOSConfig :=
  match env.machineOSConfigs.find? (fun c => c.name == name) with
  | some c => Res.ok c
  | none => Res.err (listerNotFound name)

/-- The call `mcpLister.Get`. -/
def Env.mcpListerGet (env : Env) (name : String) : Res MachineConfigPool :=
  match env.pools.find? (fun p => p.name == name) with
  | some p => Res.ok p
  | none => Res.err (listerNotFound name)

/-! ## Work queue -/

/-- The call `mosQueue.NumRequeues`: the failures the rate limiter counts for a key, one for
each rate-limited add since the key was last forgotten. -/
def NumRequeues (h : History) (key : String) : Nat :=
  h.foldl (fun n e =>
    match e with
    | Event.queueForget k => if k = key then 0 else n
    | Event.queueAddRateLimited k => if k = key then n + 1 else n
    | _ => n) 0

/-- The duration `1*time.Minute`, in nanoseconds. -/
def oneMinute : Nat := 60 * 1000000000

/-- Embedding of `handleErr`. -/
def handleErr (env : Env) (h : History) (err : Option Err) (key : String) : History :=
  match err with
  | none => h ++ [Event.queueForget key]
  | some _ =>
    if (NumRequeues h key : Int) < env.config.MaxRetries then
      h ++ [Event.queueAddRateLimited key]
    else
      h ++ [Event.queueForget key, Event.queueAddAfter key oneMinute]

/-- Embedding of `enqueueMachineOSBuild`. -/
def enqueueMachineOSBuild (h : History) (mosb : MachineOSBuild) : History :=
  h ++ [Event.queueAdd (MetaNamespaceKey mosb.ns mosb.name)]

/-- Embedding of `enqueueMachineOSConfig`. -/
def enqueueMachineOSConfig (h : History) (mosc : MachineOSConfig) : History :=
  h ++ [Event.queueAdd (MetaNamespaceKey mosc.ns mosc.name)]

/-! ## Condition helpers -/

/-- The constructor `apihelpers.NewMachineOSBuildCondition`, without the timestamp. -/
def NewMachineOSBuildCondition (condType : String) (status : ConditionStatus)
    (reason message : String) : Condition :=
  { condType := condType, status := status, reason := reason, message := message }

/-- Modelled from the spec: `apihelpers.SetMachineOSBuildCondition` is not among the sources.
Setting a condition rewrites the entry of its type in the condition vector: the entries of
that type are dropped and the new condition is added. -/
def SetMachineOSBuildCondition (status : MachineOSBuildStatus) (condition : Condition) :
    MachineOSBuildStatus :=
  { status with
    conditions :=
      status.conditions.filter (fun c => c.condType != condition.condType) ++ [condition] }

/-- Modelled from the spec: `ctrlcommon.NewMachineOSBuildState` is not among the sources. The
state wraps the record it is given: what a transition sets on `bs.Build` it sets on the
record itself, as the transitions suppose when they go on with `mosb` where they have set
conditions on `bs.Build` (`markBuildInProgress`) or the other way round
(`markBuildPendingWithObjectRef`). In the transitions below `bs.Build` and `mosb` are
therefore one value. -/
def NewMachineOSBuildState (mosb : MachineOSBuild) : MachineOSBuild := mosb

/-- Modelled from the spec: `MachineOSBuildState.SetBuildConditions` is not among the sources.
A transition rewrites the condition vector of the wrapped record with each of the given
conditions in turn. -/
def SetBuildConditions (build : MachineOSBuild) (conditions : List Condition) :
    MachineOSBuild :=
  { build with status := conditions.foldl SetMachineOSBuildCondition build.status }

/-- Modelled from the spec: `ignoreIsNotFoundErr` is not among the sources. With
`ignore_missing` a not-found result is treated as success, any other result is kept. -/
def ignoreIsNotFoundErr (err : Option Err) : Option Err :=
  match err with
  | some e => if IsNotFound e then none else some e
  | none => none

/-- The number of lifecycle conditions of a record that have status True. -/
def trueLifecycleCount (mosb : MachineOSBuild) : Nat :=
  (mosb.status.conditions.filter
    (fun c => c.status == ConditionStatus.condTrue && lifecycleTypes.contains c.condType)).length

/-- Whether a record has a condition of the given type with status True. -/
def hasTrueCondition (mosb : MachineOSBuild) (condType : String) : Bool :=
  mosb.status.conditions.any
    (fun c => c.condType == condType && c.status == ConditionStatus.condTrue)

/-! ## Status writes -/

/-- Embedding of `syncAvailableStatus`; the record is returned as the call leaves it. -/
def syncAvailableStatus (env : Env) (h : History) (mosb : MachineOSBuild) :
    Option Err × MachineOSBuild × History :=
  let sdegraded := NewMachineOSBuildCondition MachineOSBuildFailed ConditionStatus.condFalse
    "MOSCAvailable" "MOSC"
  let mosb1 := { mosb with status := SetMachineOSBuildCondition mosb.status sdegraded }
  let r := env.api.buildUpdateStatus h mosb1
  (r, mosb1, h ++ [Event.buildUpdateStatus mosb1 r])

/-- Embedding of `syncFailingStatus`; the record is returned as the call leaves it. -/
def syncFailingStatus (env : Env) (h : History) (mosc : MachineOSConfig)
    (mosb : MachineOSBuild) (err : Err) : Option Err × MachineOSBuild × History :=
  let sdegraded := NewMachineOSBuildCondition MachineOSBuildFailed ConditionStatus.condTrue
    "BuildFailed"
    ("Failed to build configuration for pool " ++ mosc.spec.machineConfigPool.name ++ ": " ++
      err.msg)
  let mosb1 := { mosb with status := SetMachineOSBuildCondition mosb.status sdegraded }
  let r := env.api.buildUpdateStatus h mosb1
  (some err, mosb1, h ++ [Event.buildUpdateStatus mosb1 r])

/-- One entry of the condition vector a transition writes. -/
def cond (condType : String) (status : ConditionStatus) (reason message : String) :
    Condition :=
  { condType := condType, status := status, reason := reason, message := message }

/-- The condition vector written by `markBuildInterrupted`. -/
def interruptedConditions : List Condition :=
  [cond MachineOSBuildPrepared ConditionStatus.condFalse "Prepared" "Build Prepared and Pending",
   cond MachineOSBuilding ConditionStatus.condFalse "Running" "Image Build In Progress",
   cond MachineOSBuildFailed ConditionStatus.condFalse "Failed" "Build Failed",
   cond MachineOSBuildInterrupted ConditionStatus.condTrue "Interrupted" "Build Interrupted",
   cond MachineOSBuildSucceeded ConditionStatus.condFalse "Ready" "Build Ready"]

/-- The condition vector written by `markBuildFailed`. -/
def failedConditions : List Condition :=
  [cond MachineOSBuildPrepared ConditionStatus.condFalse "Prepared" "Build Prepared and Pending",
   cond MachineOSBuilding ConditionStatus.condFalse "Building" "Image Build In Progress",
   cond MachineOSBuildFailed ConditionStatus.condTrue "Failed" "Build Failed",
   cond MachineOSBuildInterrupted ConditionStatus.condFalse "Interrupted" "Build Interrupted",
   cond MachineOSBuildSucceeded ConditionStatus.condFalse "Ready" "Build Ready"]

/-- The condition vector computed by `markBuildInProgress`. -/
def inProgressConditions : List Condition :=
  [cond MachineOSBuildPrepared ConditionStatus.condFalse "Prepared" "Build Prepared and Pending",
   cond MachineOSBuilding ConditionStatus.condTrue "Building" "Image Build In Progress",
   cond MachineOSBuildFailed ConditionStatus.condFalse "Failed" "Build Failed",
   cond MachineOSBuildInterrupted ConditionStatus.condFalse "Interrupted" "Build Interrupted",
   cond MachineOSBuildSucceeded ConditionStatus.condFalse "Ready" "Build Ready"]

/-- The condition vector written by `markBuildSucceeded`. -/
def succeededConditions : List Condition :=
  [cond MachineOSBuildPrepared ConditionStatus.condFalse "Prepared" "Build Prepared and Pending",
   cond MachineOSBuilding ConditionStatus.condFalse "Building" "Image Build In Progress",
   cond MachineOSBuildFailed ConditionStatus.condFalse "Failed" "Build Failed",
   cond MachineOSBuildInterrupted ConditionStatus.condFalse "Interrupted" "Build Interrupted",
   cond MachineOSBuildSucceeded ConditionStatus.condTrue "Ready" "Build Ready"]

/-- The condition vector written by `markBuildPendingWithObjectRef`. -/
def pendingConditions : List Condition :=
  [cond MachineOSBuildPrepared ConditionStatus.condTrue "Prepared" "Build Prepared and Pending",
   cond MachineOSBuilding ConditionStatus.condFalse "Building" "Image Build In Progress",
   cond MachineOSBuildFailed ConditionStatus.condFalse "Failed" "Build Failed",
   cond MachineOSBuildInterrupted ConditionStatus.condFalse "Interrupted" "Build Interrupted",
   cond MachineOSBuildSucceeded ConditionStatus.condFalse "Ready" "Build Ready"]

/-! ## Lifecycle transitions -/

/-- Embedding of `markBuildInterrupted`; the record is returned as the call leaves it. -/
def markBuildInterrupted (env : Env) (h : History) (_mosc : MachineOSConfig)
    (mosb : MachineOSBuild) : Option Err × MachineOSBuild × History :=
  RetryOnConflict (fun (s : MachineOSBuild × History) =>
    let bs := SetBuildConditions (NewMachineOSBuildState s.1) interruptedConditions
    let (r, mosb1, h1) := syncAvailableStatus env s.2 bs
    (r, (mosb1, h1))) DefaultRetrySteps (mosb, h)

/-- Embedding of `markBuildFailed`; the record is returned as the call leaves it. -/
def markBuildFailed (env : Env) (h : History) (mosc : MachineOSConfig)
    (mosb : MachineOSBuild) : Option Err × MachineOSBuild × History :=
  RetryOnConflict (fun (s : MachineOSBuild × History) =>
    let bs := SetBuildConditions (NewMachineOSBuildState s.1) failedConditions
    let (r, mosb1, h1) := syncFailingStatus env s.2 mosc bs (Err.new "BuildFailed")
    (r, (mosb1, h1))) DefaultRetrySteps (mosb, h)

/-- Embedding of `markBuildInProgress`; the record is returned as the call leaves it. The
closure sets the conditions on `bs.Build` and passes `mosb` to `syncAvailableStatus`; the two
are one record. -/
def markBuildInProgress (env : Env) (h : History) (mosb : MachineOSBuild) :
    Option Err × MachineOSBuild × History :=
  RetryOnConflict (fun (s : MachineOSBuild × History) =>
    let mosb1 := SetBuildConditions (NewMachineOSBuildState s.1) inProgressConditions
    let (r, mosb2, h1) := syncAvailableStatus env s.2 mosb1
    (r, (mosb2, h1))) DefaultRetrySteps (mosb, h)

/-- The message of `aggerrors.NewAggregate` for a non-empty list of errors. -/
def aggregateMessage (errs : List Err) : String :=
  match errs with
  | [e] => e.msg
  | _ => "[" ++ ", ".intercalate (errs.map (fun e => e.msg)) ++ "]"

/-- Embedding of `postBuildCleanup`. The three deletions run in goroutines of their own; here
they run in the order in which they are passed to `AggregateGoroutines`. The result is the
list of the errors aggregated, empty for a nil error. -/
def postBuildCleanup (env : Env) (h : History) (mosc : MachineOSConfig)
    (mosb : MachineOSBuild) (ignoreMissing : Bool) : List Err × History :=
  let maybeIgnoreMissing := fun (e : Option Err) =>
    if ignoreMissing then ignoreIsNotFoundErr e else e
  let ibr := env.helpers.newImageBuildRequest mosc mosb
  let r1 := env.imageBuilder.DeleteBuildObject h mosb mosc
  let h1 := h ++ [Event.deleteBuildObject mosb mosc r1]
  let r2 := env.api.configMapDelete h1 (env.helpers.getMCConfigMapName ibr)
  let h2 := h1 ++ [Event.configMapDelete (env.helpers.getMCConfigMapName ibr) r2]
  let r3 := env.api.configMapDelete h2 (env.helpers.getDockerfileConfigMapName ibr)
  let h3 := h2 ++ [Event.configMapDelete (env.helpers.getDockerfileConfigMapName ibr) r3]
  ((maybeIgnoreMissing r1).toList ++ (maybeIgnoreMissing r2).toList ++
    (maybeIgnoreMissing r3).toList, h3)

/-- Embedding of `finalizeOptOut`. -/
def finalizeOptOut (env : Env) (h : History) (mosc : MachineOSConfig)
    (mosb : MachineOSBuild) : List Err × History :=
  postBuildCleanup env h mosc mosb true

/-- Embedding of `updateConfigSpec`. -/
def updateConfigSpec (env : Env) (h : History) (mosc : MachineOSConfig) :
    Option Err × History :=
  let r := env.api.configUpdate h mosc
  let h1 := h ++ [Event.configUpdate mosc r]
  match r with
  | some e => (some (e.wrap ("could not update MachineOSConfig " ++ quoted mosc.name ++ ": ")), h1)
  | none => (none, h1)

/-- Embedding of `updateConfigAndBuild`. The status is written on the record the update
returned, after `newMosb.Status = mosb.Status`; `mosb` itself is left as it is. -/
def updateConfigAndBuild (env : Env) (h : History) (mosc : MachineOSConfig)
    (mosb : MachineOSBuild) : Option Err × History :=
  let r := env.api.configUpdateStatus h mosc
  let h1 := h ++ [Event.configUpdateStatus mosc r]
  match r with
  | some e => (some (e.wrap ("could not update MachineOSConfig" ++ quoted mosc.name ++ ": ")), h1)
  | none =>
    let r2 := env.api.buildUpdate h1 mosb
    let h2 := h1 ++ [Event.buildUpdate mosb r2]
    match r2 with
    | Res.err e =>
      (some (e.wrap ("could not update MachineOSBuild " ++ quoted mosb.name ++ ": ")), h2)
    | Res.ok newMosb =>
      let newMosb1 := { newMosb with status := mosb.status }
      let (r3, _, h3) := syncAvailableStatus env h2 newMosb1
      (r3, h3)

/-- Embedding of `markBuildSucceeded`; the configuration and the record of the caller are
returned as the call leaves them. -/
def markBuildSucceeded (env : Env) (h : History) (mosc : MachineOSConfig)
    (mosb : MachineOSBuild) : Option Err × MachineOSConfig × MachineOSBuild × History :=
  RetryOnConflict (fun (s : MachineOSConfig × MachineOSBuild × History) =>
    let mosc0 := s.1
    let mosb0 := s.2.1
    let h0 := s.2.2
    let ibr := env.helpers.newImageBuildRequest mosc0 mosb0
    let r := env.api.configMapGet h0 (env.helpers.getDigestConfigMapName ibr)
    let h1 := h0 ++ [Event.configMapGet (env.helpers.getDigestConfigMapName ibr) r]
    match r with
    | Res.err e => (some e, (mosc0, mosb0, h1))
    | Res.ok digestConfigMap =>
      match env.helpers.ParseImagePullspec mosc0.spec.buildInputs.renderedImagePushspec
          (mapGetD digestConfigMap.data "digest") with
      | Res.err e =>
        (some (e.wrap ("could not create digested image pullspec from the pullspec " ++
          quoted mosc0.status.currentImagePullspec ++ " and the digest " ++
          quoted (mapGetD digestConfigMap.data "digest") ++ ": ")), (mosc0, mosb0, h1))
      | Res.ok sha =>
        let mosc1 := { mosc0 with status := { mosc0.status with currentImagePullspec := sha } }
        let mosb1 := { mosb0 with status := { mosb0.status with finalImagePushspec := sha } }
        match postBuildCleanup env h1 mosc1 mosb1 false with
        | (e :: es, h2) =>
          (some (Err.new ("could not do post-build cleanup: " ++ aggregateMessage (e :: es))),
            (mosc1, mosb1, h2))
        | ([], h2) =>
          let bs := SetBuildConditions (NewMachineOSBuildState mosb1) succeededConditions
          let (r2, h3) := updateConfigAndBuild env h2 mosc1 bs
          (r2, (mosc1, bs, h3))) DefaultRetrySteps (mosc, mosb, h)

/-- Embedding of `markBuildPendingWithObjectRef`; the record of the caller is returned as the
call leaves it. -/
def markBuildPendingWithObjectRef (env : Env) (h : History) (mosc : MachineOSConfig)
    (mosb : MachineOSBuild) (objRef : ObjectReference) :
    Option Err × MachineOSBuild × History :=
  RetryOnConflict (fun (s : MachineOSBuild × History) =>
    let h0 := s.2
    let bs := SetBuildConditions (NewMachineOSBuildState s.1) pendingConditions
    let r := env.api.poolGet h0 mosc.spec.machineConfigPool.name
    let h1 := h0 ++ [Event.poolGet mosc.spec.machineConfigPool.name r]
    match r with
    | Res.err e => (some e, (bs, h1))
    | Res.ok mcp =>
      let mcp1 := { mcp with
        configuration := { mcp.configuration with
          source := mcp.configuration.source ++ [objRef] } }
      let h2 := h1 ++ [Event.poolUpdate mcp1 (env.api.poolUpdate h1 mcp1)]
      let bs1 :=
        if bs.status.builderReference = none then
          { bs with status := { bs.status with
              builderReference := some
                { imageBuilderType := mosc.spec.buildInputs.imageBuilderType
                  podImageBuilder := some
                    { name := objRef.name
                      group := objRef.group
                      ns := objRef.ns
                      resource := objRef.resourceVersion } } } }
        else bs
      let (r2, mosb1, h3) := syncAvailableStatus env h2 bs1
      (r2, (mosb1, h3))) DefaultRetrySteps (mosb, h)

/-! ## The should-build decision -/

/-- Embedding of `configChangeCauseBuild`; `equality.Semantic.DeepEqual` on build inputs is
equality of the record. -/
def configChangeCauseBuild (old cur : MachineOSConfig) : Bool :=
  decide (old.spec.buildInputs = cur.spec.buildInputs)

/-- Embedding of `shouldWeDoABuild`. -/
def shouldWeDoABuild (builder : ImageBuilder) (h : History) (mosc : MachineOSConfig)
    (oldMOSB curMOSB : MachineOSBuild) : (Bool × Option Err) × History :=
  if oldMOSB.spec.desiredConfig ≠ curMOSB.spec.desiredConfig then
    let r := builder.IsBuildRunning h curMOSB mosc
    ((!r.1, r.2), h ++ [Event.isBuildRunning curMOSB mosc r.1 r.2])
  else
    ((false, none), h)

/-! ## Secret canonicalization -/

/-- The empty object a typed client returns next to an error. -/
def emptySecret : Secret := { name := "", labels := [], data := [] }

/-- The bytes `secret.Data[key]`; a missing key gives the empty slice. -/
def secretBytes (secret : Secret) (key : String) : List Nat :=
  (mapGet secret.data key).getD []

/-- Embedding of `updateCanonicalizedSecret`. The closure state holds `out` and the history. -/
def updateCanonicalizedSecret (env : Env) (h : History) (secret : Secret) :
    Res Secret × History :=
  match env.helpers.validateCanonicalizedSecret secret with
  | some e => (Res.err (e.wrap "could not update canonicalized secret: "), h)
  | none =>
    let run := RetryOnConflict (fun (s : Option Secret × History) =>
      let g := env.api.secretGet s.2 secret.name
      let h1 := s.2 ++ [Event.secretGet secret.name g]
      let update := fun (found : Secret) =>
        let found1 := { found with data := secret.data }
        let u := env.api.secretUpdate h1 found1
        let h2 := h1 ++ [Event.secretUpdate found1 u]
        match u with
        | Res.err e =>
          (some (e.wrap ("could not update canonical secret " ++ quoted secret.name ++ ": ")),
            (s.1, h2))
        | Res.ok updated => (none, (some updated, h2))
      match g with
      | Res.ok found => update found
      | Res.err e =>
        if IsNotFound e then update emptySecret
        else
          (some (e.wrap ("could not get canonical secret " ++ quoted secret.name ++ ": ")),
            (s.1, h1))) DefaultRetrySteps (none, h)
    match run with
    | (some e, (_, h1)) => (Res.err e, h1)
    | (none, (some out, h1)) => (Res.ok out, h1)
    | (none, (none, h1)) => (Res.ok emptySecret, h1)

/-- Embedding of `createCanonicalizedSecret`; `validate` is the call back into
`validatePullSecret`. -/
def createCanonicalizedSecret (env : Env)
    (validate : History → String → Option (Res Secret × History))
    (h : History) (secret : Secret) : Option (Res Secret × History) :=
  match env.helpers.validateCanonicalizedSecret secret with
  | some e => some (Res.err (e.wrap "could not create canonicalized secret: "), h)
  | none =>
    let r := env.api.secretCreate h secret
    let h1 := h ++ [Event.secretCreate secret r]
    match r with
    | Res.ok out => some (Res.ok out, h1)
    | Res.err e =>
      if IsAlreadyExists e then
        validate h1 (mapGetD secret.labels env.helpers.OriginalSecretNameLabelKey)
      else
        some (Res.err (e.wrap ("could not create canonicalized secret " ++ quoted secret.name ++
          ": ")), h1)

/-- Embedding of `handleCanonicalizedPullSecret`; `validate` is the call back into
`validatePullSecret`. -/
def handleCanonicalizedPullSecret (env : Env)
    (validate : History → String → Option (Res Secret × History))
    (h : History) (secret : Secret) : Option (Res Secret × History) :=
  match env.helpers.validateCanonicalizedSecret secret with
  | some e => some (Res.err (e.wrap "could not handle canonicalized secret: "), h)
  | none =>
    let r := env.api.secretGet h secret.name
    let h1 := h ++ [Event.secretGet secret.name r]
    match r with
    | Res.ok out =>
      if secretBytes secret DockerConfigJsonKey = secretBytes out DockerConfigJsonKey ∧
          env.helpers.hasCanonicalizedSecretLabels secret = true then
        some (Res.ok out, h1)
      else
        some (updateCanonicalizedSecret env h1 secret)
    | Res.err e =>
      if IsNotFound e then createCanonicalizedSecret env validate h1 secret
      else
        some (Res.err (e.wrap ("could not get canonicalized secret " ++ quoted secret.name ++
          ": ")), h1)

/-- Embedding of `validatePullSecret`. The Go function calls itself without a bound; the
first argument bounds the depth of these calls, and `none` is the run that needs more. -/
def validatePullSecret (env : Env) : Nat → History → String → Option (Res Secret × History)
  | 0, _, _ => none
  | fuel + 1, h, name =>
    let r := env.api.secretGet h name
    let h1 := h ++ [Event.secretGet name r]
    match r with
    | Res.err e => some (Res.err e, h1)
    | Res.ok secret =>
      match env.helpers.canonicalizePullSecret secret with
      | Res.err e => some (Res.err e, h1)
      | Res.ok canonicalized =>
        if !env.helpers.isCanonicalizedSecret canonicalized &&
            !env.helpers.isCanonicalizedSecret secret then
          some (Res.ok secret, h1)
        else if env.helpers.isCanonicalizedSecret canonicalized &&
            !env.helpers.isCanonicalizedSecret secret then
          handleCanonicalizedPullSecret env (validatePullSecret env fuel) h1 canonicalized
        else
          validatePullSecret env fuel h1
            (mapGetD canonicalized.labels env.helpers.OriginalSecretNameLabelKey)

/-! ## Preparing a build -/

/-- Embedding of `getOptionalSecret`. -/
def getOptionalSecret (env : Env) (h : History) (secretName : String) :
    Res (Option Secret) × History :=
  let r := env.api.secretGet h secretName
  let h1 := h ++ [Event.secretGet secretName r]
  match r with
  | Res.ok optionalSecret => (Res.ok (some optionalSecret), h1)
  | Res.err e =>
    if IsNotFound e then (Res.ok none, h1)
    else (Res.err (e.wrap ("could not retrieve optional secret: " ++ secretName ++ ": ")), h1)

/-- Embedding of `getOptionalConfigMap`. -/
def getOptionalConfigMap (env : Env) (h : History) (configmapName : String) :
    Res (Option ConfigMap) × History :=
  let r := env.api.configMapGet h configmapName
  let h1 := h ++ [Event.configMapGet configmapName r]
  match r with
  | Res.ok optionalConfigMap => (Res.ok (some optionalConfigMap), h1)
  | Res.err e =>
    if IsNotFound e then (Res.ok none, h1)
    else
      (Res.err (e.wrap ("could not retrieve optional ConfigMap: " ++ configmapName ++ ": ")), h1)

/-- Embedding of `getOSImageURLConfig`. -/
def getOSImageURLConfig (env : Env) (h : History) : Res OSImageURLConfig × History :=
  let r := env.api.configMapGet h env.helpers.MachineConfigOSImageURLConfigMapName
  let h1 := h ++ [Event.configMapGet env.helpers.MachineConfigOSImageURLConfigMapName r]
  match r with
  | Res.err e =>
    (Res.err (e.wrap ("could not get ConfigMap " ++
      env.helpers.MachineConfigOSImageURLConfigMapName ++ ": ")), h1)
  | Res.ok cm => (env.helpers.ParseOSImageURLConfigMap cm, h1)

/-- Embedding of `getImagesConfig`. -/
def getImagesConfig (env : Env) (h : History) : Res Images × History :=
  let r := env.api.configMapGet h env.helpers.MachineConfigOperatorImagesConfigMapName
  let h1 := h ++ [Event.configMapGet env.helpers.MachineConfigOperatorImagesConfigMapName r]
  match r with
  | Res.err e =>
    (Res.err (e.wrap ("could not get configmap " ++
      env.helpers.MachineConfigOperatorImagesConfigMapName ++ ": ")), h1)
  | Res.ok cm => (env.helpers.ParseImagesFromConfigMap cm, h1)

/-- The defaults `prepareForBuild` fills into its copy of the configuration. -/
def fillDefaults (mosc : MachineOSConfig) (osImageURLConfig : OSImageURLConfig) :
    MachineOSConfig :=
  let moscNew := mosc
  let moscNew1 :=
    if moscNew.spec.buildInputs.baseOSExtensionsImagePullspec = "" then
      { moscNew with spec := { moscNew.spec with buildInputs := { moscNew.spec.buildInputs with
          baseOSExtensionsImagePullspec := osImageURLConfig.baseOSExtensionsContainerImage } } }
    else moscNew
  if moscNew1.spec.buildInputs.baseOSImagePullspec = "" then
    { moscNew1 with spec := { moscNew1.spec with buildInputs := { moscNew1.spec.buildInputs with
        baseOSImagePullspec := osImageURLConfig.baseOSContainerImage
        releaseVersion := osImageURLConfig.releaseVersion } } }
  else moscNew1

/-- Embedding of `prepareForBuild`. The request returned next to an error is not read by the
caller and is left out. -/
def prepareForBuild (env : Env) (h : History) (mosb : MachineOSBuild)
    (mosc : MachineOSConfig) : Res ImageBuildRequest × History :=
  let ibr := env.helpers.newImageBuildRequestFromBuildInputs mosb mosc
  match getImagesConfig env h with
  | (Res.err e, h1) => (Res.err (e.wrap "could not get images.json config: "), h1)
  | (Res.ok imagesConfig, h1) =>
    let ibr1 := { ibr with mcoImagePullspec := imagesConfig.machineConfigOperator }
    match getOSImageURLConfig env h1 with
    | (Res.err e, h2) => (Res.err (e.wrap "could not get osImageURL config: "), h2)
    | (Res.ok osImageURLConfig, h2) =>
      let moscNew := fillDefaults mosc osImageURLConfig
      match getOptionalSecret env h2 env.helpers.EtcPkiEntitlementSecretName with
      | (Res.err e, h3) => (Res.err e, h3)
      | (Res.ok etcPkiEntitlements, h3) =>
        let ibr2 := { ibr1 with hasEtcPkiEntitlementKeys := etcPkiEntitlements.isSome }
        match getOptionalSecret env h3 env.helpers.EtcPkiRpmGpgSecretName with
        | (Res.err e, h4) => (Res.err e, h4)
        | (Res.ok etcPkiRpmGpgKeys, h4) =>
          let ibr3 := { ibr2 with hasEtcPkiRpmGpgKeys := etcPkiRpmGpgKeys.isSome }
          match getOptionalConfigMap env h4 env.helpers.EtcYumReposDConfigMapName with
          | (Res.err e, h5) => (Res.err e, h5)
          | (Res.ok etcYumReposDConfigs, h5) =>
            let ibr4 := { ibr3 with
              hasEtcYumReposDConfigs := etcYumReposDConfigs.isSome
              machineOSConfig := moscNew }
            let r := env.api.machineConfigGet h5 mosb.spec.desiredConfig.name
            let h6 := h5 ++ [Event.machineConfigGet mosb.spec.desiredConfig.name r]
            match r with
            | Res.err e => (Res.err e, h6)
            | Res.ok mc =>
              match env.helpers.toConfigMap ibr4 mc with
              | Res.err e =>
                (Res.err (e.wrap ("could not convert MachineConfig " ++
                  mosb.spec.desiredConfig.name ++ " into ConfigMap: ")), h6)
              | Res.ok mcConfigMap =>
                let c1 := env.api.configMapCreate h6 mcConfigMap
                let h7 := h6 ++ [Event.configMapCreate mcConfigMap c1]
                match c1 with
                | some e =>
                  (Res.err (e.wrap ("could not load rendered MachineConfig " ++
                    mcConfigMap.name ++ " into configmap: ")), h7)
                | none =>
                  match env.helpers.dockerfileToConfigMap ibr4 with
                  | Res.err e =>
                    (Res.err (e.wrap "could not generate Dockerfile ConfigMap: "), h7)
                  | Res.ok dockerfileConfigMap =>
                    let c2 := env.api.configMapCreate h7 dockerfileConfigMap
                    let h8 := h7 ++ [Event.configMapCreate dockerfileConfigMap c2]
                    match c2 with
                    | some e =>
                      (Res.err (e.wrap ("could not load rendered Dockerfile " ++
                        dockerfileConfigMap.name ++ " into configmap: ")), h8)
                    | none => (Res.ok ibr4, h8)

/-! ## Starting a build -/

/-- The entries of the map `secrets` of `startBuildForMachineConfigPool`, in the order in
which the loop meets them; Go does not fix the order, the environment does. -/
def secretEntries (env : Env) (ourConfig : MachineOSConfig) : List (String × String) :=
  if env.pushSecretFirst then
    [("push", ourConfig.spec.buildInputs.renderedImagePushSecret.name),
     ("pull", ourConfig.spec.buildInputs.baseImagePullSecret.name)]
  else
    [("pull", ourConfig.spec.buildInputs.baseImagePullSecret.name),
     ("push", ourConfig.spec.buildInputs.renderedImagePushSecret.name)]

/-- The loop over the map `secrets` in `startBuildForMachineConfigPool`: the state is
`ourConfig`, `updateMOSC` and the history; an error ends the loop and the function. -/
def validateSecrets (env : Env) (fuel : Nat) :
    List (String × String) → MachineOSConfig → Bool → History →
    Option (Res (MachineOSConfig × Bool) × History)
  | [], ourConfig, updateMOSC, h => some (Res.ok (ourConfig, updateMOSC), h)
  | (key, s) :: rest, ourConfig, updateMOSC, h =>
    if s = "" then validateSecrets env fuel rest ourConfig updateMOSC h
    else
      match validatePullSecret env fuel h s with
      | none => none
      | some (Res.err e, h1) => some (Res.err e, h1)
      | some (Res.ok newS, h1) =>
        if stringsContains newS.name "canonical" then
          let ourConfig1 :=
            if key = "push" then
              { ourConfig with spec := { ourConfig.spec with buildInputs :=
                  { ourConfig.spec.buildInputs with
                    renderedImagePushSecret := { name := newS.name } } } }
            else if key = "pull" then
              { ourConfig with spec := { ourConfig.spec with buildInputs :=
                  { ourConfig.spec.buildInputs with
                    baseImagePullSecret := { name := newS.name } } } }
            else ourConfig
          validateSecrets env fuel rest ourConfig1 true h1
        else
          validateSecrets env fuel rest ourConfig updateMOSC h1

/-- Embedding of `startBuildForMachineConfigPool`; the record of the caller is returned as the
call leaves it, and `none` is the run in which `validatePullSecret` needs more than `fuel`
nested calls. What the function writes into `ourConfig`, an object of the informer cache, is
kept for the rest of the call only. -/
def startBuildForMachineConfigPool (env : Env) (fuel : Nat) (h : History)
    (mosc : MachineOSConfig) (mosb : MachineOSBuild) :
    Option (Option Err × MachineOSBuild × History) :=
  match env.machineOSConfigListerGet mosb.spec.machineOSConfig.name with
  | Res.err e => some (some e, mosb, h)
  | Res.ok ourConfig =>
    match env.helpers.parseNamed ourConfig.spec.buildInputs.renderedImagePushspec with
    | Res.err e => some (some e, mosb, h)
    | Res.ok named =>
      match env.helpers.withTag named mosb.spec.desiredConfig.name with
      | Res.err e =>
        some (some (e.wrap ("could not add tag " ++ mosb.spec.desiredConfig.name ++
          " to image pullspec " ++ ourConfig.spec.buildInputs.renderedImagePushspec ++ ": ")),
          mosb, h)
      | Res.ok tagged =>
        let ourConfig1 := { ourConfig with status := { ourConfig.status with
          currentImagePullspec := tagged } }
        match validateSecrets env fuel (secretEntries env ourConfig1) ourConfig1 false h with
        | none => none
        | some (Res.err e, h1) => some (some e, mosb, h1)
        | some (Res.ok (ourConfig2, updateMOSC), h1) =>
          match prepareForBuild env h1 mosb ourConfig2 with
          | (Res.err e, h2) =>
            some (some (e.wrap ("could not start build for MachineConfigPool " ++
              ourConfig2.spec.machineConfigPool.name ++ ": ")), mosb, h2)
          | (Res.ok ibr, h2) =>
            let r := env.imageBuilder.StartBuild h2 ibr
            let h3 := h2 ++ [Event.startBuild ibr r]
            match r with
            | Res.err e => some (some e, mosb, h3)
            | Res.ok objRef =>
              match markBuildPendingWithObjectRef env h3 mosc mosb objRef with
              | (some e, mosb1, h4) => some (some e, mosb1, h4)
              | (none, mosb1, h4) =>
                if updateMOSC then
                  let (r2, h5) := updateConfigSpec env h4 ourConfig2
                  some (r2, mosb1, h5)
                else some (none, mosb1, h4)

/-! ## Reconciliation -/

/-- The name `fmt.Sprintf("%s-%s-builder", pool, rendered)` of a build record. -/
def buildName (pool rendered : String) : String :=
  pool ++ "-" ++ rendered ++ "-builder"

/-- Embedding of `doesMOSBExist`; the option is the pair `(mosb, true)`. -/
def doesMOSBExist (env : Env) (mosc : MachineOSConfig) : Option MachineOSBuild :=
  match env.mcpListerGet mosc.spec.machineConfigPool.name with
  | Res.err _ => none
  | Res.ok mcp =>
    match env.machineOSBuildListerGet
        (buildName mosc.spec.machineConfigPool.name mcp.configuration.name) with
    | Res.err _ => none
    | Res.ok mosb => some mosb

/-- The record `build` that `CreateBuildFromConfig` makes for a configuration and its pool. -/
def newBuild (env : Env) (config : MachineOSConfig) (mcp : MachineConfigPool) :
    MachineOSBuild :=
  { ns := ""
    name := buildName config.spec.machineConfigPool.name mcp.configuration.name
    resourceVersion := ""
    spec :=
      { renderedImagePushspec := config.spec.buildInputs.renderedImagePushspec
        version := 1
        configGeneration := 1
        desiredConfig := { name := mcp.configuration.name }
        machineOSConfig := { name := config.name } }
    status :=
      { conditions := []
        builderReference := none
        finalImagePushspec := ""
        buildStart := some env.now } }

/-- Embedding of `CreateBuildFromConfig`: the record returned by the API server, the status
`&build.Status` of the record sent, and the error. -/
def CreateBuildFromConfig (env : Env) (h : History) (config : MachineOSConfig) :
    Res (MachineOSBuild × MachineOSBuildStatus) × History :=
  match env.mcpListerGet config.spec.machineConfigPool.name with
  | Res.err e => (Res.err e, h)
  | Res.ok mcp =>
    let build := newBuild env config mcp
    let r := env.api.buildCreate h build
    let h1 := h ++ [Event.buildCreate build r]
    match r with
    | Res.err e => (Res.err e, h1)
    | Res.ok mosb => (Res.ok (mosb, build.status), h1)

/-- What one pass through the body of the loop of `syncMachineOSBuilder` leaves. -/
inductive LoopResult where
  | returned (err : Option Err) (h : History)
  | goesOn (mosb : MachineOSBuild) (h : History)
  deriving DecidableEq, Repr

/-- The `default` case of the switch in `syncMachineOSBuilder`: the should-build decision for
the record and, when it is affirmative, the start of a build, whose error is dropped. -/
def decideAndStart (env : Env) (fuel : Nat) (h : History) (machineOSBuild : MachineOSBuild) :
    Option LoopResult :=
  match env.machineOSConfigListerGet machineOSBuild.spec.machineOSConfig.name with
  | Res.err e => some (LoopResult.returned (some e) h)
  | Res.ok machineOSConfig =>
    match shouldWeDoABuild env.imageBuilder h machineOSConfig machineOSBuild machineOSBuild with
    | ((_, some e), h1) => some (LoopResult.returned (some e) h1)
    | ((doABuild, none), h1) =>
      if doABuild then
        match startBuildForMachineConfigPool env fuel h1 machineOSConfig machineOSBuild with
        | none => none
        | some (_, mosb1, h2) => some (LoopResult.goesOn mosb1 h2)
      else some (LoopResult.goesOn machineOSBuild h1)

/-- The loop of `syncMachineOSBuilder` over the conditions the record had when the loop
began. -/
def syncConditions (env : Env) (fuel : Nat) :
    List Condition → MachineOSBuild → History → Option LoopResult
  | [], machineOSBuild, h => some (LoopResult.goesOn machineOSBuild h)
  | c :: rest, machineOSBuild, h =>
    if c.status = ConditionStatus.condTrue then
      if c.condType = MachineOSBuildPrepared then some (LoopResult.returned none h)
      else if c.condType = MachineOSBuilding then some (LoopResult.returned none h)
      else if c.condType = MachineOSBuildFailed then some (LoopResult.returned none h)
      else if c.condType = MachineOSBuildInterrupted then
        syncConditions env fuel rest machineOSBuild (enqueueMachineOSBuild h machineOSBuild)
      else if c.condType = MachineOSBuildSucceeded then some (LoopResult.returned none h)
      else
        match decideAndStart env fuel h machineOSBuild with
        | none => none
        | some (LoopResult.returned e h1) => some (LoopResult.returned e h1)
        | some (LoopResult.goesOn mosb1 h1) => syncConditions env fuel rest mosb1 h1
    else syncConditions env fuel rest machineOSBuild h

/-- Embedding of `syncMachineOSBuilder`: the error returned and the history; `none` is the run
in which `validatePullSecret` needs more than `fuel` nested calls. A lister fails with
NotFound only, so the two tests `k8serrors.IsNotFound(err)` hold whenever the lookup fails. -/
def syncMachineOSBuilder (env : Env) (fuel : Nat) (h : History) (key : String) :
    Option (Option Err × History) :=
  match SplitMetaNamespaceKey key with
  | Res.err e => some (some e, h)
  | Res.ok (_, name) =>
    match env.machineOSBuildListerGet name with
    | Res.ok machineOSBuild =>
      match syncConditions env fuel machineOSBuild.status.conditions machineOSBuild h with
      | none => none
      | some (LoopResult.returned e h1) => some (e, h1)
      | some (LoopResult.goesOn mosb1 h1) =>
        let (r, _, h2) := syncAvailableStatus env h1 mosb1
        some (r, h2)
    | Res.err _ =>
      match env.machineOSConfigListerGet name with
      | Res.err _ => some (none, h)
      | Res.ok machineOSConfig =>
        match doesMOSBExist env machineOSConfig with
        | some machineOSBuild =>
          let (r, _, h1) := syncAvailableStatus env h machineOSBuild
          some (r, h1)
        | none =>
          match CreateBuildFromConfig env h machineOSConfig with
          | (Res.err e, h1) => some (some e, h1)
          | (Res.ok (machineOSBuild, status), h1) =>
            let machineOSBuild1 := { machineOSBuild with status := status }
            match startBuildForMachineConfigPool env fuel h1 machineOSConfig machineOSBuild1 with
            | none => none
            | some (some e, mosb1, h2) =>
              let (_, _, h3) := syncAvailableStatus env h2 mosb1
              some (some e, h3)
            | some (none, _, h2) => some (none, h2)

/-! ## Reading a history -/

/-- The events a call added to the history `h` it was given, when it left `h1`. -/
def added (h h1 : History) : History := h1.drop h.length

/-- Whether some event puts the key on the work queue, at once, rate-limited or delayed. -/
def readds (events : History) (key : String) : Bool :=
  events.any (fun e =>
    match e with
    | Event.queueAdd k => k == key
    | Event.queueAddRateLimited k => k == key
    | Event.queueAddAfter k _ => k == key
    | _ => false)

/-! ## Concrete inputs -/

/-- A build configuration for the pool `worker`. -/
def exConfig : MachineOSConfig :=
  { ns := ""
    name := "layered"
    resourceVersion := "1"
    spec :=
      { machineConfigPool := { name := "worker" }
        buildInputs :=
          { baseOSExtensionsImagePullspec := ""
            baseOSImagePullspec := ""
            baseImagePullSecret := { name := "" }
            imageBuilderType := "PodImageBuilder"
            renderedImagePushSecret := { name := "" }
            renderedImagePushspec := "registry.example/os"
            releaseVersion := "" } }
    status := { currentImagePullspec := "" } }

/-- A build record of `exConfig` for the rendered configuration `rendered-1`, with no
condition. -/
def exBuild : MachineOSBuild :=
  { ns := ""
    name := "worker-rendered-1-builder"
    resourceVersion := "1"
    spec :=
      { renderedImagePushspec := "registry.example/os"
        version := 1
        configGeneration := 1
        desiredConfig := { name := "rendered-1" }
        machineOSConfig := { name := "layered" } }
    status :=
      { conditions := []
        builderReference := none
        finalImagePushspec := ""
        buildStart := some 0 } }

/-- The record `exBuild` once the pool desires `rendered-2`. -/
def exBuildNext : MachineOSBuild :=
  { exBuild with spec := { exBuild.spec with desiredConfig := { name := "rendered-2" } } }

/-- A backend whose `IsBuildRunning` fails the way the pod builder does on a failed lookup:
`(false, err)`. -/
def exFailingBackend : ImageBuilder :=
  { StartBuild := fun _ _ => Res.err (Err.new "backend unavailable")
    IsBuildRunning := fun _ _ _ => (false, some (Err.new "backend unavailable"))
    DeleteBuildObject := fun _ _ _ => some (Err.new "backend unavailable") }

/-- The records sent by the status writes (`UpdateStatus`) among the events. -/
def statusWrites (events : History) : List MachineOSBuild :=
  events.filterMap (fun e =>
    match e with
    | Event.buildUpdateStatus b _ => some b
    | _ => none)

/-- The records sent by the writes of a build record (`UpdateStatus` and `Update`) among the
events. -/
def recordWrites (events : History) : List MachineOSBuild :=
  events.filterMap (fun e =>
    match e with
    | Event.buildUpdateStatus b _ => some b
    | Event.buildUpdate b _ => some b
    | _ => none)

/-- The number of conditions of the given type with status True in a condition vector. -/
def trueCountOf (t : String) (l : List Condition) : Nat :=
  (l.filter (fun c => c.condType == t && c.status == ConditionStatus.condTrue)).length

/-- The history `h1` is `h` followed by events that all satisfy `Q`. -/
def GrowsBy (Q : Event → Prop) (h h1 : History) : Prop :=
  ∃ new, h1 = h ++ new ∧ ∀ e ∈ new, Q e

/-- The event writes no build record, or writes one that satisfies `P`. -/
def WritesOnly (P : MachineOSBuild → Prop) (e : Event) : Prop :=
  match e with
  | Event.buildUpdateStatus b _ => P b
  | Event.buildUpdate b _ => P b
  | _ => True

/-- The lifecycle condition types at which `syncMachineOSBuilder` returns at once. -/
def settledTypes : List String :=
  [MachineOSBuildPrepared, MachineOSBuilding, MachineOSBuildFailed, MachineOSBuildSucceeded]

/-- The number of conditions with status True in a condition vector. -/
def trueCount (l : List Condition) : Nat :=
  (l.filter (fun c => c.status == ConditionStatus.condTrue)).length

/-- The record that `syncAvailableStatus` sends when it is given `mosb`: `mosb` with the Failed
condition rewritten to False. -/
def availableRecord (mosb : MachineOSBuild) : MachineOSBuild :=
  { mosb with
    status := SetMachineOSBuildCondition mosb.status
      (NewMachineOSBuildCondition MachineOSBuildFailed ConditionStatus.condFalse
        "MOSCAvailable" "MOSC") }

/-- The pool `worker`, which desires the rendered configuration `rendered-1`. -/
def exPool : MachineConfigPool :=
  { name := "worker"
    resourceVersion := "1"
    configuration := { name := "rendered-1", source := [] } }

/-- The object reference of the build pod a backend returns. -/
def exObjectRef : ObjectReference :=
  { kind := "Pod"
    ns := "openshift-machine-config-operator"
    name := "build-rendered-1"
    apiVersion := "v1"
    resourceVersion := "7" }

/-- An API server on which every write succeeds, every ConfigMap and rendered configuration
asked for exists, and no secret exists. -/
def exApi : Api :=
  { buildUpdateStatus := fun _ _ => none
    buildUpdate := fun _ b => Res.ok b
    buildCreate := fun _ b => Res.ok b
    buildDelete := fun _ _ => none
    configUpdateStatus := fun _ _ => none
    configUpdate := fun _ _ => none
    poolGet := fun _ name =>
      if name = "worker" then Res.ok exPool
      else Res.err { kind := ErrKind.notFound, msg := "pool not found" }
    poolUpdate := fun _ _ => none
    configMapGet := fun _ name => Res.ok { name := name, data := [] }
    configMapCreate := fun _ _ => none
    configMapDelete := fun _ _ => none
    secretGet := fun _ _ => Res.err { kind := ErrKind.notFound, msg := "secret not found" }
    secretCreate := fun _ s => Res.ok s
    secretUpdate := fun _ s => Res.ok s
    machineConfigGet := fun _ name => Res.ok { name := name, raw := "" } }

/-- A backend that starts every build and reports no running build. -/
def exBackend : ImageBuilder :=
  { StartBuild := fun _ _ => Res.ok exObjectRef
    IsBuildRunning := fun _ _ _ => (false, none)
    DeleteBuildObject := fun _ _ _ => none }

/-- Helper functions for the concrete inputs: an image reference is well-formed when it is not
empty, and no secret needs to be canonicalized. -/
def exHelpers : Helpers :=
  { parseNamed := fun s =>
      if s = "" then Res.err (Err.new "repository name must have at least one component")
      else Res.ok s
    withTag := fun named tag => Res.ok (named ++ ":" ++ tag)
    ParseImagePullspec := fun pullspec digest => Res.ok (pullspec ++ "@" ++ digest)
    canonicalizePullSecret := fun s => Res.ok s
    isCanonicalizedSecret := fun _ => false
    validateCanonicalizedSecret := fun _ => none
    hasCanonicalizedSecretLabels := fun _ => true
    OriginalSecretNameLabelKey := "machineconfiguration.openshift.io/original-secret-name"
    EtcPkiEntitlementSecretName := "etc-pki-entitlement"
    EtcPkiRpmGpgSecretName := "etc-pki-rpm-gpg"
    EtcYumReposDConfigMapName := "etc-yum-repos-d"
    MachineConfigOSImageURLConfigMapName := "machine-config-osimageurl"
    MachineConfigOperatorImagesConfigMapName := "machine-config-operator-images"
    ParseOSImageURLConfigMap := fun _ =>
      Res.ok { baseOSContainerImage := "registry.example/base"
               baseOSExtensionsContainerImage := "registry.example/extensions"
               releaseVersion := "4.16" }
    ParseImagesFromConfigMap := fun _ => Res.ok { machineConfigOperator := "registry.example/mco" }
    newImageBuildRequest := fun mosc mosb =>
      { machineOSConfig := mosc
        machineOSBuild := mosb
        mcoImagePullspec := ""
        hasEtcPkiEntitlementKeys := false
        hasEtcPkiRpmGpgKeys := false
        hasEtcYumReposDConfigs := false }
    newImageBuildRequestFromBuildInputs := fun mosb mosc =>
      { machineOSConfig := mosc
        machineOSBuild := mosb
        mcoImagePullspec := ""
        hasEtcPkiEntitlementKeys := false
        hasEtcPkiRpmGpgKeys := false
        hasEtcYumReposDConfigs := false }
    getDigestConfigMapName := fun ibr => "digest-" ++ ibr.machineOSBuild.spec.desiredConfig.name
    getMCConfigMapName := fun ibr => "mc-" ++ ibr.machineOSBuild.spec.desiredConfig.name
    getDockerfileConfigMapName := fun ibr =>
      "dockerfile-" ++ ibr.machineOSBuild.spec.desiredConfig.name
    toConfigMap := fun ibr mc =>
      Res.ok { name := "mc-" ++ ibr.machineOSBuild.spec.desiredConfig.name
               data := [("machineconfig", mc.raw)] }
    dockerfileToConfigMap := fun ibr =>
      Res.ok { name := "dockerfile-" ++ ibr.machineOSBuild.spec.desiredConfig.name
               data := [("Dockerfile", "")] } }

/-- The environment with the given informer caches over `exApi`, `exBackend` and
`exHelpers`. -/
def exEnv (builds : List MachineOSBuild) (configs : List MachineOSConfig) : Env :=
  { machineOSBuilds := builds
    machineOSConfigs := configs
    pools := [exPool]
    api := exApi
    imageBuilder := exBackend
    helpers := exHelpers
    config := DefaultBuildControllerConfig
    now := 0
    pushSecretFirst := true }

/-- The record `exBuild` with the given condition type True and Failed False. -/
def exBuildIn (condType : String) : MachineOSBuild :=
  { exBuild with status := { exBuild.status with
      conditions :=
        [cond condType ConditionStatus.condTrue "" "",
         cond MachineOSBuildFailed ConditionStatus.condFalse "" ""] } }

/-- The configuration `exConfig` with a push image reference that does not parse. -/
def exConfigBadPushspec : MachineOSConfig :=
  { exConfig with spec := { exConfig.spec with buildInputs := { exConfig.spec.buildInputs with
      renderedImagePushspec := "" } } }

/-- The record that `CreateBuildFromConfig` sends for the given configuration when the pool
`worker` desires `rendered-1`. -/
def exCreated (config : MachineOSConfig) : MachineOSBuild :=
  { ns := ""
    name := "worker-rendered-1-builder"
    resourceVersion := ""
    spec :=
      { renderedImagePushspec := config.spec.buildInputs.renderedImagePushspec
        version := 1
        configGeneration := 1
        desiredConfig := { name := "rendered-1" }
        machineOSConfig := { name := "layered" } }
    status :=
      { conditions := []
        builderReference := none
        finalImagePushspec := ""
        buildStart := some 0 } }

/-- The events of the preparation of a build: reads and writes of secrets, ConfigMaps and
rendered configurations, and a call of `StartBuild` that fails. -/
def PrepEvent (e : Event) : Prop :=
  match e with
  | Event.secretGet _ _ => True
  | Event.secretCreate _ _ => True
  | Event.secretUpdate _ _ => True
  | Event.configMapGet _ _ => True
  | Event.configMapCreate _ _ => True
  | Event.machineConfigGet _ _ => True
  | Event.startBuild _ (Res.err _) => True
  | _ => False

/-- The record of the given name is Prepared: exactly one lifecycle condition is True, and it
is Prepared. -/
def IsPrepared (name : String) (b : MachineOSBuild) : Prop :=
  b.name = name ∧ trueLifecycleCount b = 1 ∧ hasTrueCondition b MachineOSBuildPrepared = true

/-- The events that follow a successful `StartBuild`: the update of the pool, status writes
of the record as Prepared, and the update of the configuration. -/
def PendingEvent (name : String) (e : Event) : Prop :=
  match e with
  | Event.poolGet _ _ => True
  | Event.poolUpdate _ _ => True
  | Event.configUpdate _ _ => True
  | Event.buildUpdateStatus b _ => IsPrepared name b
  | _ => False

/-- The event is no status write, or it is the status write of a record that satisfies `P`. -/
def StatusWritesOnly (P : MachineOSBuild → Prop) (e : Event) : Prop :=
  match e with
  | Event.buildUpdateStatus b _ => P b
  | _ => True

/-- The event is not a call of `StartBuild` that succeeded. -/
def NotStarted (e : Event) : Prop :=
  match e with
  | Event.startBuild _ (Res.ok _) => False
  | _ => True

/-- The history of the reconciliation of `exConfig`, without a record, when nothing fails. -/
def exPreparedHistory : History :=
  match syncMachineOSBuilder (exEnv [] [exConfig]) 1 [] "layered" with
  | some (_, h) => h
  | none => []

/-! ## Build pods -/

/-- The state of a container, as far as `isBuildPodError` reads it: the reason of
`State.Waiting` and the exit code of `State.Terminated`, each absent when the pointer is
nil. -/
structure ContainerStatus where
  waitingReason : Option String
  terminatedExitCode : Option Int
  deriving DecidableEq, Repr

/-- A `corev1.PodCondition`. -/
structure PodCondition where
  condType : String
  status : ConditionStatus
  reason : String
  deriving DecidableEq, Repr

/-- A `corev1.Pod`. -/
structure Pod where
  ns : String
  name : String
  labels : List (String × String)
  phase : String
  conditions : List PodCondition
  containerStatuses : List ContainerStatus
  deriving DecidableEq, Repr

/-- The phase `corev1.PodPending`. -/
def PodPending : String := "Pending"
/-- The phase `corev1.PodRunning`. -/
def PodRunning : String := "Running"
/-- The phase `corev1.PodSucceeded`. -/
def PodSucceeded : String := "Succeeded"
/-- The phase `corev1.PodFailed`. -/
def PodFailed : String := "Failed"

/-- The constant and the function of package `build` that the pod handlers use and that are
declared outside the sources. -/
structure PodHelpers where
  TargetMachineConfigPoolLabelKey : String
  toObjectRef : Pod → ObjectReference

/-- The map `errStates` of `isBuildPodError`. -/
def errStates : List String := ["ErrImagePull", "CreateContainerError"]

/-- The loop of `isBuildPodError` over the container statuses. -/
def isBuildPodErrorLoop : List ContainerStatus → Bool
  | [] => false
  | container :: rest =>
    if (match container.waitingReason with
        | some reason => errStates.contains reason
        | none => false) then true
    else if (match container.terminatedExitCode with
        | some exitCode => exitCode != 0
        | none => false) then true
    else isBuildPodErrorLoop rest

/-- Embedding of `isBuildPodError`. -/
def isBuildPodError (pod : Pod) : Bool := isBuildPodErrorLoop pod.containerStatuses

/-- Embedding of `isBuildPod`. -/
def isBuildPod (pod : Pod) : Bool := mapGetD pod.labels "build.openshift.io/build" == "true"

/-- Embedding of `isPodEvicted`. -/
def isPodEvicted (pod : Pod) : Bool :=
  pod.conditions.any (fun condition => condition.reason == "Evicted")

/-- Embedding of `getConfigAndBuildForPool`: `none` is the result `(nil, nil, nil)`, and the
record is `none` when no record of the configuration desires what the pool desires. The
listers list their caches without an error. -/
def getConfigAndBuildForPool (env : Env) (pool : MachineConfigPool) :
    Option (MachineOSConfig × Option MachineOSBuild) :=
  match env.machineOSConfigs.find? (fun config => config.spec.machineConfigPool.name == pool.name)
    with
  | none => none
  | some mosc =>
    some (mosc, env.machineOSBuilds.find? (fun build =>
      build.spec.machineOSConfig.name == mosc.name &&
        build.spec.desiredConfig.name == pool.configuration.name))

/-- Modelled from the spec: the methods `IsBuildPending`, `IsBuilding`, `IsBuildSuccess` and
`IsBuildFailure` of `MachineOSBuildState` are not among the sources. The record is in a
lifecycle state when the condition of that state is True. -/
def isInState (mosbState : MachineOSBuild) (condType : String) : Bool :=
  hasTrueCondition mosbState condType

/-- Embedding of `customBuildPodUpdater`. -/
def customBuildPodUpdater (env : Env) (ph : PodHelpers) (h : History) (pod : Pod) :
    Option Err × History :=
  let r := env.api.poolGet h (mapGetD pod.labels ph.TargetMachineConfigPoolLabelKey)
  let h1 := h ++ [Event.poolGet (mapGetD pod.labels ph.TargetMachineConfigPoolLabelKey) r]
  match r with
  | Res.err e => (some e, h1)
  | Res.ok pool =>
    match getConfigAndBuildForPool env pool with
    | some (mosc, some mosb) =>
      if isBuildPodError pod then
        match markBuildFailed env h1 mosc mosb with
        | (some e, _, h2) => (some e, h2)
        | (none, mosb1, h2) => (none, enqueueMachineOSBuild h2 mosb1)
      else
        let mosbState := NewMachineOSBuildState mosb
        let (err, mosb1, h2) : Option Err × MachineOSBuild × History :=
          if pod.phase = PodPending then
            if !isInState mosbState MachineOSBuildPrepared then
              markBuildPendingWithObjectRef env h1 mosc mosb (ph.toObjectRef pod)
            else (none, mosb, h1)
          else if pod.phase = PodRunning then
            if !isInState mosbState MachineOSBuilding then markBuildInProgress env h1 mosb
            else (none, mosb, h1)
          else if pod.phase = PodSucceeded then
            if !isInState mosbState MachineOSBuildSucceeded then
              let (e, _, mosb1, h2) := markBuildSucceeded env h1 mosc mosb
              (e, mosb1, h2)
            else (none, mosb, h1)
          else if pod.phase = PodFailed then
            if !isInState mosbState MachineOSBuildFailed then markBuildFailed env h1 mosc mosb
            else (none, mosb, h1)
          else (none, mosb, h1)
        match err with
        | some e => (some e, h2)
        | none => (none, enqueueMachineOSBuild h2 mosb1)
    | _ => (some (Err.new ("missing MOSC/MOSB for pool " ++ pool.name)), h1)

/-- How a handler that returns nothing ends: it returns, it dereferences a nil pointer, or
`validatePullSecret` needs more nested calls than the bound given. -/
inductive Handled where
  | done (h : History)
  | panicked (h : History)
  | unfinished
  deriving DecidableEq, Repr

/-- The history a handler leaves. -/
def Handled.history (x : Handled) : History :=
  match x with
  | Handled.done h => h
  | Handled.panicked h => h
  | Handled.unfinished => []

/-- Embedding of `rescheduleBuild`. When no record is found, `startBuildForMachineConfigPool`
reads `mosb.Spec` of the nil record. -/
def rescheduleBuild (env : Env) (ph : PodHelpers) (fuel : Nat) (h : History) (pod : Pod) :
    Handled :=
  let r := env.api.poolGet h (mapGetD pod.labels ph.TargetMachineConfigPoolLabelKey)
  let h1 := h ++ [Event.poolGet (mapGetD pod.labels ph.TargetMachineConfigPoolLabelKey) r]
  match r with
  | Res.err _ => Handled.done h1
  | Res.ok pool =>
    match getConfigAndBuildForPool env pool with
    | some (mosc, some mosb) =>
      match startBuildForMachineConfigPool env fuel h1 mosc mosb with
      | none => Handled.unfinished
      | some (_, _, h2) => Handled.done h2
    | _ => Handled.panicked h1

/-- Embedding of `markBuildFailedDueToError`. When no configuration or no record is found,
`markBuildFailed` reads `mosb.Name` of the nil record. -/
def markBuildFailedDueToError (env : Env) (ph : PodHelpers) (h : History) (pod : Pod) :
    Handled :=
  let r := env.api.poolGet h (mapGetD pod.labels ph.TargetMachineConfigPoolLabelKey)
  let h1 := h ++ [Event.poolGet (mapGetD pod.labels ph.TargetMachineConfigPoolLabelKey) r]
  match r with
  | Res.err _ => Handled.done h1
  | Res.ok pool =>
    match getConfigAndBuildForPool env pool with
    | some (mosc, some mosb) => Handled.done (markBuildFailed env h1 mosc mosb).2.2
    | _ => Handled.panicked h1

/-- Embedding of `handleBuildPodUpdate`. -/
def handleBuildPodUpdate (env : Env) (ph : PodHelpers) (fuel : Nat) (h : History)
    (pod : Pod) : Handled :=
  if pod.phase = PodFailed ∧ isPodEvicted pod = true then rescheduleBuild env ph fuel h pod
  else if pod.phase = PodFailed then markBuildFailedDueToError env ph h pod
  else Handled.done h

/-- Embedding of `handleBuildPodDeletion`. -/
def handleBuildPodDeletion (env : Env) (ph : PodHelpers) (fuel : Nat) (h : History)
    (pod : Pod) : Handled :=
  if isPodEvicted pod then rescheduleBuild env ph fuel h pod
  else Handled.done h

/-- The record that `markBuildFailed` sends when it is given `mosb`: the condition vector of
the Failed transition, then the Failed condition that `syncFailingStatus` sets. -/
def failedRecord (mosc : MachineOSConfig) (mosb : MachineOSBuild) : MachineOSBuild :=
  { mosb with
    status := SetMachineOSBuildCondition
      (failedConditions.foldl SetMachineOSBuildCondition mosb.status)
      (NewMachineOSBuildCondition MachineOSBuildFailed ConditionStatus.condTrue "BuildFailed"
        ("Failed to build configuration for pool " ++ mosc.spec.machineConfigPool.name ++ ": " ++
          (Err.new "BuildFailed").msg)) }

/-- A build pod of the pool `worker` in the given phase, with the given pod conditions and
container statuses. -/
def exPod (phase : String) (conditions : List PodCondition)
    (containerStatuses : List ContainerStatus) : Pod :=
  { ns := "openshift-machine-config-operator"
    name := "build-rendered-1"
    labels := [("build.openshift.io/build", "true"), ("pool", "worker")]
    phase := phase
    conditions := conditions
    containerStatuses := containerStatuses }

/-- The label key of the pool of a build pod and the object reference of a pod, for the
examples. -/
def exPodHelpers : PodHelpers :=
  { TargetMachineConfigPoolLabelKey := "pool"
    toObjectRef := fun pod =>
      { kind := "Pod", ns := pod.ns, name := pod.name, apiVersion := "v1",
        resourceVersion := "" } }

/-- A container that waits with the reason `ErrImagePull`. -/
def exErrImagePull : ContainerStatus :=
  { waitingReason := some "ErrImagePull", terminatedExitCode := none }

/-- The pod condition of an evicted pod. -/
def exEvicted : PodCondition :=
  { condType := "DisruptionTarget", status := ConditionStatus.condTrue, reason := "Evicted" }

/-- Whether the result of a deletion is an error that `postBuildCleanup` keeps: with
`ignoreMissing` a not-found error is dropped, every other error is kept. -/
def survives (ignoreMissing : Bool) (e : Err) : Bool :=
  !(ignoreMissing && IsNotFound e)

/-- One attempt of `markBuildSucceeded`: the closure it passes to `RetryOnConflict`, on the
configuration, the record and the history as the attempts before have left them. -/
def succeededAttempt (env : Env) (s : MachineOSConfig × MachineOSBuild × History) :
    Option Err × MachineOSConfig × MachineOSBuild × History :=
  let mosc0 := s.1
  let mosb0 := s.2.1
  let h0 := s.2.2
  let ibr := env.helpers.newImageBuildRequest mosc0 mosb0
  let r := env.api.configMapGet h0 (env.helpers.getDigestConfigMapName ibr)
  let h1 := h0 ++ [Event.configMapGet (env.helpers.getDigestConfigMapName ibr) r]
  match r with
  | Res.err e => (some e, (mosc0, mosb0, h1))
  | Res.ok digestConfigMap =>
    match env.helpers.ParseImagePullspec mosc0.spec.buildInputs.renderedImagePushspec
        (mapGetD digestConfigMap.data "digest") with
    | Res.err e =>
      (some (e.wrap ("could not create digested image pullspec from the pullspec " ++
        quoted mosc0.status.currentImagePullspec ++ " and the digest " ++
        quoted (mapGetD digestConfigMap.data "digest") ++ ": ")), (mosc0, mosb0, h1))
    | Res.ok sha =>
      let mosc1 := { mosc0 with status := { mosc0.status with currentImagePullspec := sha } }
      let mosb1 := { mosb0 with status := { mosb0.status with finalImagePushspec := sha } }
      match postBuildCleanup env h1 mosc1 mosb1 false with
      | (e :: es, h2) =>
        (some (Err.new ("could not do post-build cleanup: " ++ aggregateMessage (e :: es))),
          (mosc1, mosb1, h2))
      | ([], h2) =>
        let bs := SetBuildConditions (NewMachineOSBuildState mosb1) succeededConditions
        let (r2, h3) := updateConfigAndBuild env h2 mosc1 bs
        (r2, (mosc1, bs, h3))

/-- The configuration with the pullspec `sha` set as its current image. -/
def withCurrentImage (mosc : MachineOSConfig) (sha : String) : MachineOSConfig :=
  { mosc with status := { mosc.status with currentImagePullspec := sha } }

/-- The record with the pullspec `sha` set as its final image. -/
def withFinalImage (mosb : MachineOSBuild) (sha : String) : MachineOSBuild :=
  { mosb with status := { mosb.status with finalImagePushspec := sha } }

/-- The event is not a status write of a build record that the API server accepted. -/
def NoStatusWritten (e : Event) : Prop :=
  match e with
  | Event.buildUpdateStatus _ none => False
  | _ => True

/-- The API server `exApi` with a digest ConfigMap that holds the digest `sha256:abc`. -/
def exDigestApi : Api :=
  { exApi with
    configMapGet := fun _ name => Res.ok { name := name, data := [("digest", "sha256:abc")] } }

/-- The record that the status write of `markBuildSucceeded` sends: the record `newMosb` that
the update returned, with the status of the caller's record, on which the pullspec `sha` and
the conditions of the Succeeded transition are set. -/
def succeededWrite (newMosb mosb0 : MachineOSBuild) (sha : String) : MachineOSBuild :=
  availableRecord { newMosb with
    status := (SetBuildConditions (withFinalImage mosb0 sha) succeededConditions).status }

/-- The configuration and the record are the ones of `s`, up to their status. -/
def SameObjects (s s1 : MachineOSConfig × MachineOSBuild × History) : Prop :=
  GrowsBy (fun _ => True) s.2.2 s1.2.2 ∧ s1.1.spec = s.1.spec ∧ s1.1.name = s.1.name ∧
    s1.2.1.spec = s.2.1.spec ∧ s1.2.1.name = s.2.1.name

/-- The error of a write that the API server rejects because the record it is given carries a
version token that is not the current one. -/
def exConflict : Err :=
  { kind := ErrKind.conflict, msg := "the object has been modified" }

/-- The API server `exApi` when the store holds the build record at the version token `2`: a
write of a record that carries another token is rejected with a conflict. -/
def exConflictApi : Api :=
  { exApi with
    buildUpdateStatus := fun _ b => if b.resourceVersion = "2" then none else some exConflict
    buildUpdate := fun _ b => if b.resourceVersion = "2" then Res.ok b else Res.err exConflict }

/-- For each write of a build record among the events, the version token of the record sent
and whether the API server accepted the write. -/
def writeTokens (events : History) : List (String × Bool) :=
  events.filterMap (fun e =>
    match e with
    | Event.buildUpdateStatus b r => some (b.resourceVersion, r.isNone)
    | Event.buildUpdate b (Res.ok _) => some (b.resourceVersion, true)
    | Event.buildUpdate b (Res.err _) => some (b.resourceVersion, false)
    | _ => none)

/-- The environment of `exConflictApi`, with the record `exBuild` (version token `1`) in the
informer cache. -/
def exConflictEnv : Env :=
  { exEnv [exBuild] [exConfig] with api := exConflictApi }

/-! ## The object store behind the API

The claims about the content objects of a build and about canonical secrets speak of the
state of the store. The store is not code of the controller; it is taken here as the API
server keeps it: what a read returns is what the writes accepted before have left. -/

/-- The secrets and ConfigMaps of the controller's namespace. For a name that occurs twice the
first entry is the object stored. -/
structure Store where
  secrets : List Secret
  configMaps : List ConfigMap
  deriving DecidableEq, Repr

/-- The secret stored under a name. -/
def Store.getSecret (store : Store) (name : String) : Option Secret :=
  store.secrets.find? (fun s => s.name == name)

/-- The ConfigMap stored under a name. -/
def Store.getConfigMap (store : Store) (name : String) : Option ConfigMap :=
  store.configMaps.find? (fun cm => cm.name == name)

/-- The store after an event: a create or an update that was accepted stores the object, a
deletion that was accepted removes it, every other event leaves the store as it is. -/
def Store.step (store : Store) (e : Event) : Store :=
  match e with
  | Event.secretCreate _ (Res.ok out) => { store with secrets := out :: store.secrets }
  | Event.secretUpdate _ (Res.ok out) => { store with secrets := out :: store.secrets }
  | Event.configMapCreate cm none => { store with configMaps := cm :: store.configMaps }
  | Event.configMapDelete name none =>
    { store with configMaps := store.configMaps.filter (fun cm => cm.name != name) }
  | _ => store

/-- The store that the events of a history leave of the store `init`. -/
def Store.after (init : Store) (h : History) : Store := h.foldl Store.step init

/-- The error of a read, update or deletion of an object that is not stored. -/
def errNotFound (name : String) : Err :=
  { kind := ErrKind.notFound, msg := quoted name ++ " not found" }

/-- The error of a create of an object that is stored already. -/
def errAlreadyExists (name : String) : Err :=
  { kind := ErrKind.alreadyExists, msg := quoted name ++ " already exists" }

/-- The API server over the store `init`: secrets and ConfigMaps are read from and written to
the store that the history has left, every other call is answered as `base` answers it. -/
def storeApi (init : Store) (base : Api) : Api :=
  { base with
    secretGet := fun h name =>
      match (Store.after init h).getSecret name with
      | some s => Res.ok s
      | none => Res.err (errNotFound name)
    secretCreate := fun h s =>
      match (Store.after init h).getSecret s.name with
      | some _ => Res.err (errAlreadyExists s.name)
      | none => Res.ok s
    secretUpdate := fun h s =>
      match (Store.after init h).getSecret s.name with
      | some _ => Res.ok s
      | none => Res.err (errNotFound s.name)
    configMapGet := fun h name =>
      match (Store.after init h).getConfigMap name with
      | some cm => Res.ok cm
      | none => Res.err (errNotFound name)
    configMapCreate := fun h cm =>
      match (Store.after init h).getConfigMap cm.name with
      | some _ => some (errAlreadyExists cm.name)
      | none => none
    configMapDelete := fun h name =>
      match (Store.after init h).getConfigMap name with
      | some _ => none
      | none => some (errNotFound name) }

/-- The event is a read of a secret. -/
def IsSecretGet (e : Event) : Prop :=
  match e with
  | Event.secretGet _ _ => True
  | _ => False

/-- Whether the event is a call of `StartBuild`. -/
def isStartBuild (e : Event) : Bool :=
  match e with
  | Event.startBuild _ _ => true
  | _ => false

/-- A store that holds the two ConfigMaps of the operator that `prepareForBuild` reads, and
nothing else. -/
def exStore : Store :=
  { secrets := []
    configMaps :=
      [{ name := "machine-config-operator-images", data := [] },
       { name := "machine-config-osimageurl", data := [] }] }

/-- The environment of `exEnv` over the store `exStore`. -/
def exStoreEnv (builds : List MachineOSBuild) : Env :=
  { exEnv builds [exConfig] with api := storeApi exStore exApi }

/-- The result of the first start of the build of `exBuild` over `exStore`. -/
def exStarted : Option Err × MachineOSBuild × History :=
  match startBuildForMachineConfigPool (exStoreEnv [exBuild]) 1 [] exConfig exBuild with
  | some r => r
  | none => (none, exBuild, [])

/-! ## Canonical secrets: helper functions for the concrete inputs

The functions `canonicalizePullSecret`, `isCanonicalizedSecret`,
`hasCanonicalizedSecretLabels` and `validateCanonicalizedSecret` are fields of `Helpers`. The
instance below is the one the concrete inputs use. -/

/-- The label that marks a canonical secret, for the concrete inputs. -/
def exCanonicalLabelKey : String := "machineconfiguration.openshift.io/canonicalized-secret"

/-- The suffix of the derived name of a canonical secret. -/
def canonicalSecretSuffix : String := "-canonical"

/-- Credentials are taken to be in the nested schema when their first byte is `97`. -/
def exIsNested (bytes : List Nat) : Bool := bytes.head? == some 97

/-- The labels of canonical secrets are present. -/
def exHasLabels (helpers : Helpers) (s : Secret) : Bool :=
  (mapGet s.labels exCanonicalLabelKey).isSome &&
    (mapGet s.labels helpers.OriginalSecretNameLabelKey).isSome

/-- The secret carries the labels of canonical secrets and a derived name. -/
def exIsCanonicalized (helpers : Helpers) (s : Secret) : Bool :=
  exHasLabels helpers s && canonicalSecretSuffix.data.isSuffixOf s.name.data

/-- Canonicalization for the concrete inputs: credentials in the nested schema are left as
they are; bare credentials are wrapped into the nested schema, in a secret with the derived
name and the labels of canonical secrets, one of which names the original secret. -/
def exCanonicalize (helpers : Helpers) (s : Secret) : Res Secret :=
  if exIsNested (secretBytes s DockerConfigJsonKey) then Res.ok s
  else
    Res.ok
      { name := s.name ++ canonicalSecretSuffix
        labels := [(exCanonicalLabelKey, ""), (helpers.OriginalSecretNameLabelKey, s.name)]
        data := [(DockerConfigJsonKey, 97 :: secretBytes s DockerConfigJsonKey)] }

/-- The helper functions `exHelpers` with canonicalization as above. -/
def exCanonicalHelpers : Helpers :=
  { exHelpers with
    canonicalizePullSecret := exCanonicalize exHelpers
    isCanonicalizedSecret := exIsCanonicalized exHelpers
    hasCanonicalizedSecretLabels := exHasLabels exHelpers
    validateCanonicalizedSecret := fun s =>
      if exIsCanonicalized exHelpers s then none
      else some (Err.new ("secret " ++ quoted s.name ++ " is not canonicalized")) }

/-- A secret `pull` with bare credentials. -/
def exLegacySecret : Secret :=
  { name := "pull", labels := [], data := [(DockerConfigJsonKey, [1, 2, 3])] }

/-- The canonical secret that `exCanonicalize` computes for `exLegacySecret`. -/
def exComputedSecret : Secret :=
  { name := "pull-canonical"
    labels := [(exCanonicalLabelKey, ""),
      ("machineconfiguration.openshift.io/original-secret-name", "pull")]
    data := [(DockerConfigJsonKey, [97, 1, 2, 3])] }

/-- The environment of `exEnv` with the helper functions `exCanonicalHelpers`, over a store
that holds the given secrets. -/
def exSecretEnv (secrets : List Secret) : Env :=
  { exEnv [exBuild] [exConfig] with
    api := storeApi { secrets := secrets, configMaps := [] } exApi
    helpers := exCanonicalHelpers }

/-- A secret that carries the labels of canonical secrets and whose original-name label is its
own name. -/
def exLoopSecret : Secret :=
  { name := "loop-canonical"
    labels := [(exCanonicalLabelKey, ""),
      ("machineconfiguration.openshift.io/original-secret-name", "loop-canonical")]
    data := [(DockerConfigJsonKey, [97])] }

/-- A canonicalized secret whose original-name label names the given secret. -/
def exAlias (name original : String) : Secret :=
  { name := name
    labels := [(exCanonicalLabelKey, ""),
      ("machineconfiguration.openshift.io/original-secret-name", original)]
    data := [(DockerConfigJsonKey, [97])] }

/-- A store with a chain of original-name labels: `second-canonical` names `first-canonical`,
which names `pull-canonical`, the canonical secret of `pull`. -/
def exChain : List Secret :=
  [exAlias "second-canonical" "first-canonical", exAlias "first-canonical" "pull-canonical",
    exComputedSecret, exLegacySecret]

/-! ## Event handlers of configurations and records -/

/-- What an informer passes to a delete handler as `interface{}`: the object itself, a
`cache.DeletedFinalStateUnknown` tombstone, whose `Obj` holds an object of the type or
something else (`none`), or a value that is neither. -/
inductive Notified (α : Type) where
  | object (x : α)
  | tombstone (obj : Option α)
  | other
  deriving DecidableEq, Repr

/-- Embedding of `updateMachineOSConfig`. The deep copies are the values; the result of
`startBuildForMachineConfigPool` is dropped. -/
def updateMachineOSConfig (env : Env) (fuel : Nat) (h : History)
    (old cur : MachineOSConfig) : Handled :=
  let oldMOSC := old
  let curMOSC := cur
  if oldMOSC.spec.buildInputs = curMOSC.spec.buildInputs then Handled.done h
  else
    let doABuild := configChangeCauseBuild oldMOSC curMOSC
    if doABuild then
      match doesMOSBExist env curMOSC with
      | some build =>
        match startBuildForMachineConfigPool env fuel h curMOSC build with
        | none => Handled.unfinished
        | some (_, _, h1) => Handled.done (enqueueMachineOSConfig h1 curMOSC)
      | none => Handled.done (enqueueMachineOSConfig h curMOSC)
    else Handled.done (enqueueMachineOSConfig h curMOSC)

/-- Embedding of `deleteMachineOSConfig`. The type assertion `cur.(*MachineOSConfig)` leaves
`mosc` nil when `cur` is not a configuration, and the next statement reads `mosc.Spec`. The
errors passed to `utilruntime.HandleError` are only logged. -/
def deleteMachineOSConfig (env : Env) (h : History) (cur : Notified MachineOSConfig) :
    Handled :=
  match cur with
  | Notified.object mosc =>
    match env.mcpListerGet mosc.spec.machineConfigPool.name with
    | Res.err _ => Handled.done h
    | Res.ok mcp =>
      match env.machineOSBuildListerGet
          (buildName mosc.spec.machineConfigPool.name mcp.configuration.name) with
      | Res.ok mosb =>
        let running := env.imageBuilder.IsBuildRunning h mosb mosc
        let h1 := h ++ [Event.isBuildRunning mosb mosc running.1 running.2]
        let (mosb1, h2) : MachineOSBuild × History :=
          if running.1 then
            let d := env.imageBuilder.DeleteBuildObject h1 mosb mosc
            let r := markBuildInterrupted env (h1 ++ [Event.deleteBuildObject mosb mosc d])
              mosc mosb
            (r.2.1, r.2.2)
          else (mosb, h1)
        Handled.done (h2 ++ [Event.buildDelete mosb1.name (env.api.buildDelete h2 mosb1.name)])
      | Res.err _ => Handled.done h
  | Notified.tombstone _ => Handled.panicked h
  | Notified.other => Handled.panicked h

/-- Embedding of `deleteMachineOSBuild`: the handler only logs. -/
def deleteMachineOSBuild (h : History) (mosb : Notified MachineOSBuild) : Handled :=
  match mosb with
  | Notified.object _ => Handled.done h
  | Notified.tombstone (some _) => Handled.done h
  | Notified.tombstone none => Handled.done h
  | Notified.other => Handled.done h

/-- Embedding of `updateMachineOSBuild`. The test of the early return compares the status of
the old record with itself. -/
def updateMachineOSBuild (env : Env) (fuel : Nat) (h : History)
    (old cur : MachineOSBuild) : Handled :=
  let oldMOSB := old
  let curMOSB := cur
  if oldMOSB.status = oldMOSB.status then Handled.done h
  else
    match env.machineOSConfigListerGet curMOSB.spec.machineOSConfig.name with
    | Res.err _ => Handled.done h
    | Res.ok ourConfig =>
      match shouldWeDoABuild env.imageBuilder h ourConfig oldMOSB curMOSB with
      | ((_, some _), h1) => Handled.done h1
      | ((doABuild, none), h1) =>
        if doABuild then
          match startBuildForMachineConfigPool env fuel h1 ourConfig curMOSB with
          | none => Handled.unfinished
          | some (_, mosb1, h2) => Handled.done (enqueueMachineOSBuild h2 mosb1)
        else Handled.done (enqueueMachineOSBuild h1 curMOSB)

/-- Whether the event puts a key on the work queue. -/
def isQueueAdd (e : Event) : Bool :=
  match e with
  | Event.queueAdd _ => true
  | Event.queueAddRateLimited _ => true
  | Event.queueAddAfter _ _ => true
  | _ => false

/-- Whether the event deletes a ConfigMap or the builder object. -/
def isArtifactDelete (e : Event) : Bool :=
  match e with
  | Event.configMapDelete _ _ => true
  | Event.deleteBuildObject _ _ _ => true
  | _ => false

/-- A backend that reports a running build for every record. -/
def exRunningBackend : ImageBuilder :=
  { exBackend with IsBuildRunning := fun _ _ _ => (true, none) }

/-- The environment of `exEnv` with the record `exBuild` and the backend
`exRunningBackend`. -/
def exRunningEnv : Env :=
  { exEnv [exBuild] [exConfig] with imageBuilder := exRunningBackend }

/-! ## Observations on the preparation of a build -/

/-- Whether a lookup has found its object. -/
def isFound {α : Type} (r : Res α) : Bool :=
  match r with
  | Res.ok _ => true
  | Res.err _ => false

/-- Whether a lookup has failed with an error other than not-found. -/
def lookupFailed {α : Type} (r : Res α) : Bool :=
  match r with
  | Res.ok _ => false
  | Res.err e => !IsNotFound e

/-- Whether the event is a create of a ConfigMap. -/
def isConfigMapCreate (e : Event) : Bool :=
  match e with
  | Event.configMapCreate _ _ => true
  | _ => false

/-- The six reads that `prepareForBuild` makes before it creates a ConfigMap, with their
results. -/
def prepareReads (env : Env) (mosb : MachineOSBuild) (cmI cmO : ConfigMap)
    (r1 r2 : Res Secret) (r3 : Res ConfigMap) (mc : MachineConfig) : History :=
  [Event.configMapGet env.helpers.MachineConfigOperatorImagesConfigMapName (Res.ok cmI),
    Event.configMapGet env.helpers.MachineConfigOSImageURLConfigMapName (Res.ok cmO),
    Event.secretGet env.helpers.EtcPkiEntitlementSecretName r1,
    Event.secretGet env.helpers.EtcPkiRpmGpgSecretName r2,
    Event.configMapGet env.helpers.EtcYumReposDConfigMapName r3,
    Event.machineConfigGet mosb.spec.desiredConfig.name (Res.ok mc)]

/-- The request that `prepareForBuild` has assembled when it creates the ConfigMaps. -/
def preparedRequest (env : Env) (mosb : MachineOSBuild) (mosc : MachineOSConfig)
    (images : Images) (d : OSImageURLConfig) (r1 r2 : Res Secret) (r3 : Res ConfigMap) :
    ImageBuildRequest :=
  { env.helpers.newImageBuildRequestFromBuildInputs mosb mosc with
    mcoImagePullspec := images.machineConfigOperator
    hasEtcPkiEntitlementKeys := isFound r1
    hasEtcPkiRpmGpgKeys := isFound r2
    hasEtcYumReposDConfigs := isFound r3
    machineOSConfig := fillDefaults mosc d }

/-- The object an optional lookup has found, if any. -/
def foundObject {α : Type} (r : Res α) : Option α :=
  match r with
  | Res.ok a => some a
  | Res.err _ => none

/-- What `getOptionalSecret` and `getOptionalConfigMap` make of the result of their lookup:
the object, nil for a not-found error, and every other error wrapped. -/
def optionalResult {α : Type} (what : String) (r : Res α) : Res (Option α) :=
  match r with
  | Res.ok a => Res.ok (some a)
  | Res.err e => if IsNotFound e then Res.ok none else Res.err (e.wrap what)

/-- The configuration `exConfig` with a base OS image of its own and no release version. -/
def exConfigOwnBase : MachineOSConfig :=
  { exConfig with spec := { exConfig.spec with buildInputs := { exConfig.spec.buildInputs with
      baseOSImagePullspec := "registry.example/custom" } } }

/-- The configuration `exConfig` with a release version of its own and no base OS image. -/
def exConfigOwnRelease : MachineOSConfig :=
  { exConfig with spec := { exConfig.spec with buildInputs := { exConfig.spec.buildInputs with
      releaseVersion := "4.15" } } }

/-- The build inputs of the configuration that the request of a successful `prepareForBuild`
carries; the empty inputs stand for a call that failed. -/
def preparedInputs (out : Res ImageBuildRequest × History) : Option BuildInputs :=
  match out.1 with
  | Res.ok ibr => some ibr.machineOSConfig.spec.buildInputs
  | Res.err _ => none

/-- The request that `prepareForBuild` returns for `exBuild` and `exConfig` over `exApi`. -/
def exPreparedRequest : ImageBuildRequest :=
  match (prepareForBuild (exEnv [exBuild] [exConfig]) [] exBuild exConfig).1 with
  | Res.ok ibr => ibr
  | Res.err _ => exHelpers.newImageBuildRequest exConfig exBuild

/-- The API server `exApi` when the controller may not read secrets: every read of a secret
fails with an error that is not a not-found error. -/
def exForbiddenApi : Api :=
  { exApi with
    secretGet := fun _ _ => Res.err { kind := ErrKind.other, msg := "secrets is forbidden" } }

/-- An environment in which the builder object and the ConfigMap of the rendered configuration
are gone already and the deletion of the ConfigMap of the Dockerfile is refused. -/
def exCleanupEnv : Env :=
  { exEnv [exBuild] [exConfig] with
    imageBuilder :=
      { exBackend with DeleteBuildObject := fun _ _ _ => some (errNotFound "build-rendered-1") }
    api :=
      { exApi with
        configMapDelete := fun _ name =>
          if name = "mc-rendered-1" then some (errNotFound name)
          else some (Err.new "forbidden") } }

/-- The environment of `exEnv` with the record `exBuild` once the pool `worker` has moved on to
the rendered configuration `rendered-2`. -/
def exMovedEnv : Env :=
  { exEnv [exBuild] [exConfig] with
    pools := [{ exPool with configuration := { name := "rendered-2", source := [] } }] }

/-- The configuration `exConfig` under the given name for the pool of the given name. -/
def exConfigFor (name pool : String) : MachineOSConfig :=
  { exConfig with
    name := name
    spec := { exConfig.spec with machineConfigPool := { name := pool } } }

/-- A pool of the given name that desires the given rendered configuration. -/
def exPoolFor (name rendered : String) : MachineConfigPool :=
  { name := name, resourceVersion := "1", configuration := { name := rendered, source := [] } }

/-- An environment with the pool `a`, which desires `b-c`, and the pool `a-b`, which desires
`c`; the cache holds the one record that `CreateBuildFromConfig` has made, for the
configuration `layered-a-b` of the pool `a-b`. -/
def exHyphenEnv : Env :=
  { exEnv [] [exConfigFor "layered-a" "a", exConfigFor "layered-a-b" "a-b"] with
    pools := [exPoolFor "a" "b-c", exPoolFor "a-b" "c"]
    machineOSBuilds :=
      [newBuild (exEnv [] []) (exConfigFor "layered-a-b" "a-b") (exPoolFor "a-b" "c")] }

/-! ## Theorems -/

/-- C9: `getImageBuilderType` defaults to the pod-based builder when the key is absent or
empty, returns a recognized non-empty value unchanged, fails exactly when the key holds a
non-empty value that is neither recognized value, and every successful result is one of the
two recognized backends. -/
theorem getImageBuilderType_spec (k : BuilderConstants) (cm : ConfigMap) :
    ((mapGet cm.data k.ImageBuilderTypeConfigMapKey = none ∨
        mapGet cm.data k.ImageBuilderTypeConfigMapKey = some "") →
      getImageBuilderType k cm = Res.ok k.CustomPodImageBuilder) ∧
    (∀ v, mapGet cm.data k.ImageBuilderTypeConfigMapKey = some v → v ≠ "" →
      (v = k.OpenshiftImageBuilder ∨ v = k.CustomPodImageBuilder) →
      getImageBuilderType k cm = Res.ok v) ∧
    ((∃ e, getImageBuilderType k cm = Res.err e) ↔
      ∃ v, mapGet cm.data k.ImageBuilderTypeConfigMapKey = some v ∧ v ≠ "" ∧
        v ≠ k.OpenshiftImageBuilder ∧ v ≠ k.CustomPodImageBuilder) ∧
    (∀ v, getImageBuilderType k cm = Res.ok v →
      v = k.OpenshiftImageBuilder ∨ v = k.CustomPodImageBuilder) := by
  unfold getImageBuilderType
  cases hm : mapGet cm.data k.ImageBuilderTypeConfigMapKey with
  | none => simp
  | some v =>
    by_cases h0 : v = ""
    · simp [h0]
    · by_cases h1 : v = k.OpenshiftImageBuilder
      · subst h1
        simp [h0]
      · by_cases h2 : v = k.CustomPodImageBuilder
        · subst h2
          simp [h0]
        · simp [h0, h1, h2]

/-- C10: with a non-nil error `handleErr` never drops the key: below `MaxRetries` requeues the
key is added rate-limited and its retry count is kept (it grows by one); otherwise the retry
count is forgotten and the key is added after exactly one minute. With a nil error the retry
count is forgotten and the key is not added. -/
theorem handleErr_spec (env : Env) (h : History) (key : String) :
    (∀ e : Err, (NumRequeues h key : Int) < env.config.MaxRetries →
      handleErr env h (some e) key = h ++ [Event.queueAddRateLimited key] ∧
      NumRequeues (handleErr env h (some e) key) key = NumRequeues h key + 1) ∧
    (∀ e : Err, ¬ (NumRequeues h key : Int) < env.config.MaxRetries →
      handleErr env h (some e) key =
        h ++ [Event.queueForget key, Event.queueAddAfter key (60 * 1000000000)] ∧
      NumRequeues (handleErr env h (some e) key) key = 0) ∧
    (∀ e : Err, readds (added h (handleErr env h (some e) key)) key = true) ∧
    (handleErr env h none key = h ++ [Event.queueForget key] ∧
      NumRequeues (handleErr env h none key) key = 0 ∧
      readds (added h (handleErr env h none key)) key = false) := by
  refine ⟨?_, ?_, ?_, ?_⟩
  · intro e hlt
    have hh : handleErr env h (some e) key = h ++ [Event.queueAddRateLimited key] := by
      simp [handleErr, hlt]
    rw [hh]
    simp [NumRequeues, List.foldl_append]
  · intro e hge
    have hh : handleErr env h (some e) key =
        h ++ [Event.queueForget key, Event.queueAddAfter key (60 * 1000000000)] := by
      simp [handleErr, hge, oneMinute]
    rw [hh]
    simp [NumRequeues, List.foldl_append]
  · intro e
    by_cases hlt : (NumRequeues h key : Int) < env.config.MaxRetries
    · simp [handleErr, hlt, added, readds]
    · simp [handleErr, hlt, added, readds]
  · simp [handleErr, NumRequeues, List.foldl_append, added, readds]

/-- C2, as the code has it: the boolean returned by `shouldWeDoABuild` is true exactly when
the desired configurations differ and the running flag reported by the backend is false,
whether or not the backend reports an error next to the flag; the error of the backend is
returned unchanged; the result is `(true, nil)` exactly when the configurations differ and the
backend reports `(false, nil)`; with an unchanged desired configuration the result is
`(false, nil)` and the backend is not asked; with a changed one and a running build the
boolean is false. -/
theorem shouldWeDoABuild_spec (builder : ImageBuilder) (h : History) (mosc : MachineOSConfig)
    (oldMOSB curMOSB : MachineOSBuild) :
    ((shouldWeDoABuild builder h mosc oldMOSB curMOSB).1.1 = true ↔
      (oldMOSB.spec.desiredConfig ≠ curMOSB.spec.desiredConfig ∧
        (builder.IsBuildRunning h curMOSB mosc).1 = false)) ∧
    (oldMOSB.spec.desiredConfig ≠ curMOSB.spec.desiredConfig →
      (shouldWeDoABuild builder h mosc oldMOSB curMOSB).1.2 =
        (builder.IsBuildRunning h curMOSB mosc).2) ∧
    ((shouldWeDoABuild builder h mosc oldMOSB curMOSB).1 = (true, none) ↔
      (oldMOSB.spec.desiredConfig ≠ curMOSB.spec.desiredConfig ∧
        builder.IsBuildRunning h curMOSB mosc = (false, none))) ∧
    (oldMOSB.spec.desiredConfig = curMOSB.spec.desiredConfig →
      shouldWeDoABuild builder h mosc oldMOSB curMOSB = ((false, none), h)) ∧
    (oldMOSB.spec.desiredConfig ≠ curMOSB.spec.desiredConfig →
      (builder.IsBuildRunning h curMOSB mosc).1 = true →
      (shouldWeDoABuild builder h mosc oldMOSB curMOSB).1.1 = false) := by
  unfold shouldWeDoABuild
  by_cases hd : oldMOSB.spec.desiredConfig = curMOSB.spec.desiredConfig
  · simp [hd]
  · rcases hr : builder.IsBuildRunning h curMOSB mosc with ⟨running, err⟩
    cases running <;> simp [hd, hr]

/-- C2, as stated, fails: the desired configuration changed and the backend answers
`(false, err)`; the boolean returned is true although the backend did not report without
error that no build is running. -/
theorem shouldWeDoABuild_counterexample :
    ¬ ((shouldWeDoABuild exFailingBackend [] exConfig exBuild exBuildNext).1.1 = true ↔
      (exBuild.spec.desiredConfig ≠ exBuildNext.spec.desiredConfig ∧
        exFailingBackend.IsBuildRunning [] exBuildNext exConfig = (false, none))) := by
  decide

/-! ### The condition vector -/

theorem trueCountOf_set (t : String) (st : MachineOSBuildStatus) (c : Condition) :
    trueCountOf t (SetMachineOSBuildCondition st c).conditions =
      if c.condType = t then (if c.status = ConditionStatus.condTrue then 1 else 0)
      else trueCountOf t st.conditions := by
  unfold trueCountOf SetMachineOSBuildCondition
  simp only [List.filter_append, List.length_append, List.filter_filter]
  by_cases ht : c.condType = t
  · subst ht
    have h0 : st.conditions.filter (fun a =>
        (a.condType == c.condType && a.status == ConditionStatus.condTrue) &&
          (a.condType != c.condType)) = [] := by
      rw [List.filter_eq_nil_iff]
      intro a _
      by_cases ha : a.condType = c.condType <;> simp [ha]
    rw [h0]
    by_cases hs : c.status = ConditionStatus.condTrue <;> simp [hs]
  · have h0 : st.conditions.filter (fun a =>
        (a.condType == t && a.status == ConditionStatus.condTrue) &&
          (a.condType != c.condType)) =
        st.conditions.filter (fun a =>
          a.condType == t && a.status == ConditionStatus.condTrue) := by
      apply List.filter_congr
      intro a _
      by_cases ha : a.condType = t
      · subst ha
        have : a.condType ≠ c.condType := fun h => ht h.symm
        simp [this]
      · simp [ha]
    rw [h0]
    simp [ht]

theorem trueLifecycle_sum (l : List Condition) :
    (l.filter (fun c =>
        c.status == ConditionStatus.condTrue && lifecycleTypes.contains c.condType)).length =
      trueCountOf MachineOSBuildPrepared l + trueCountOf MachineOSBuilding l +
        trueCountOf MachineOSBuildFailed l + trueCountOf MachineOSBuildInterrupted l +
        trueCountOf MachineOSBuildSucceeded l := by
  induction l with
  | nil => simp [trueCountOf]
  | cons c rest ih =>
    simp only [trueCountOf] at ih ⊢
    simp only [List.filter_cons]
    by_cases hs : c.status = ConditionStatus.condTrue
    · by_cases h1 : c.condType = "Prepared"
      · simp [hs, h1, lifecycleTypes, MachineOSBuildPrepared, MachineOSBuilding,
          MachineOSBuildFailed, MachineOSBuildInterrupted, MachineOSBuildSucceeded] at ih ⊢
        omega
      · by_cases h2 : c.condType = "Building"
        · simp [hs, h2, lifecycleTypes, MachineOSBuildPrepared, MachineOSBuilding,
            MachineOSBuildFailed, MachineOSBuildInterrupted, MachineOSBuildSucceeded] at ih ⊢
          omega
        · by_cases h3 : c.condType = "Failed"
          · simp [hs, h3, lifecycleTypes, MachineOSBuildPrepared, MachineOSBuilding,
              MachineOSBuildFailed, MachineOSBuildInterrupted, MachineOSBuildSucceeded] at ih ⊢
            omega
          · by_cases h4 : c.condType = "Interrupted"
            · simp [hs, h4, lifecycleTypes, MachineOSBuildPrepared, MachineOSBuilding,
                MachineOSBuildFailed, MachineOSBuildInterrupted, MachineOSBuildSucceeded] at ih ⊢
              omega
            · by_cases h5 : c.condType = "Succeeded"
              · simp [hs, h5, lifecycleTypes, MachineOSBuildPrepared, MachineOSBuilding,
                  MachineOSBuildFailed, MachineOSBuildInterrupted,
                  MachineOSBuildSucceeded] at ih ⊢
                omega
              · simp [hs, h1, h2, h3, h4, h5, lifecycleTypes, MachineOSBuildPrepared,
                  MachineOSBuilding, MachineOSBuildFailed, MachineOSBuildInterrupted,
                  MachineOSBuildSucceeded] at ih ⊢
                omega
    · simp [hs, lifecycleTypes, MachineOSBuildPrepared, MachineOSBuilding,
        MachineOSBuildFailed, MachineOSBuildInterrupted, MachineOSBuildSucceeded] at ih ⊢
      omega

/-! ### Histories -/

theorem GrowsBy.refl (Q : Event → Prop) (h : History) : GrowsBy Q h h :=
  ⟨[], by simp, by simp⟩

theorem GrowsBy.trans {Q : Event → Prop} {h h1 h2 : History} (a : GrowsBy Q h h1)
    (b : GrowsBy Q h1 h2) : GrowsBy Q h h2 := by
  obtain ⟨n1, e1, q1⟩ := a
  obtain ⟨n2, e2, q2⟩ := b
  refine ⟨n1 ++ n2, by rw [e2, e1, List.append_assoc], ?_⟩
  intro e he
  rcases List.mem_append.mp he with h' | h'
  · exact q1 e h'
  · exact q2 e h'

theorem GrowsBy.snoc {Q : Event → Prop} (h : History) (e : Event) (q : Q e) :
    GrowsBy Q h (h ++ [e]) :=
  ⟨[e], rfl, by simpa using q⟩

theorem GrowsBy.mono {Q R : Event → Prop} {h h1 : History} (a : GrowsBy Q h h1)
    (qr : ∀ e, Q e → R e) : GrowsBy R h h1 := by
  obtain ⟨n, e, q⟩ := a
  exact ⟨n, e, fun x hx => qr x (q x hx)⟩

theorem GrowsBy.mem_added {Q : Event → Prop} {h h1 : History} (a : GrowsBy Q h h1) :
    ∀ e ∈ added h h1, Q e := by
  obtain ⟨n, e, q⟩ := a
  subst e
  simpa [added] using q

theorem WritesOnly.mem_recordWrites {P : MachineOSBuild → Prop} {events : History}
    (a : ∀ e ∈ events, WritesOnly P e) : ∀ b ∈ recordWrites events, P b := by
  intro b hb
  simp only [recordWrites, List.mem_filterMap] at hb
  obtain ⟨e, he, hm⟩ := hb
  have q := a e he
  cases e <;> simp at hm <;> subst hm <;> exact q

theorem RetryOnConflict_inv {σ : Type} (fn : σ → Option Err × σ) (I : σ → σ → Prop)
    (hrefl : ∀ s, I s s) (htrans : ∀ a b c, I a b → I b c → I a c)
    (hfn : ∀ s, I s (fn s).2) : ∀ n s, I s (RetryOnConflict fn n s).2 := by
  intro n
  induction n with
  | zero => intro s; simpa [RetryOnConflict] using hrefl s
  | succ n ih =>
    intro s
    have h1 := hfn s
    unfold RetryOnConflict
    rcases hf : fn s with ⟨r, s1⟩
    rw [hf] at h1
    cases r with
    | none => simpa using h1
    | some e =>
      simp only
      by_cases hc : IsConflict e = true
      · by_cases hn : n = 0
        · simpa [hc, hn] using h1
        · simp only [hc, hn, if_true, if_false]
          exact htrans _ _ _ h1 (ih s1)
      · simpa [hc] using h1

theorem hasTrueCondition_iff (b : MachineOSBuild) (t : String) :
    hasTrueCondition b t = true ↔ 0 < trueCountOf t b.status.conditions := by
  unfold hasTrueCondition trueCountOf
  rw [List.length_pos, ne_eq, List.filter_eq_nil_iff]
  simp

theorem trueLifecycleCount_eq (b : MachineOSBuild) :
    trueLifecycleCount b =
      trueCountOf MachineOSBuildPrepared b.status.conditions +
        trueCountOf MachineOSBuilding b.status.conditions +
        trueCountOf MachineOSBuildFailed b.status.conditions +
        trueCountOf MachineOSBuildInterrupted b.status.conditions +
        trueCountOf MachineOSBuildSucceeded b.status.conditions :=
  trueLifecycle_sum b.status.conditions

/-- The record is in exactly one lifecycle state, the one of the given condition type. -/
theorem onlyTrue_of_counts (b : MachineOSBuild) (t : String)
    (h1 : trueLifecycleCount b = 1) (h2 : 0 < trueCountOf t b.status.conditions) :
    trueLifecycleCount b = 1 ∧ hasTrueCondition b t = true :=
  ⟨h1, (hasTrueCondition_iff b t).mpr h2⟩

theorem interrupted_written (w : MachineOSBuild) (st : MachineOSBuildStatus)
    (hw : w.status.conditions =
      (SetMachineOSBuildCondition (interruptedConditions.foldl SetMachineOSBuildCondition st)
        (NewMachineOSBuildCondition MachineOSBuildFailed ConditionStatus.condFalse
          "MOSCAvailable" "MOSC")).conditions) :
    trueLifecycleCount w = 1 ∧ hasTrueCondition w MachineOSBuildInterrupted = true := by
  apply onlyTrue_of_counts
  · rw [trueLifecycleCount_eq, hw]
    simp [List.foldl, trueCountOf_set, interruptedConditions, cond,
      NewMachineOSBuildCondition, MachineOSBuildPrepared, MachineOSBuilding,
      MachineOSBuildFailed, MachineOSBuildInterrupted, MachineOSBuildSucceeded]
  · rw [hw]
    simp [List.foldl, trueCountOf_set, interruptedConditions, cond,
      NewMachineOSBuildCondition, MachineOSBuildPrepared, MachineOSBuilding,
      MachineOSBuildFailed, MachineOSBuildInterrupted, MachineOSBuildSucceeded]

theorem inProgress_written (w : MachineOSBuild) (st : MachineOSBuildStatus)
    (hw : w.status.conditions =
      (SetMachineOSBuildCondition (inProgressConditions.foldl SetMachineOSBuildCondition st)
        (NewMachineOSBuildCondition MachineOSBuildFailed ConditionStatus.condFalse
          "MOSCAvailable" "MOSC")).conditions) :
    trueLifecycleCount w = 1 ∧ hasTrueCondition w MachineOSBuilding = true := by
  apply onlyTrue_of_counts
  · rw [trueLifecycleCount_eq, hw]
    simp [List.foldl, trueCountOf_set, inProgressConditions, cond,
      NewMachineOSBuildCondition, MachineOSBuildPrepared, MachineOSBuilding,
      MachineOSBuildFailed, MachineOSBuildInterrupted, MachineOSBuildSucceeded]
  · rw [hw]
    simp [List.foldl, trueCountOf_set, inProgressConditions, cond,
      NewMachineOSBuildCondition, MachineOSBuildPrepared, MachineOSBuilding,
      MachineOSBuildFailed, MachineOSBuildInterrupted, MachineOSBuildSucceeded]

theorem succeeded_written (w : MachineOSBuild) (st : MachineOSBuildStatus)
    (hw : w.status.conditions =
      (SetMachineOSBuildCondition (succeededConditions.foldl SetMachineOSBuildCondition st)
        (NewMachineOSBuildCondition MachineOSBuildFailed ConditionStatus.condFalse
          "MOSCAvailable" "MOSC")).conditions) :
    trueLifecycleCount w = 1 ∧ hasTrueCondition w MachineOSBuildSucceeded = true := by
  apply onlyTrue_of_counts
  · rw [trueLifecycleCount_eq, hw]
    simp [List.foldl, trueCountOf_set, succeededConditions, cond,
      NewMachineOSBuildCondition, MachineOSBuildPrepared, MachineOSBuilding,
      MachineOSBuildFailed, MachineOSBuildInterrupted, MachineOSBuildSucceeded]
  · rw [hw]
    simp [List.foldl, trueCountOf_set, succeededConditions, cond,
      NewMachineOSBuildCondition, MachineOSBuildPrepared, MachineOSBuilding,
      MachineOSBuildFailed, MachineOSBuildInterrupted, MachineOSBuildSucceeded]

theorem pending_written (w : MachineOSBuild) (st : MachineOSBuildStatus)
    (hw : w.status.conditions =
      (SetMachineOSBuildCondition (pendingConditions.foldl SetMachineOSBuildCondition st)
        (NewMachineOSBuildCondition MachineOSBuildFailed ConditionStatus.condFalse
          "MOSCAvailable" "MOSC")).conditions) :
    trueLifecycleCount w = 1 ∧ hasTrueCondition w MachineOSBuildPrepared = true := by
  apply onlyTrue_of_counts
  · rw [trueLifecycleCount_eq, hw]
    simp [List.foldl, trueCountOf_set, pendingConditions, cond,
      NewMachineOSBuildCondition, MachineOSBuildPrepared, MachineOSBuilding,
      MachineOSBuildFailed, MachineOSBuildInterrupted, MachineOSBuildSucceeded]
  · rw [hw]
    simp [List.foldl, trueCountOf_set, pendingConditions, cond,
      NewMachineOSBuildCondition, MachineOSBuildPrepared, MachineOSBuilding,
      MachineOSBuildFailed, MachineOSBuildInterrupted, MachineOSBuildSucceeded]

theorem failed_written (w : MachineOSBuild) (st : MachineOSBuildStatus) (msg : String)
    (hw : w.status.conditions =
      (SetMachineOSBuildCondition (failedConditions.foldl SetMachineOSBuildCondition st)
        (NewMachineOSBuildCondition MachineOSBuildFailed ConditionStatus.condTrue
          "BuildFailed" msg)).conditions) :
    trueLifecycleCount w = 1 ∧ hasTrueCondition w MachineOSBuildFailed = true := by
  apply onlyTrue_of_counts
  · rw [trueLifecycleCount_eq, hw]
    simp [List.foldl, trueCountOf_set, failedConditions, cond,
      NewMachineOSBuildCondition, MachineOSBuildPrepared, MachineOSBuilding,
      MachineOSBuildFailed, MachineOSBuildInterrupted, MachineOSBuildSucceeded]
  · rw [hw]
    simp [List.foldl, trueCountOf_set, failedConditions, cond,
      NewMachineOSBuildCondition, MachineOSBuildPrepared, MachineOSBuilding,
      MachineOSBuildFailed, MachineOSBuildInterrupted, MachineOSBuildSucceeded]

theorem succeeded_vector (w : MachineOSBuild) (st : MachineOSBuildStatus)
    (hw : w.status.conditions =
      (succeededConditions.foldl SetMachineOSBuildCondition st).conditions) :
    trueLifecycleCount w = 1 ∧ hasTrueCondition w MachineOSBuildSucceeded = true := by
  apply onlyTrue_of_counts
  · rw [trueLifecycleCount_eq, hw]
    simp [List.foldl, trueCountOf_set, succeededConditions, cond,
      NewMachineOSBuildCondition, MachineOSBuildPrepared, MachineOSBuilding,
      MachineOSBuildFailed, MachineOSBuildInterrupted, MachineOSBuildSucceeded]
  · rw [hw]
    simp [List.foldl, trueCountOf_set, succeededConditions, cond,
      NewMachineOSBuildCondition, MachineOSBuildPrepared, MachineOSBuilding,
      MachineOSBuildFailed, MachineOSBuildInterrupted, MachineOSBuildSucceeded]

theorem RetryOnConflict_after_first {σ : Type} (fn : σ → Option Err × σ) (I : σ → σ → Prop)
    (hrefl : ∀ s, I s s) (htrans : ∀ a b c, I a b → I b c → I a c)
    (hfn : ∀ s, I s (fn s).2) : ∀ n s, I (fn s).2 (RetryOnConflict fn (n + 1) s).2 := by
  intro n s
  unfold RetryOnConflict
  rcases hf : fn s with ⟨r, s1⟩
  cases r with
  | none => simpa using hrefl s1
  | some e =>
    simp only
    by_cases hc : IsConflict e = true
    · by_cases hn : n = 0
      · simpa [hc, hn] using hrefl s1
      · simp only [hc, hn, if_true, if_false]
        exact RetryOnConflict_inv fn I hrefl htrans hfn n s1
    · simpa [hc] using hrefl s1

theorem RetryOnConflict_none {σ : Type} (fn : σ → Option Err × σ) (I : σ → σ → Prop)
    (hrefl : ∀ s, I s s) (htrans : ∀ a b c, I a b → I b c → I a c)
    (hfn : ∀ s, I s (fn s).2) :
    ∀ n s, (RetryOnConflict fn (n + 1) s).1 = none →
      ∃ s0, I s s0 ∧ fn s0 = (none, (RetryOnConflict fn (n + 1) s).2) := by
  intro n
  induction n with
  | zero =>
    intro s hr
    unfold RetryOnConflict at hr ⊢
    rcases hf : fn s with ⟨r, s1⟩
    rw [hf] at hr
    cases r with
    | none => exact ⟨s, hrefl s, by simpa using hf⟩
    | some e =>
      exfalso
      by_cases hc : IsConflict e = true <;> simp [hc] at hr
  | succ n ih =>
    intro s hr
    unfold RetryOnConflict at hr ⊢
    have h1 := hfn s
    rcases hf : fn s with ⟨r, s1⟩
    rw [hf] at hr h1
    cases r with
    | none => exact ⟨s, hrefl s, by simpa using hf⟩
    | some e =>
      by_cases hc : IsConflict e = true
      · simp only [hc, if_true, Nat.add_one_ne_zero, if_false] at hr ⊢
        obtain ⟨s0, i0, f0⟩ := ih s1 hr
        exact ⟨s0, htrans _ _ _ h1 i0, f0⟩
      · exfalso
        simp [hc] at hr

theorem retry_grows {σ : Type} (hist : σ → History) (Q : Event → Prop)
    (fn : σ → Option Err × σ) (hfn : ∀ s, GrowsBy Q (hist s) (hist (fn s).2)) (n : Nat)
    (s : σ) : GrowsBy Q (hist s) (hist (RetryOnConflict fn n s).2) :=
  RetryOnConflict_inv fn (fun s s1 => GrowsBy Q (hist s) (hist s1)) (fun _ => GrowsBy.refl _ _)
    (fun _ _ _ => GrowsBy.trans) hfn n s

/-! ### The lifecycle transitions -/

theorem markBuildInterrupted_grows (env : Env) (h : History) (mosc : MachineOSConfig)
    (mosb : MachineOSBuild) :
    GrowsBy (WritesOnly (fun b => trueLifecycleCount b = 1 ∧
        hasTrueCondition b MachineOSBuildInterrupted = true)) h
      (markBuildInterrupted env h mosc mosb).2.2 := by
  unfold markBuildInterrupted
  refine retry_grows (fun (s : MachineOSBuild × History) => s.2) _ _ ?_ _ _
  intro s
  simp only [syncAvailableStatus]
  apply GrowsBy.snoc
  exact interrupted_written _ s.1.status rfl

theorem markBuildInProgress_grows (env : Env) (h : History) (mosb : MachineOSBuild) :
    GrowsBy (WritesOnly (fun b => trueLifecycleCount b = 1 ∧
        hasTrueCondition b MachineOSBuilding = true)) h
      (markBuildInProgress env h mosb).2.2 := by
  unfold markBuildInProgress
  refine retry_grows (fun (s : MachineOSBuild × History) => s.2) _ _ ?_ _ _
  intro s
  simp only [syncAvailableStatus]
  apply GrowsBy.snoc
  exact inProgress_written _ s.1.status rfl

theorem markBuildFailed_grows (env : Env) (h : History) (mosc : MachineOSConfig)
    (mosb : MachineOSBuild) :
    GrowsBy (WritesOnly (fun b => trueLifecycleCount b = 1 ∧
        hasTrueCondition b MachineOSBuildFailed = true)) h
      (markBuildFailed env h mosc mosb).2.2 := by
  unfold markBuildFailed
  refine retry_grows (fun (s : MachineOSBuild × History) => s.2) _ _ ?_ _ _
  intro s
  simp only [syncFailingStatus]
  apply GrowsBy.snoc
  exact failed_written _ s.1.status _ rfl

theorem markBuildPendingWithObjectRef_grows (env : Env) (h : History) (mosc : MachineOSConfig)
    (mosb : MachineOSBuild) (objRef : ObjectReference) :
    GrowsBy (WritesOnly (fun b => trueLifecycleCount b = 1 ∧
        hasTrueCondition b MachineOSBuildPrepared = true)) h
      (markBuildPendingWithObjectRef env h mosc mosb objRef).2.2 := by
  unfold markBuildPendingWithObjectRef
  refine retry_grows (fun (s : MachineOSBuild × History) => s.2) _ _ ?_ _ _
  intro s
  simp only [syncAvailableStatus]
  split
  · exact GrowsBy.snoc _ _ (by trivial)
  · refine GrowsBy.trans (GrowsBy.snoc _ _ (by trivial))
      (GrowsBy.trans (GrowsBy.snoc _ _ (by trivial)) (GrowsBy.snoc _ _ ?_))
    split
    · exact pending_written _ s.1.status rfl
    · exact pending_written _ s.1.status rfl

theorem postBuildCleanup_grows (P : MachineOSBuild → Prop) (env : Env) (h : History)
    (mosc : MachineOSConfig) (mosb : MachineOSBuild) (ignoreMissing : Bool) :
    GrowsBy (WritesOnly P) h (postBuildCleanup env h mosc mosb ignoreMissing).2 := by
  simp only [postBuildCleanup]
  exact GrowsBy.trans (GrowsBy.snoc _ _ (by trivial))
    (GrowsBy.trans (GrowsBy.snoc _ _ (by trivial)) (GrowsBy.snoc _ _ (by trivial)))

theorem updateConfigAndBuild_grows (env : Env) (h : History) (mosc : MachineOSConfig)
    (bs : MachineOSBuild) (st : MachineOSBuildStatus)
    (hbs : bs.status.conditions =
      (succeededConditions.foldl SetMachineOSBuildCondition st).conditions) :
    GrowsBy (WritesOnly (fun b => trueLifecycleCount b = 1 ∧
        hasTrueCondition b MachineOSBuildSucceeded = true)) h
      (updateConfigAndBuild env h mosc bs).2 := by
  simp only [updateConfigAndBuild, syncAvailableStatus]
  split
  · exact GrowsBy.snoc _ _ (by trivial)
  · split
    · exact GrowsBy.trans (GrowsBy.snoc _ _ (by trivial))
        (GrowsBy.snoc _ _ (by exact succeeded_vector _ st hbs))
    · refine GrowsBy.trans (GrowsBy.snoc _ _ (by trivial))
        (GrowsBy.trans (GrowsBy.snoc _ _ (by exact succeeded_vector _ st hbs)) (GrowsBy.snoc _ _ ?_))
      apply succeeded_written _ st
      simp only [SetMachineOSBuildCondition, hbs]

theorem markBuildSucceeded_grows (env : Env) (h : History) (mosc : MachineOSConfig)
    (mosb : MachineOSBuild) :
    GrowsBy (WritesOnly (fun b => trueLifecycleCount b = 1 ∧
        hasTrueCondition b MachineOSBuildSucceeded = true)) h
      (markBuildSucceeded env h mosc mosb).2.2.2 := by
  unfold markBuildSucceeded
  refine retry_grows (fun (s : MachineOSConfig × MachineOSBuild × History) => s.2.2) _ _ ?_ _ _
  intro s
  simp only
  split
  · exact GrowsBy.snoc _ _ (by trivial)
  · split
    · exact GrowsBy.snoc _ _ (by trivial)
    · rename_i sha _
      split
      · rename_i h2 hc
        have g := postBuildCleanup_grows (fun b => trueLifecycleCount b = 1 ∧
          hasTrueCondition b MachineOSBuildSucceeded = true) env
          (s.2.2 ++ [Event.configMapGet
            (env.helpers.getDigestConfigMapName (env.helpers.newImageBuildRequest s.1 s.2.1))
            (env.api.configMapGet s.2.2
              (env.helpers.getDigestConfigMapName
                (env.helpers.newImageBuildRequest s.1 s.2.1)))])
          { s.1 with status := { s.1.status with currentImagePullspec := sha } }
          { s.2.1 with status := { s.2.1.status with finalImagePushspec := sha } } false
        rw [hc] at g
        exact GrowsBy.trans (GrowsBy.snoc _ _ (by trivial)) g
      · rename_i h2 hc
        have g := postBuildCleanup_grows (fun b => trueLifecycleCount b = 1 ∧
          hasTrueCondition b MachineOSBuildSucceeded = true) env
          (s.2.2 ++ [Event.configMapGet
            (env.helpers.getDigestConfigMapName (env.helpers.newImageBuildRequest s.1 s.2.1))
            (env.api.configMapGet s.2.2
              (env.helpers.getDigestConfigMapName
                (env.helpers.newImageBuildRequest s.1 s.2.1)))])
          { s.1 with status := { s.1.status with currentImagePullspec := sha } }
          { s.2.1 with status := { s.2.1.status with finalImagePushspec := sha } } false
        rw [hc] at g
        refine GrowsBy.trans (GrowsBy.snoc _ _ (by trivial)) (GrowsBy.trans g ?_)
        exact updateConfigAndBuild_grows env h2 _ _
          { s.2.1.status with finalImagePushspec := sha } rfl

theorem grows_recordWrites {P : MachineOSBuild → Prop} {h h1 : History}
    (g : GrowsBy (WritesOnly P) h h1) : ∀ b ∈ recordWrites (added h h1), P b :=
  WritesOnly.mem_recordWrites (GrowsBy.mem_added g)

theorem wrote_after {Q : Event → Prop} {h h1 : History} {e : Event}
    (g : GrowsBy Q (h ++ [e]) h1) : e ∈ added h h1 := by
  obtain ⟨n, hn, _⟩ := g
  subst hn
  simp [added]

theorem retry_runs_once {α : Type} (fn : α × History → Option Err × α × History)
    (hfn : ∀ s, GrowsBy (fun _ => True) s.2 (fn s).2.2) (n : Nat) (s : α × History) :
    GrowsBy (fun _ => True) (fn s).2.2 (RetryOnConflict fn (n + 1) s).2.2 :=
  RetryOnConflict_after_first fn (fun s s1 => GrowsBy (fun _ => True) s.2 s1.2)
    (fun _ => GrowsBy.refl _ _) (fun _ _ _ => GrowsBy.trans) hfn n s

theorem retry_none {α : Type} (fn : α × History → Option Err × α × History)
    (hfn : ∀ s, GrowsBy (fun _ => True) s.2 (fn s).2.2) (n : Nat) (s : α × History)
    (hr : (RetryOnConflict fn (n + 1) s).1 = none) :
    ∃ s0, GrowsBy (fun _ => True) s.2 s0.2 ∧
      fn s0 = (none, (RetryOnConflict fn (n + 1) s).2) :=
  RetryOnConflict_none fn (fun s s1 => GrowsBy (fun _ => True) s.2 s1.2)
    (fun _ => GrowsBy.refl _ _) (fun _ _ _ => GrowsBy.trans) hfn n s hr

theorem markBuildInterrupted_writes (env : Env) (h : History) (mosc : MachineOSConfig)
    (mosb : MachineOSBuild) :
    ∃ b r, Event.buildUpdateStatus b r ∈ added h (markBuildInterrupted env h mosc mosb).2.2 := by
  have g := retry_runs_once (fun (s : MachineOSBuild × History) =>
      let bs := SetBuildConditions (NewMachineOSBuildState s.1) interruptedConditions
      let (r, mosb1, h1) := syncAvailableStatus env s.2 bs
      (r, (mosb1, h1)))
    (fun s => by simp only [syncAvailableStatus]; exact GrowsBy.snoc _ _ (by trivial)) 4 (mosb, h)
  simp only [syncAvailableStatus] at g
  exact ⟨_, _, wrote_after g⟩

theorem markBuildInProgress_writes (env : Env) (h : History) (mosb : MachineOSBuild) :
    ∃ b r, Event.buildUpdateStatus b r ∈ added h (markBuildInProgress env h mosb).2.2 := by
  have g := retry_runs_once (fun (s : MachineOSBuild × History) =>
      let mosb1 := SetBuildConditions (NewMachineOSBuildState s.1) inProgressConditions
      let (r, mosb2, h1) := syncAvailableStatus env s.2 mosb1
      (r, (mosb2, h1)))
    (fun s => by simp only [syncAvailableStatus]; exact GrowsBy.snoc _ _ (by trivial)) 4 (mosb, h)
  simp only [syncAvailableStatus] at g
  exact ⟨_, _, wrote_after g⟩

theorem markBuildFailed_writes (env : Env) (h : History) (mosc : MachineOSConfig)
    (mosb : MachineOSBuild) :
    ∃ b r, Event.buildUpdateStatus b r ∈ added h (markBuildFailed env h mosc mosb).2.2 := by
  have g := retry_runs_once (fun (s : MachineOSBuild × History) =>
      let bs := SetBuildConditions (NewMachineOSBuildState s.1) failedConditions
      let (r, mosb1, h1) := syncFailingStatus env s.2 mosc bs (Err.new "BuildFailed")
      (r, (mosb1, h1)))
    (fun s => by simp only [syncFailingStatus]; exact GrowsBy.snoc _ _ (by trivial)) 4 (mosb, h)
  simp only [syncFailingStatus] at g
  exact ⟨_, _, wrote_after g⟩

theorem mem_added_snoc {Q : Event → Prop} {h pre : History} (e : Event)
    (g : GrowsBy Q h pre) : e ∈ added h (pre ++ [e]) := by
  obtain ⟨n, hn, _⟩ := g
  subst hn
  simp [added]

theorem markBuildPendingWithObjectRef_none (env : Env) (h : History) (mosc : MachineOSConfig)
    (mosb : MachineOSBuild) (objRef : ObjectReference)
    (hr : (markBuildPendingWithObjectRef env h mosc mosb objRef).1 = none) :
    ∃ b, Event.buildUpdateStatus b none ∈
      added h (markBuildPendingWithObjectRef env h mosc mosb objRef).2.2 := by
  unfold markBuildPendingWithObjectRef at hr ⊢
  obtain ⟨s0, g0, f0⟩ := retry_none _ (fun s => by
    simp only [syncAvailableStatus]
    split
    · exact GrowsBy.snoc _ _ (by trivial)
    · exact GrowsBy.trans (GrowsBy.snoc _ _ (by trivial))
        (GrowsBy.trans (GrowsBy.snoc _ _ (by trivial)) (GrowsBy.snoc _ _ (by trivial)))) 4 (mosb, h) hr
  have f1 := f0
  clear f0
  revert f1
  show _ = (none, (RetryOnConflict _ (4 + 1) (mosb, h)).2) →
    ∃ b, Event.buildUpdateStatus b none ∈ added h (RetryOnConflict _ (4 + 1) (mosb, h)).2.2
  generalize RetryOnConflict _ (4 + 1) (mosb, h) = res
  intro f0
  simp only [syncAvailableStatus] at f0
  split at f0
  · simp at f0
  · simp only [Prod.mk.injEq] at f0
    obtain ⟨hnone, hres⟩ := f0
    have hh := congrArg (fun (x : MachineOSBuild × History) => x.2) hres
    simp only at hh
    rw [hnone] at hh
    rw [← hh]
    exact ⟨_, mem_added_snoc _
      (GrowsBy.trans g0 (GrowsBy.trans (GrowsBy.snoc _ _ (by trivial)) (GrowsBy.snoc _ _ (by trivial))))⟩

/-- C1: every build record that one of the five lifecycle transitions writes (the status
write after the rewrite of the Failed condition by `syncAvailableStatus` or
`syncFailingStatus`, and the update of `markBuildSucceeded`) has exactly one of the five
lifecycle conditions with status True, the one of the transition, whatever the starting
record is. The transitions to Building, Failed and Interrupted always reach a status write,
and a transition to Prepared that returns no error made a status write that succeeded. -/
theorem lifecycle_exactly_one_true (env : Env) (h : History) (mosc : MachineOSConfig)
    (mosb : MachineOSBuild) (objRef : ObjectReference) :
    (∀ b ∈ recordWrites (added h (markBuildPendingWithObjectRef env h mosc mosb objRef).2.2),
      trueLifecycleCount b = 1 ∧ hasTrueCondition b MachineOSBuildPrepared = true) ∧
    (∀ b ∈ recordWrites (added h (markBuildInProgress env h mosb).2.2),
      trueLifecycleCount b = 1 ∧ hasTrueCondition b MachineOSBuilding = true) ∧
    (∀ b ∈ recordWrites (added h (markBuildSucceeded env h mosc mosb).2.2.2),
      trueLifecycleCount b = 1 ∧ hasTrueCondition b MachineOSBuildSucceeded = true) ∧
    (∀ b ∈ recordWrites (added h (markBuildFailed env h mosc mosb).2.2),
      trueLifecycleCount b = 1 ∧ hasTrueCondition b MachineOSBuildFailed = true) ∧
    (∀ b ∈ recordWrites (added h (markBuildInterrupted env h mosc mosb).2.2),
      trueLifecycleCount b = 1 ∧ hasTrueCondition b MachineOSBuildInterrupted = true) ∧
    (∃ b r, Event.buildUpdateStatus b r ∈ added h (markBuildInProgress env h mosb).2.2) ∧
    (∃ b r, Event.buildUpdateStatus b r ∈ added h (markBuildFailed env h mosc mosb).2.2) ∧
    (∃ b r, Event.buildUpdateStatus b r ∈ added h (markBuildInterrupted env h mosc mosb).2.2) ∧
    ((markBuildPendingWithObjectRef env h mosc mosb objRef).1 = none →
      ∃ b, Event.buildUpdateStatus b none ∈
        added h (markBuildPendingWithObjectRef env h mosc mosb objRef).2.2) :=
  ⟨grows_recordWrites (markBuildPendingWithObjectRef_grows env h mosc mosb objRef),
   grows_recordWrites (markBuildInProgress_grows env h mosb),
   grows_recordWrites (markBuildSucceeded_grows env h mosc mosb),
   grows_recordWrites (markBuildFailed_grows env h mosc mosb),
   grows_recordWrites (markBuildInterrupted_grows env h mosc mosb),
   markBuildInProgress_writes env h mosb,
   markBuildFailed_writes env h mosc mosb,
   markBuildInterrupted_writes env h mosc mosb,
   markBuildPendingWithObjectRef_none env h mosc mosb objRef⟩

/-! ### Reconciliation of an existing record -/

theorem syncConditions_none_true (env : Env) (fuel : Nat) (l : List Condition)
    (mosb : MachineOSBuild) (h : History)
    (hl : ∀ c ∈ l, c.status ≠ ConditionStatus.condTrue) :
    syncConditions env fuel l mosb h = some (LoopResult.goesOn mosb h) := by
  induction l with
  | nil => rfl
  | cons c rest ih =>
    have hc := hl c (List.mem_cons_self _ _)
    simp only [syncConditions, hc, if_false]
    exact ih (fun x hx => hl x (List.mem_cons_of_mem _ hx))

theorem syncConditions_settled (env : Env) (fuel : Nat) (l : List Condition)
    (mosb : MachineOSBuild) (h : History)
    (hsome : ∃ c ∈ l, c.status = ConditionStatus.condTrue)
    (hall : ∀ c ∈ l, c.status = ConditionStatus.condTrue → c.condType ∈ settledTypes) :
    syncConditions env fuel l mosb h = some (LoopResult.returned none h) := by
  induction l with
  | nil => simp at hsome
  | cons c rest ih =>
    by_cases hc : c.status = ConditionStatus.condTrue
    · have ht := hall c (List.mem_cons_self _ _) hc
      simp only [settledTypes, List.mem_cons, List.mem_singleton, List.not_mem_nil,
        or_false] at ht
      simp only [syncConditions, hc, if_true]
      rcases ht with ht | ht | ht | ht <;>
        simp [ht, MachineOSBuildPrepared, MachineOSBuilding, MachineOSBuildFailed,
          MachineOSBuildInterrupted, MachineOSBuildSucceeded]
    · simp only [syncConditions, hc, if_false]
      apply ih
      · obtain ⟨x, hx, hxs⟩ := hsome
        rcases List.mem_cons.mp hx with rfl | hx
        · exact absurd hxs hc
        · exact ⟨x, hx, hxs⟩
      · exact fun x hx => hall x (List.mem_cons_of_mem _ hx)

theorem syncConditions_interrupted (env : Env) (fuel : Nat) (l : List Condition)
    (mosb : MachineOSBuild) (h : History)
    (hall : ∀ c ∈ l, c.status = ConditionStatus.condTrue →
      c.condType = MachineOSBuildInterrupted) :
    syncConditions env fuel l mosb h =
      some (LoopResult.goesOn mosb
        (h ++ List.replicate (trueCount l)
          (Event.queueAdd (MetaNamespaceKey mosb.ns mosb.name)))) := by
  induction l generalizing h with
  | nil => simp [syncConditions, trueCount]
  | cons c rest ih =>
    have ihr := fun h => ih h (fun x hx => hall x (List.mem_cons_of_mem _ hx))
    by_cases hc : c.status = ConditionStatus.condTrue
    · have ht := hall c (List.mem_cons_self _ _) hc
      simp only [syncConditions, hc, if_true, ht]
      simp only [MachineOSBuildPrepared, MachineOSBuilding, MachineOSBuildFailed,
        MachineOSBuildInterrupted, MachineOSBuildSucceeded]
      simp only [show ("Interrupted" = "Prepared") = False from by decide,
        show ("Interrupted" = "Building") = False from by decide,
        show ("Interrupted" = "Failed") = False from by decide, if_false, if_true]
      rw [ihr, enqueueMachineOSBuild]
      simp [trueCount, hc, List.replicate_succ, List.append_assoc]
    · simp only [syncConditions, hc, if_false]
      rw [ihr]
      simp [trueCount, hc]

/-- C4: when the key resolves to an existing record that has a condition with status True and
all its conditions with status True are of type Prepared, Building, Failed or Succeeded,
`syncMachineOSBuilder` returns success and leaves the history as it is: no status write, no
enqueue, no record creation and no call to the builder backend. -/
theorem syncMachineOSBuilder_settled_noop (env : Env) (fuel : Nat) (h : History)
    (key ns name : String) (mosb : MachineOSBuild)
    (hkey : SplitMetaNamespaceKey key = Res.ok (ns, name))
    (hget : env.machineOSBuildListerGet name = Res.ok mosb)
    (hsome : ∃ c ∈ mosb.status.conditions, c.status = ConditionStatus.condTrue)
    (hall : ∀ c ∈ mosb.status.conditions, c.status = ConditionStatus.condTrue →
      c.condType ∈ settledTypes) :
    syncMachineOSBuilder env fuel h key = some (none, h) := by
  simp only [syncMachineOSBuilder, hkey, hget,
    syncConditions_settled env fuel _ mosb h hsome hall]

theorem syncAvailableStatus_eq (env : Env) (h : History) (mosb : MachineOSBuild) :
    syncAvailableStatus env h mosb =
      (env.api.buildUpdateStatus h (availableRecord mosb), availableRecord mosb,
        h ++ [Event.buildUpdateStatus (availableRecord mosb)
          (env.api.buildUpdateStatus h (availableRecord mosb))]) := rfl

theorem availableRecord_counts (mosb : MachineOSBuild)
    (hF : trueCountOf MachineOSBuildFailed mosb.status.conditions = 0) (t : String) :
    trueCountOf t (availableRecord mosb).status.conditions =
      trueCountOf t mosb.status.conditions := by
  simp only [availableRecord, trueCountOf_set, NewMachineOSBuildCondition]
  by_cases ht : MachineOSBuildFailed = t
  · subst ht
    simp [hF]
  · simp [ht]

theorem trueCountOf_zero_of_all (l : List Condition) (t u : String) (htu : u ≠ t)
    (hall : ∀ c ∈ l, c.status = ConditionStatus.condTrue → c.condType = u) :
    trueCountOf t l = 0 := by
  unfold trueCountOf
  rw [List.length_eq_zero, List.filter_eq_nil_iff]
  intro c hc hp
  simp only [Bool.and_eq_true, beq_iff_eq] at hp
  exact htu ((hall c hc hp.2).symm.trans hp.1)

theorem syncMachineOSBuilder_interrupted_eq (env : Env) (fuel : Nat) (h : History)
    (key ns name : String) (mosb : MachineOSBuild)
    (hkey : SplitMetaNamespaceKey key = Res.ok (ns, name))
    (hget : env.machineOSBuildListerGet name = Res.ok mosb)
    (hall : ∀ c ∈ mosb.status.conditions, c.status = ConditionStatus.condTrue →
      c.condType = MachineOSBuildInterrupted) :
    syncMachineOSBuilder env fuel h key =
      some (env.api.buildUpdateStatus
          (h ++ List.replicate (trueCount mosb.status.conditions)
            (Event.queueAdd (MetaNamespaceKey mosb.ns mosb.name))) (availableRecord mosb),
        h ++ List.replicate (trueCount mosb.status.conditions)
            (Event.queueAdd (MetaNamespaceKey mosb.ns mosb.name)) ++
          [Event.buildUpdateStatus (availableRecord mosb)
            (env.api.buildUpdateStatus
              (h ++ List.replicate (trueCount mosb.status.conditions)
                (Event.queueAdd (MetaNamespaceKey mosb.ns mosb.name)))
              (availableRecord mosb))]) := by
  simp only [syncMachineOSBuilder, hkey, hget,
    syncConditions_interrupted env fuel _ mosb h hall, syncAvailableStatus_eq]

theorem availableRecord_interrupted (mosb : MachineOSBuild)
    (hall : ∀ c ∈ mosb.status.conditions, c.status = ConditionStatus.condTrue →
      c.condType = MachineOSBuildInterrupted) :
    ∀ c ∈ (availableRecord mosb).status.conditions, c.status = ConditionStatus.condTrue →
      c.condType = MachineOSBuildInterrupted := by
  intro c hc hs
  have hF : trueCountOf MachineOSBuildFailed mosb.status.conditions = 0 :=
    trueCountOf_zero_of_all _ _ MachineOSBuildInterrupted (by decide) hall
  have h1 : hasTrueCondition (availableRecord mosb) c.condType = true := by
    unfold hasTrueCondition
    rw [List.any_eq_true]
    exact ⟨c, hc, by simp [hs]⟩
  rw [hasTrueCondition_iff, availableRecord_counts mosb hF, ← hasTrueCondition_iff] at h1
  unfold hasTrueCondition at h1
  rw [List.any_eq_true] at h1
  obtain ⟨c1, hc1, hp⟩ := h1
  simp only [Bool.and_eq_true, beq_iff_eq] at hp
  rw [← hp.1]
  exact hall c1 hc1 hp.2

/-- C5, as the code has it: when the key resolves to an existing record that has a condition
with status True and all its conditions with status True are of type Interrupted,
`syncMachineOSBuilder` puts the key of the record on the work queue (once for each such
condition), then makes one status write and returns its result; nothing else is called: no
configuration is looked up, the should-build decision is not evaluated and the builder
backend is not asked. The record written has the same conditions with status True as the
record read, so the record stays Interrupted. The reconciliation that the key on the queue
leads to finds the record as it was written and does the same again: it puts the key on the
queue, makes one status write and returns its result. -/
theorem syncMachineOSBuilder_interrupted (env : Env) (fuel : Nat) (h : History)
    (key ns name : String) (mosb : MachineOSBuild)
    (hkey : SplitMetaNamespaceKey key = Res.ok (ns, name))
    (hget : env.machineOSBuildListerGet name = Res.ok mosb)
    (hsome : ∃ c ∈ mosb.status.conditions, c.status = ConditionStatus.condTrue)
    (hall : ∀ c ∈ mosb.status.conditions, c.status = ConditionStatus.condTrue →
      c.condType = MachineOSBuildInterrupted) :
    0 < trueCount mosb.status.conditions ∧
    syncMachineOSBuilder env fuel h key =
      some (env.api.buildUpdateStatus
          (h ++ List.replicate (trueCount mosb.status.conditions)
            (Event.queueAdd (MetaNamespaceKey mosb.ns mosb.name))) (availableRecord mosb),
        h ++ List.replicate (trueCount mosb.status.conditions)
            (Event.queueAdd (MetaNamespaceKey mosb.ns mosb.name)) ++
          [Event.buildUpdateStatus (availableRecord mosb)
            (env.api.buildUpdateStatus
              (h ++ List.replicate (trueCount mosb.status.conditions)
                (Event.queueAdd (MetaNamespaceKey mosb.ns mosb.name)))
              (availableRecord mosb))]) ∧
    (∀ t, hasTrueCondition (availableRecord mosb) t = hasTrueCondition mosb t) ∧
    hasTrueCondition (availableRecord mosb) MachineOSBuildInterrupted = true ∧
    trueLifecycleCount (availableRecord mosb) = trueLifecycleCount mosb ∧
    (∀ c ∈ (availableRecord mosb).status.conditions, c.status = ConditionStatus.condTrue →
      c.condType = MachineOSBuildInterrupted) ∧
    0 < trueCount (availableRecord mosb).status.conditions ∧
    (∀ (env1 : Env) (fuel1 : Nat) (h1 : History),
      env1.machineOSBuildListerGet name = Res.ok (availableRecord mosb) →
      syncMachineOSBuilder env1 fuel1 h1 key =
        some (env1.api.buildUpdateStatus
            (h1 ++ List.replicate (trueCount (availableRecord mosb).status.conditions)
              (Event.queueAdd (MetaNamespaceKey mosb.ns mosb.name)))
            (availableRecord (availableRecord mosb)),
          h1 ++ List.replicate (trueCount (availableRecord mosb).status.conditions)
              (Event.queueAdd (MetaNamespaceKey mosb.ns mosb.name)) ++
            [Event.buildUpdateStatus (availableRecord (availableRecord mosb))
              (env1.api.buildUpdateStatus
                (h1 ++ List.replicate (trueCount (availableRecord mosb).status.conditions)
                  (Event.queueAdd (MetaNamespaceKey mosb.ns mosb.name)))
                (availableRecord (availableRecord mosb)))])) := by
  have hF : trueCountOf MachineOSBuildFailed mosb.status.conditions = 0 :=
    trueCountOf_zero_of_all _ _ MachineOSBuildInterrupted (by decide) hall
  have hsame : ∀ t, hasTrueCondition (availableRecord mosb) t = hasTrueCondition mosb t := by
    intro t
    rw [Bool.eq_iff_iff, hasTrueCondition_iff, hasTrueCondition_iff,
      availableRecord_counts mosb hF]
  have hint : hasTrueCondition (availableRecord mosb) MachineOSBuildInterrupted = true := by
    rw [hsame]
    obtain ⟨c, hc, hs⟩ := hsome
    unfold hasTrueCondition
    rw [List.any_eq_true]
    exact ⟨c, hc, by simp [hs, hall c hc hs]⟩
  have hpos : ∀ b : MachineOSBuild,
      (∃ c ∈ b.status.conditions, c.status = ConditionStatus.condTrue) →
      0 < trueCount b.status.conditions := by
    intro b hb
    obtain ⟨c, hc, hs⟩ := hb
    unfold trueCount
    rw [List.length_pos, ne_eq, List.filter_eq_nil_iff]
    intro hn
    exact absurd (by simpa using hs) (hn c hc)
  refine ⟨hpos mosb hsome, syncMachineOSBuilder_interrupted_eq env fuel h key ns name mosb
    hkey hget hall, hsame, hint, ?_, availableRecord_interrupted mosb hall, ?_, ?_⟩
  · rw [trueLifecycleCount_eq, trueLifecycleCount_eq]
    simp only [availableRecord_counts mosb hF]
  · apply hpos
    unfold hasTrueCondition at hint
    rw [List.any_eq_true] at hint
    obtain ⟨c, hc, hp⟩ := hint
    simp only [Bool.and_eq_true, beq_iff_eq] at hp
    exact ⟨c, hc, hp.2⟩
  · intro env1 fuel1 h1 hget1
    exact syncMachineOSBuilder_interrupted_eq env1 fuel1 h1 key ns name (availableRecord mosb)
      hkey hget1 (availableRecord_interrupted mosb hall)

/-- Witness of C4: a record that is Prepared is left alone. -/
theorem syncMachineOSBuilder_settled_noop_witness :
    syncMachineOSBuilder (exEnv [exBuildIn MachineOSBuildPrepared] [exConfig]) 1 []
      "worker-rendered-1-builder" = some (none, []) :=
  syncMachineOSBuilder_settled_noop (exEnv [exBuildIn MachineOSBuildPrepared] [exConfig]) 1 []
    "worker-rendered-1-builder" "" "worker-rendered-1-builder"
    (exBuildIn MachineOSBuildPrepared) (by decide) (by decide) (by decide) (by decide)

/-- Witness of C5 as amended: a record that is Interrupted is put back on the queue and stays
Interrupted, and the reconciliation of the record as written does the same again. -/
theorem syncMachineOSBuilder_interrupted_witness :
    syncMachineOSBuilder (exEnv [exBuildIn MachineOSBuildInterrupted] [exConfig]) 1 []
        "worker-rendered-1-builder" =
      some (none, [Event.queueAdd "worker-rendered-1-builder",
        Event.buildUpdateStatus (availableRecord (exBuildIn MachineOSBuildInterrupted)) none]) ∧
    hasTrueCondition (availableRecord (exBuildIn MachineOSBuildInterrupted))
      MachineOSBuildInterrupted = true ∧
    syncMachineOSBuilder
        (exEnv [availableRecord (exBuildIn MachineOSBuildInterrupted)] [exConfig]) 1
        [Event.queueAdd "worker-rendered-1-builder",
          Event.buildUpdateStatus (availableRecord (exBuildIn MachineOSBuildInterrupted)) none]
        "worker-rendered-1-builder" =
      some (none, [Event.queueAdd "worker-rendered-1-builder",
        Event.buildUpdateStatus (availableRecord (exBuildIn MachineOSBuildInterrupted)) none,
        Event.queueAdd "worker-rendered-1-builder",
        Event.buildUpdateStatus
          (availableRecord (availableRecord (exBuildIn MachineOSBuildInterrupted))) none]) :=
  have t := syncMachineOSBuilder_interrupted
    (exEnv [exBuildIn MachineOSBuildInterrupted] [exConfig]) 1 []
    "worker-rendered-1-builder" "" "worker-rendered-1-builder"
    (exBuildIn MachineOSBuildInterrupted) (by decide) (by decide) (by decide) (by decide)
  ⟨t.2.1, t.2.2.2.1,
    t.2.2.2.2.2.2.2 (exEnv [availableRecord (exBuildIn MachineOSBuildInterrupted)] [exConfig]) 1
      [Event.queueAdd "worker-rendered-1-builder",
        Event.buildUpdateStatus (availableRecord (exBuildIn MachineOSBuildInterrupted)) none]
      (by decide)⟩

/-- C5 as stated fails: the record `exBuildIn MachineOSBuildInterrupted` is Interrupted and
its configuration is not in the cache, so the step that evaluates the should-build decision
for the record (`decideAndStart`) returns the lookup error, which `syncMachineOSBuilder` would
return. The reconciliation of the record returns success after it has put the key on the
queue and written the status: it has not evaluated the decision. The reconciliation that the
key on the queue leads to, of the record as it was written, again returns success after the
same two steps: the record is not evaluated for a build decision then either. -/
theorem syncMachineOSBuilder_interrupted_counterexample :
    hasTrueCondition (exBuildIn MachineOSBuildInterrupted) MachineOSBuildInterrupted = true ∧
    trueLifecycleCount (exBuildIn MachineOSBuildInterrupted) = 1 ∧
    decideAndStart (exEnv [exBuildIn MachineOSBuildInterrupted] []) 1 []
        (exBuildIn MachineOSBuildInterrupted) =
      some (LoopResult.returned (some (listerNotFound "layered")) []) ∧
    syncMachineOSBuilder (exEnv [exBuildIn MachineOSBuildInterrupted] []) 1 []
        "worker-rendered-1-builder" =
      some (none, [Event.queueAdd "worker-rendered-1-builder",
        Event.buildUpdateStatus (availableRecord (exBuildIn MachineOSBuildInterrupted)) none]) ∧
    decideAndStart (exEnv [availableRecord (exBuildIn MachineOSBuildInterrupted)] []) 1
        [Event.queueAdd "worker-rendered-1-builder",
          Event.buildUpdateStatus (availableRecord (exBuildIn MachineOSBuildInterrupted)) none]
        (availableRecord (exBuildIn MachineOSBuildInterrupted)) =
      some (LoopResult.returned (some (listerNotFound "layered"))
        [Event.queueAdd "worker-rendered-1-builder",
          Event.buildUpdateStatus (availableRecord (exBuildIn MachineOSBuildInterrupted))
            none]) ∧
    syncMachineOSBuilder (exEnv [availableRecord (exBuildIn MachineOSBuildInterrupted)] []) 1
        [Event.queueAdd "worker-rendered-1-builder",
          Event.buildUpdateStatus (availableRecord (exBuildIn MachineOSBuildInterrupted)) none]
        "worker-rendered-1-builder" =
      some (none, [Event.queueAdd "worker-rendered-1-builder",
        Event.buildUpdateStatus (availableRecord (exBuildIn MachineOSBuildInterrupted)) none,
        Event.queueAdd "worker-rendered-1-builder",
        Event.buildUpdateStatus
          (availableRecord (availableRecord (exBuildIn MachineOSBuildInterrupted))) none]) := by
  decide

/-- C3, as the code has it: when the key resolves to an existing record that has no condition
with status True, `syncMachineOSBuilder` neither evaluates the should-build decision nor
starts a build: it rewrites the Failed condition to False, makes one status write and returns
the result of that write; the builder backend is not called. -/
theorem syncMachineOSBuilder_none_true (env : Env) (fuel : Nat) (h : History)
    (key ns name : String) (mosb : MachineOSBuild)
    (hkey : SplitMetaNamespaceKey key = Res.ok (ns, name))
    (hget : env.machineOSBuildListerGet name = Res.ok mosb)
    (hnone : ∀ c ∈ mosb.status.conditions, c.status ≠ ConditionStatus.condTrue) :
    syncMachineOSBuilder env fuel h key =
      some (env.api.buildUpdateStatus h (availableRecord mosb),
        h ++ [Event.buildUpdateStatus (availableRecord mosb)
          (env.api.buildUpdateStatus h (availableRecord mosb))]) := by
  simp only [syncMachineOSBuilder, hkey, hget,
    syncConditions_none_true env fuel _ mosb h hnone, syncAvailableStatus_eq]

/-- Witness of C3 as amended: a record without conditions, whose configuration exists and
for which no build runs, only gets the status write. -/
theorem syncMachineOSBuilder_none_true_witness :
    syncMachineOSBuilder (exEnv [exBuild] [exConfig]) 1 [] "worker-rendered-1-builder" =
      some (none, [Event.buildUpdateStatus (availableRecord exBuild) none]) :=
  syncMachineOSBuilder_none_true (exEnv [exBuild] [exConfig]) 1 []
    "worker-rendered-1-builder" "" "worker-rendered-1-builder" exBuild
    (by decide) (by decide) (by decide)

/-- C3, as stated, fails: `exBuild` has no condition with status True and its configuration is
not in the cache. The step that evaluates the should-build decision for the record
(`decideAndStart`) returns the lookup error, which `syncMachineOSBuilder` would return; the
reconciliation of the record returns success after a single status write, so it has not
evaluated the decision, and it has called neither `IsBuildRunning` nor `StartBuild`. -/
theorem syncMachineOSBuilder_none_true_counterexample :
    (∀ c ∈ exBuild.status.conditions, c.status ≠ ConditionStatus.condTrue) ∧
    (exEnv [exBuild] []).machineOSBuildListerGet "worker-rendered-1-builder" = Res.ok exBuild ∧
    decideAndStart (exEnv [exBuild] []) 1 [] exBuild =
      some (LoopResult.returned (some (listerNotFound "layered")) []) ∧
    syncMachineOSBuilder (exEnv [exBuild] []) 1 [] "worker-rendered-1-builder" =
      some (none, [Event.buildUpdateStatus (availableRecord exBuild) none]) := by
  decide

/-! ### Reconciliation of a configuration without a record -/

theorem CreateBuildFromConfig_history (env : Env) (h : History) (config : MachineOSConfig) :
    (∀ e h1, CreateBuildFromConfig env h config = (Res.err e, h1) →
      h1 = h ∨ ∃ b, h1 = h ++ [Event.buildCreate b (Res.err e)]) ∧
    (∀ mosb status h1, CreateBuildFromConfig env h config = (Res.ok (mosb, status), h1) →
      ∃ b, h1 = h ++ [Event.buildCreate b (Res.ok mosb)] ∧ status = b.status) := by
  unfold CreateBuildFromConfig
  constructor
  · intro e h1
    split
    · intro hc
      simp only [Prod.mk.injEq] at hc
      exact Or.inl hc.2.symm
    · simp only
      split
      · rename_i e1 he1
        intro hc
        simp only [Prod.mk.injEq, Res.err.injEq] at hc
        right
        rename_i mcp _ _
        refine ⟨newBuild env config mcp, ?_⟩
        rw [← hc.2, he1, hc.1]
      · intro hc
        simp at hc
  · intro mosb status h1
    split
    · intro hc
      simp at hc
    · simp only
      split
      · intro hc
        simp at hc
      · rename_i m hm
        intro hc
        simp only [Prod.mk.injEq, Res.ok.injEq] at hc
        rename_i mcp _ _
        refine ⟨newBuild env config mcp, ?_, hc.1.2.symm⟩
        rw [← hc.2, hm, hc.1.1]

/-- C6: when the key resolves only to a configuration and no record exists for it,
`syncMachineOSBuilder` first creates a record. If the creation fails it returns that error
and has called nothing but, at most, the creation. If the creation succeeds it starts a build
for the created record; if the start fails with an error it makes one more status write, for
the record as the start left it, and returns the error of the start whatever the result of
that write is; if the start succeeds it returns success. -/
theorem syncMachineOSBuilder_config_only (env : Env) (fuel : Nat) (h : History)
    (key ns name : String) (config : MachineOSConfig)
    (hkey : SplitMetaNamespaceKey key = Res.ok (ns, name))
    (hnobuild : env.machineOSBuildListerGet name = Res.err (listerNotFound name))
    (hcfg : env.machineOSConfigListerGet name = Res.ok config)
    (hno : doesMOSBExist env config = none) :
    (∀ e h1, CreateBuildFromConfig env h config = (Res.err e, h1) →
      syncMachineOSBuilder env fuel h key = some (some e, h1) ∧
      (h1 = h ∨ ∃ b, h1 = h ++ [Event.buildCreate b (Res.err e)])) ∧
    (∀ mosb status h1, CreateBuildFromConfig env h config = (Res.ok (mosb, status), h1) →
      (∃ b, h1 = h ++ [Event.buildCreate b (Res.ok mosb)] ∧ status = b.status) ∧
      (∀ e mosb1 h2,
        startBuildForMachineConfigPool env fuel h1 config { mosb with status := status } =
          some (some e, mosb1, h2) →
        syncMachineOSBuilder env fuel h key =
          some (some e, h2 ++ [Event.buildUpdateStatus (availableRecord mosb1)
            (env.api.buildUpdateStatus h2 (availableRecord mosb1))])) ∧
      (∀ mosb1 h2,
        startBuildForMachineConfigPool env fuel h1 config { mosb with status := status } =
          some (none, mosb1, h2) →
        syncMachineOSBuilder env fuel h key = some (none, h2))) := by
  constructor
  · intro e h1 hc
    refine ⟨?_, (CreateBuildFromConfig_history env h config).1 e h1 hc⟩
    simp only [syncMachineOSBuilder, hkey, hnobuild, hcfg, hno, hc]
  · intro mosb status h1 hc
    refine ⟨(CreateBuildFromConfig_history env h config).2 mosb status h1 hc, ?_, ?_⟩
    · intro e mosb1 h2 hs
      simp only [syncMachineOSBuilder, hkey, hnobuild, hcfg, hno, hc, hs,
        syncAvailableStatus_eq]
    · intro mosb1 h2 hs
      simp only [syncMachineOSBuilder, hkey, hnobuild, hcfg, hno, hc, hs]

/-- Witness of C6: the configuration `layered` has a push image reference that does not parse
and no record; the record is created, the start fails, the status is written once and the
error of the start is returned. -/
theorem syncMachineOSBuilder_config_only_witness :
    syncMachineOSBuilder (exEnv [] [exConfigBadPushspec]) 1 [] "layered" =
      some (some (Err.new "repository name must have at least one component"),
        [Event.buildCreate (exCreated exConfigBadPushspec)
            (Res.ok (exCreated exConfigBadPushspec)),
         Event.buildUpdateStatus (availableRecord (exCreated exConfigBadPushspec)) none]) :=
  ((syncMachineOSBuilder_config_only (exEnv [] [exConfigBadPushspec]) 1 [] "layered" ""
    "layered" exConfigBadPushspec (by decide) (by decide) (by decide) (by decide)).2
    (exCreated exConfigBadPushspec) (exCreated exConfigBadPushspec).status
    [Event.buildCreate (exCreated exConfigBadPushspec) (Res.ok (exCreated exConfigBadPushspec))]
    (by decide)).2.1
    (Err.new "repository name must have at least one component")
    (exCreated exConfigBadPushspec)
    [Event.buildCreate (exCreated exConfigBadPushspec) (Res.ok (exCreated exConfigBadPushspec))]
    (by decide)

/-- C7, the code at a failing input: the configuration `layered` has a push image reference
that does not parse. The reconciliation returns the parse error, so the error is not
swallowed; the only status it writes for the record it created has the Failed condition
False, and no lifecycle condition of the written record is True. -/
theorem syncMachineOSBuilder_validation_error :
    syncMachineOSBuilder (exEnv [] [exConfigBadPushspec]) 1 [] "layered" =
      some (some (Err.new "repository name must have at least one component"),
        [Event.buildCreate (exCreated exConfigBadPushspec)
            (Res.ok (exCreated exConfigBadPushspec)),
         Event.buildUpdateStatus (availableRecord (exCreated exConfigBadPushspec)) none]) ∧
    (availableRecord (exCreated exConfigBadPushspec)).status.conditions =
      [cond MachineOSBuildFailed ConditionStatus.condFalse "MOSCAvailable" "MOSC"] ∧
    hasTrueCondition (availableRecord (exCreated exConfigBadPushspec)) MachineOSBuildFailed =
      false ∧
    trueLifecycleCount (availableRecord (exCreated exConfigBadPushspec)) = 0 := by
  decide

/-! ### The preparation of a build writes no status -/

theorem updateCanonicalizedSecret_prep (env : Env) (h : History) (secret : Secret) :
    GrowsBy PrepEvent h (updateCanonicalizedSecret env h secret).2 := by
  unfold updateCanonicalizedSecret
  split
  · exact GrowsBy.refl _ _
  · have g := retry_grows (fun (s : Option Secret × History) => s.2) PrepEvent
      (fun (s : Option Secret × History) =>
        let g := env.api.secretGet s.2 secret.name
        let h1 := s.2 ++ [Event.secretGet secret.name g]
        let update := fun (found : Secret) =>
          let found1 := { found with data := secret.data }
          let u := env.api.secretUpdate h1 found1
          let h2 := h1 ++ [Event.secretUpdate found1 u]
          match u with
          | Res.err e =>
            (some (e.wrap ("could not update canonical secret " ++ quoted secret.name ++ ": ")),
              (s.1, h2))
          | Res.ok updated => (none, (some updated, h2))
        match g with
        | Res.ok found => update found
        | Res.err e =>
          if IsNotFound e then update emptySecret
          else
            (some (e.wrap ("could not get canonical secret " ++ quoted secret.name ++ ": ")),
              (s.1, h1)))
      (fun s => by
        simp only
        split
        · split
          · exact GrowsBy.trans (GrowsBy.snoc _ _ (by trivial)) (GrowsBy.snoc _ _ (by trivial))
          · exact GrowsBy.trans (GrowsBy.snoc _ _ (by trivial)) (GrowsBy.snoc _ _ (by trivial))
        · split
          · split
            · exact GrowsBy.trans (GrowsBy.snoc _ _ (by trivial)) (GrowsBy.snoc _ _ (by trivial))
            · exact GrowsBy.trans (GrowsBy.snoc _ _ (by trivial)) (GrowsBy.snoc _ _ (by trivial))
          · exact GrowsBy.snoc _ _ (by trivial)) DefaultRetrySteps (none, h)
    simp only at g ⊢
    split <;> rename_i hrun <;> rw [hrun] at g <;> exact g

theorem createCanonicalizedSecret_prep (env : Env)
    (validate : History → String → Option (Res Secret × History))
    (hv : ∀ h name r h1, validate h name = some (r, h1) → GrowsBy PrepEvent h h1)
    (h : History) (secret : Secret) (r : Res Secret) (h1 : History)
    (hr : createCanonicalizedSecret env validate h secret = some (r, h1)) :
    GrowsBy PrepEvent h h1 := by
  unfold createCanonicalizedSecret at hr
  split at hr
  · simp only [Option.some.injEq, Prod.mk.injEq] at hr
    rw [← hr.2]
    exact GrowsBy.refl _ _
  · simp only at hr
    split at hr
    · simp only [Option.some.injEq, Prod.mk.injEq] at hr
      rw [← hr.2]
      exact GrowsBy.snoc _ _ (by trivial)
    · split at hr
      · exact GrowsBy.trans (GrowsBy.snoc _ _ (by trivial)) (hv _ _ _ _ hr)
      · simp only [Option.some.injEq, Prod.mk.injEq] at hr
        rw [← hr.2]
        exact GrowsBy.snoc _ _ (by trivial)

theorem handleCanonicalizedPullSecret_prep (env : Env)
    (validate : History → String → Option (Res Secret × History))
    (hv : ∀ h name r h1, validate h name = some (r, h1) → GrowsBy PrepEvent h h1)
    (h : History) (secret : Secret) (r : Res Secret) (h1 : History)
    (hr : handleCanonicalizedPullSecret env validate h secret = some (r, h1)) :
    GrowsBy PrepEvent h h1 := by
  unfold handleCanonicalizedPullSecret at hr
  split at hr
  · simp only [Option.some.injEq, Prod.mk.injEq] at hr
    rw [← hr.2]
    exact GrowsBy.refl _ _
  · simp only at hr
    split at hr
    · split at hr
      · simp only [Option.some.injEq, Prod.mk.injEq] at hr
        rw [← hr.2]
        exact GrowsBy.snoc _ _ (by trivial)
      · simp only [Option.some.injEq] at hr
        have g := updateCanonicalizedSecret_prep env
          (h ++ [Event.secretGet secret.name (env.api.secretGet h secret.name)]) secret
        rw [hr] at g
        exact GrowsBy.trans (GrowsBy.snoc _ _ (by trivial)) g
    · split at hr
      · exact GrowsBy.trans (GrowsBy.snoc _ _ (by trivial))
          (createCanonicalizedSecret_prep env validate hv _ _ _ _ hr)
      · simp only [Option.some.injEq, Prod.mk.injEq] at hr
        rw [← hr.2]
        exact GrowsBy.snoc _ _ (by trivial)

theorem validatePullSecret_prep (env : Env) (fuel : Nat) :
    ∀ (h : History) (name : String) (r : Res Secret) (h1 : History),
      validatePullSecret env fuel h name = some (r, h1) → GrowsBy PrepEvent h h1 := by
  induction fuel with
  | zero => intro h name r h1 hr; simp [validatePullSecret] at hr
  | succ fuel ih =>
    intro h name r h1 hr
    unfold validatePullSecret at hr
    simp only at hr
    split at hr
    · simp only [Option.some.injEq, Prod.mk.injEq] at hr
      rw [← hr.2]
      exact GrowsBy.snoc _ _ (by trivial)
    · split at hr
      · simp only [Option.some.injEq, Prod.mk.injEq] at hr
        rw [← hr.2]
        exact GrowsBy.snoc _ _ (by trivial)
      · split at hr
        · simp only [Option.some.injEq, Prod.mk.injEq] at hr
          rw [← hr.2]
          exact GrowsBy.snoc _ _ (by trivial)
        · split at hr
          · exact GrowsBy.trans (GrowsBy.snoc _ _ (by trivial))
              (handleCanonicalizedPullSecret_prep env _ ih _ _ _ _ hr)
          · exact GrowsBy.trans (GrowsBy.snoc _ _ (by trivial)) (ih _ _ _ _ hr)

theorem validateSecrets_prep (env : Env) (fuel : Nat) (l : List (String × String)) :
    ∀ (ourConfig : MachineOSConfig) (u : Bool) (h : History)
      (r : Res (MachineOSConfig × Bool)) (h1 : History),
      validateSecrets env fuel l ourConfig u h = some (r, h1) → GrowsBy PrepEvent h h1 := by
  induction l with
  | nil =>
    intro ourConfig u h r h1 hr
    simp only [validateSecrets, Option.some.injEq, Prod.mk.injEq] at hr
    rw [← hr.2]
    exact GrowsBy.refl _ _
  | cons kv rest ih =>
    intro ourConfig u h r h1 hr
    obtain ⟨key, s⟩ := kv
    unfold validateSecrets at hr
    split at hr
    · exact ih _ _ _ _ _ hr
    · split at hr
      · simp at hr
      · rename_i e h2 hv
        simp only [Option.some.injEq, Prod.mk.injEq] at hr
        rw [← hr.2]
        exact validatePullSecret_prep env fuel _ _ _ _ hv
      · rename_i newS h2 hv
        have g := validatePullSecret_prep env fuel _ _ _ _ hv
        split at hr
        · exact GrowsBy.trans g (ih _ _ _ _ _ hr)
        · exact GrowsBy.trans g (ih _ _ _ _ _ hr)

theorem getImagesConfig_prep (env : Env) (h : History) :
    GrowsBy PrepEvent h (getImagesConfig env h).2 := by
  unfold getImagesConfig
  simp only
  split <;> exact GrowsBy.snoc _ _ (by trivial)

theorem getOSImageURLConfig_prep (env : Env) (h : History) :
    GrowsBy PrepEvent h (getOSImageURLConfig env h).2 := by
  unfold getOSImageURLConfig
  simp only
  split <;> exact GrowsBy.snoc _ _ (by trivial)

theorem getOptionalSecret_prep (env : Env) (h : History) (name : String) :
    GrowsBy PrepEvent h (getOptionalSecret env h name).2 := by
  unfold getOptionalSecret
  simp only
  split
  · exact GrowsBy.snoc _ _ (by trivial)
  · split <;> exact GrowsBy.snoc _ _ (by trivial)

theorem getOptionalConfigMap_prep (env : Env) (h : History) (name : String) :
    GrowsBy PrepEvent h (getOptionalConfigMap env h name).2 := by
  unfold getOptionalConfigMap
  simp only
  split
  · exact GrowsBy.snoc _ _ (by trivial)
  · split <;> exact GrowsBy.snoc _ _ (by trivial)

theorem grows_of_eq {Q : Event → Prop} {α : Type} {h h1 : History} {x : α × History} {a : α}
    (g : GrowsBy Q h x.2) (e : x = (a, h1)) : GrowsBy Q h h1 := by
  subst e
  exact g

theorem prepareForBuild_prep (env : Env) (h : History) (mosb : MachineOSBuild)
    (mosc : MachineOSConfig) : GrowsBy PrepEvent h (prepareForBuild env h mosb mosc).2 := by
  unfold prepareForBuild
  simp only
  split
  · rename_i heq
    exact grows_of_eq (getImagesConfig_prep env h) heq
  · rename_i h1 heq
    have g1 := grows_of_eq (getImagesConfig_prep env h) heq
    split
    · rename_i heq2
      exact g1.trans (grows_of_eq (getOSImageURLConfig_prep env h1) heq2)
    · rename_i h2 heq2
      have g2 := g1.trans (grows_of_eq (getOSImageURLConfig_prep env h1) heq2)
      split
      · rename_i heq3
        exact g2.trans (grows_of_eq (getOptionalSecret_prep env h2 _) heq3)
      · rename_i h3 heq3
        have g3 := g2.trans (grows_of_eq (getOptionalSecret_prep env h2 _) heq3)
        split
        · rename_i heq4
          exact g3.trans (grows_of_eq (getOptionalSecret_prep env h3 _) heq4)
        · rename_i h4 heq4
          have g4 := g3.trans (grows_of_eq (getOptionalSecret_prep env h3 _) heq4)
          split
          · rename_i heq5
            exact g4.trans (grows_of_eq (getOptionalConfigMap_prep env h4 _) heq5)
          · rename_i h5 heq5
            have g5 := g4.trans (grows_of_eq (getOptionalConfigMap_prep env h4 _) heq5)
            have g6 := g5.trans (GrowsBy.snoc h5
              (Event.machineConfigGet mosb.spec.desiredConfig.name
                (env.api.machineConfigGet h5 mosb.spec.desiredConfig.name)) (by trivial))
            split
            · exact g6
            · split
              · exact g6
              · split
                · exact g6.trans (GrowsBy.snoc _ _ (by trivial))
                · split
                  · exact g6.trans (GrowsBy.snoc _ _ (by trivial))
                  · split
                    · exact g6.trans ((GrowsBy.snoc _ _ (by trivial)).trans
                        (GrowsBy.snoc _ _ (by trivial)))
                    · exact g6.trans ((GrowsBy.snoc _ _ (by trivial)).trans
                        (GrowsBy.snoc _ _ (by trivial)))

/-! ### The Prepared transition inside the start of a build -/

theorem RetryOnConflict_last {σ : Type} (fn : σ → Option Err × σ) (I : σ → σ → Prop)
    (hrefl : ∀ s, I s s) (htrans : ∀ a b c, I a b → I b c → I a c)
    (hfn : ∀ s, I s (fn s).2) :
    ∀ n s, ∃ s0, I s s0 ∧ RetryOnConflict fn (n + 1) s = fn s0 := by
  intro n
  induction n with
  | zero =>
    intro s
    refine ⟨s, hrefl s, ?_⟩
    unfold RetryOnConflict
    rcases hf : fn s with ⟨r, s1⟩
    cases r with
    | none => rfl
    | some e => by_cases hc : IsConflict e = true <;> simp [hc]
  | succ n ih =>
    intro s
    have h1 := hfn s
    unfold RetryOnConflict
    rcases hf : fn s with ⟨r, s1⟩
    rw [hf] at h1
    cases r with
    | none => exact ⟨s, hrefl s, by simp [hf]⟩
    | some e =>
      by_cases hc : IsConflict e = true
      · simp only [hc, if_true, Nat.add_one_ne_zero, if_false]
        obtain ⟨s0, i0, f0⟩ := ih s1
        exact ⟨s0, htrans _ _ _ h1 i0, f0⟩
      · exact ⟨s, hrefl s, by simp [hc, hf]⟩

theorem pending_vector (w : MachineOSBuild) (st : MachineOSBuildStatus)
    (hw : w.status.conditions =
      (pendingConditions.foldl SetMachineOSBuildCondition st).conditions) :
    trueLifecycleCount w = 1 ∧ hasTrueCondition w MachineOSBuildPrepared = true := by
  apply onlyTrue_of_counts
  · rw [trueLifecycleCount_eq, hw]
    simp [List.foldl, trueCountOf_set, pendingConditions, cond,
      NewMachineOSBuildCondition, MachineOSBuildPrepared, MachineOSBuilding,
      MachineOSBuildFailed, MachineOSBuildInterrupted, MachineOSBuildSucceeded]
  · rw [hw]
    simp [List.foldl, trueCountOf_set, pendingConditions, cond,
      NewMachineOSBuildCondition, MachineOSBuildPrepared, MachineOSBuilding,
      MachineOSBuildFailed, MachineOSBuildInterrupted, MachineOSBuildSucceeded]

theorem pending_step (env : Env) (mosc : MachineOSConfig) (objRef : ObjectReference)
    (s : MachineOSBuild × History) :
    let out := (fun (s : MachineOSBuild × History) =>
      let h0 := s.2
      let bs := SetBuildConditions (NewMachineOSBuildState s.1) pendingConditions
      let r := env.api.poolGet h0 mosc.spec.machineConfigPool.name
      let h1 := h0 ++ [Event.poolGet mosc.spec.machineConfigPool.name r]
      match r with
      | Res.err e => (some e, (bs, h1))
      | Res.ok mcp =>
        let mcp1 := { mcp with
          configuration := { mcp.configuration with
            source := mcp.configuration.source ++ [objRef] } }
        let h2 := h1 ++ [Event.poolUpdate mcp1 (env.api.poolUpdate h1 mcp1)]
        let bs1 :=
          if bs.status.builderReference = none then
            { bs with status := { bs.status with
                builderReference := some
                  { imageBuilderType := mosc.spec.buildInputs.imageBuilderType
                    podImageBuilder := some
                      { name := objRef.name
                        group := objRef.group
                        ns := objRef.ns
                        resource := objRef.resourceVersion } } } }
          else bs
        let (r2, mosb1, h3) := syncAvailableStatus env h2 bs1
        ((r2, (mosb1, h3)) : Option Err × MachineOSBuild × History)) s
    IsPrepared s.1.name out.2.1 ∧ GrowsBy (PendingEvent s.1.name) s.2 out.2.2 := by
  intro out
  simp only [out, syncAvailableStatus]
  split
  · refine ⟨⟨rfl, pending_vector _ s.1.status rfl⟩, GrowsBy.snoc _ _ (by trivial)⟩
  · split
    · refine ⟨⟨rfl, pending_written _ s.1.status rfl⟩, ?_⟩
      exact (GrowsBy.snoc _ _ (by trivial)).trans ((GrowsBy.snoc _ _ (by trivial)).trans
        (GrowsBy.snoc _ _ (by exact ⟨rfl, pending_written _ s.1.status rfl⟩)))
    · refine ⟨⟨rfl, pending_written _ s.1.status rfl⟩, ?_⟩
      exact (GrowsBy.snoc _ _ (by trivial)).trans ((GrowsBy.snoc _ _ (by trivial)).trans
        (GrowsBy.snoc _ _ (by exact ⟨rfl, pending_written _ s.1.status rfl⟩)))

theorem markBuildPendingWithObjectRef_prepared (env : Env) (h : History)
    (mosc : MachineOSConfig) (mosb : MachineOSBuild) (objRef : ObjectReference) :
    IsPrepared mosb.name (markBuildPendingWithObjectRef env h mosc mosb objRef).2.1 ∧
    GrowsBy (PendingEvent mosb.name) h
      (markBuildPendingWithObjectRef env h mosc mosb objRef).2.2 := by
  unfold markBuildPendingWithObjectRef
  obtain ⟨s0, ⟨hn, hg⟩, hlast⟩ := RetryOnConflict_last _
    (fun (s s1 : MachineOSBuild × History) =>
      s1.1.name = s.1.name ∧ GrowsBy (PendingEvent s.1.name) s.2 s1.2)
    (fun s => ⟨rfl, GrowsBy.refl _ _⟩)
    (fun a b c ab bc => ⟨bc.1.trans ab.1, ab.2.trans (ab.1 ▸ bc.2)⟩)
    (fun s => ⟨(pending_step env mosc objRef s).1.1, (pending_step env mosc objRef s).2⟩)
    4 (mosb, h)
  have hs := pending_step env mosc objRef s0
  simp only at hn hg hs
  show IsPrepared mosb.name (RetryOnConflict _ (4 + 1) (mosb, h)).2.1 ∧
    GrowsBy (PendingEvent mosb.name) h (RetryOnConflict _ (4 + 1) (mosb, h)).2.2
  rw [hlast]
  rw [hn] at hs
  exact ⟨hs.1, hg.trans hs.2⟩

theorem startBuildForMachineConfigPool_shape (env : Env) (fuel : Nat) (h : History)
    (mosc : MachineOSConfig) (mosb : MachineOSBuild) (r : Option Err)
    (mosb1 : MachineOSBuild) (h2 : History)
    (hs : startBuildForMachineConfigPool env fuel h mosc mosb = some (r, mosb1, h2)) :
    (GrowsBy PrepEvent h h2 ∧ mosb1 = mosb ∧ r ≠ none) ∨
    (∃ hp ibr ref, GrowsBy PrepEvent h hp ∧
      GrowsBy (PendingEvent mosb.name) (hp ++ [Event.startBuild ibr (Res.ok ref)]) h2 ∧
      IsPrepared mosb.name mosb1 ∧
      (r = none → ∃ b, Event.buildUpdateStatus b none ∈
        added (hp ++ [Event.startBuild ibr (Res.ok ref)]) h2)) := by
  unfold startBuildForMachineConfigPool at hs
  split at hs
  · simp only [Option.some.injEq, Prod.mk.injEq] at hs
    obtain ⟨h1, h2', h3⟩ := hs
    subst h1 h2' h3
    exact Or.inl ⟨GrowsBy.refl _ _, rfl, by simp⟩
  · split at hs
    · simp only [Option.some.injEq, Prod.mk.injEq] at hs
      obtain ⟨h1, h2', h3⟩ := hs
      subst h1 h2' h3
      exact Or.inl ⟨GrowsBy.refl _ _, rfl, by simp⟩
    · split at hs
      · simp only [Option.some.injEq, Prod.mk.injEq] at hs
        obtain ⟨h1, h2', h3⟩ := hs
        subst h1 h2' h3
        exact Or.inl ⟨GrowsBy.refl _ _, rfl, by simp⟩
      · simp only at hs
        split at hs
        · simp at hs
        · rename_i hv
          simp only [Option.some.injEq, Prod.mk.injEq] at hs
          obtain ⟨h1, h2', h3⟩ := hs
          subst h1 h2' h3
          exact Or.inl ⟨validateSecrets_prep env fuel _ _ _ _ _ _ hv, rfl, by simp⟩
        · rename_i ourConfig2 updateMOSC hv1 hv
          have gv := validateSecrets_prep env fuel _ _ _ _ _ _ hv
          split at hs
          · rename_i hp
            simp only [Option.some.injEq, Prod.mk.injEq] at hs
            obtain ⟨h1, h2', h3⟩ := hs
            subst h1 h2' h3
            exact Or.inl ⟨gv.trans (grows_of_eq (prepareForBuild_prep env _ _ _) hp), rfl,
              by simp⟩
          · rename_i ibr hp2 hp
            have gp := gv.trans (grows_of_eq (prepareForBuild_prep env _ _ _) hp)
            split at hs
            · rename_i e he
              simp only [Option.some.injEq, Prod.mk.injEq] at hs
              obtain ⟨h1, h2', h3⟩ := hs
              subst h1 h2' h3
              refine Or.inl ⟨gp.trans (GrowsBy.snoc _ _ ?_), rfl, by simp⟩
              rw [he]
              trivial
            · rename_i objRef he
              right
              have hm := markBuildPendingWithObjectRef_prepared env
                (hp2 ++ [Event.startBuild ibr (env.imageBuilder.StartBuild hp2 ibr)])
                mosc mosb objRef
              have hnone := markBuildPendingWithObjectRef_none env
                (hp2 ++ [Event.startBuild ibr (env.imageBuilder.StartBuild hp2 ibr)])
                mosc mosb objRef
              rw [he] at hm hnone
              refine ⟨hp2, ibr, objRef, gp, ?_⟩
              split at hs
              · rename_i e m1 h4 hmark
                simp only [Option.some.injEq, Prod.mk.injEq] at hs
                obtain ⟨h1, h2', h3⟩ := hs
                subst h1 h2' h3
                rw [he] at hmark
                rw [hmark] at hm
                exact ⟨hm.2, hm.1, by simp⟩
              · rename_i m1 h4 hmark
                rw [he] at hmark
                rw [hmark] at hm hnone
                simp only at hm hnone
                split at hs
                · simp only [updateConfigSpec, Option.some.injEq, Prod.mk.injEq] at hs
                  obtain ⟨h1, h2', h3⟩ := hs
                  subst h2' h3
                  refine ⟨hm.2.trans ?_, hm.1, ?_⟩
                  · split <;> exact GrowsBy.snoc _ _ (by trivial)
                  · intro _
                    obtain ⟨b, hb⟩ := hnone trivial
                    refine ⟨b, ?_⟩
                    obtain ⟨n, hn, _⟩ := hm.2
                    subst hn
                    simp only [added, List.drop_left] at hb
                    split <;> simp [added, hb]
                · simp only [Option.some.injEq, Prod.mk.injEq] at hs
                  obtain ⟨h1, h2', h3⟩ := hs
                  subst h1 h2' h3
                  exact ⟨hm.2, hm.1, fun _ => hnone trivial⟩

theorem StatusWritesOnly.mem_statusWrites {P : MachineOSBuild → Prop} {events : History}
    (a : ∀ e ∈ events, StatusWritesOnly P e) : ∀ b ∈ statusWrites events, P b := by
  intro b hb
  simp only [statusWrites, List.mem_filterMap] at hb
  obtain ⟨e, he, hm⟩ := hb
  have q := a e he
  cases e <;> simp at hm
  subst hm
  exact q

theorem NotStarted.not_mem {events : History} (a : ∀ e ∈ events, NotStarted e)
    (ibr : ImageBuildRequest) (ref : ObjectReference) :
    Event.startBuild ibr (Res.ok ref) ∉ events :=
  fun hm => a _ hm

theorem prepEvent_notStarted (e : Event) (p : PrepEvent e) : NotStarted e := by
  cases e with
  | startBuild ibr r =>
    cases r with
    | ok a => exact p.elim
    | err e => trivial
  | _ => trivial

theorem prepEvent_statusWritesOnly (P : MachineOSBuild → Prop) (e : Event) (p : PrepEvent e) :
    StatusWritesOnly P e := by
  cases e with
  | buildUpdateStatus b r => exact p.elim
  | _ => trivial

theorem pendingEvent_statusWritesOnly (name : String) (e : Event) (p : PendingEvent name e) :
    StatusWritesOnly (IsPrepared name) e := by
  cases e with
  | buildUpdateStatus b r => exact p
  | _ => trivial

theorem isPrepared_availableRecord {name : String} {b : MachineOSBuild}
    (p : IsPrepared name b) : IsPrepared name (availableRecord b) := by
  obtain ⟨hn, hc, ht⟩ := p
  have hp := (hasTrueCondition_iff b MachineOSBuildPrepared).mp ht
  have hsum := trueLifecycleCount_eq b
  have hF : trueCountOf MachineOSBuildFailed b.status.conditions = 0 := by omega
  refine ⟨hn, ?_, ?_⟩
  · rw [trueLifecycleCount_eq]
    simp only [availableRecord_counts b hF]
    rw [← hsum]
    exact hc
  · rw [hasTrueCondition_iff, availableRecord_counts b hF]
    exact hp

theorem grows_cons {Q : Event → Prop} {h h2 : History} (e : Event) (q : Q e)
    (g : GrowsBy Q (h ++ [e]) h2) : GrowsBy Q h h2 ∧ ∃ rest, h2 = h ++ e :: rest := by
  obtain ⟨n, hn, hq⟩ := g
  subst hn
  refine ⟨⟨e :: n, by simp, ?_⟩, ⟨n, by simp⟩⟩
  intro x hx
  rcases List.mem_cons.mp hx with rfl | hx
  · exact q
  · exact hq x hx

theorem mem_added_trans {Q : Event → Prop} {h h1 h2 : History} {e : Event}
    (g : GrowsBy Q h h1) (m : e ∈ added h1 h2) : e ∈ added h h2 := by
  obtain ⟨n, hn, _⟩ := g
  subst hn
  simp only [added, List.length_append] at m ⊢
  rw [← List.drop_drop] at m
  exact List.mem_of_mem_drop m

/-- C8: for a configuration that targets pool P, whose pool desires the rendered
configuration R and for which no record exists, the reconciliation of the configuration first
creates a record named `P-R-builder` that refers to the configuration by name, has desired
configuration R and has no condition with status True. When the backend's `StartBuild` has
succeeded in that reconciliation, a status write for the record follows, and every status
write of the reconciliation carries the record with Prepared True as its only true lifecycle
condition; when the reconciliation returns success, `StartBuild` has succeeded and one of
these status writes has succeeded. -/
theorem syncMachineOSBuilder_creates_prepared (env : Env) (fuel : Nat) (h : History)
    (key ns name : String) (config : MachineOSConfig) (pool : MachineConfigPool)
    (hkey : SplitMetaNamespaceKey key = Res.ok (ns, name))
    (hnobuild : env.machineOSBuildListerGet name = Res.err (listerNotFound name))
    (hcfg : env.machineOSConfigListerGet name = Res.ok config)
    (hpool : env.mcpListerGet config.spec.machineConfigPool.name = Res.ok pool)
    (hnorec : env.machineOSBuildListerGet
        (buildName config.spec.machineConfigPool.name pool.configuration.name) =
      Res.err (listerNotFound
        (buildName config.spec.machineConfigPool.name pool.configuration.name))) :
    (newBuild env config pool).name =
      config.spec.machineConfigPool.name ++ "-" ++ pool.configuration.name ++ "-builder" ∧
    (newBuild env config pool).spec.machineOSConfig.name = config.name ∧
    (newBuild env config pool).spec.desiredConfig.name = pool.configuration.name ∧
    (∀ c ∈ (newBuild env config pool).status.conditions,
      c.status ≠ ConditionStatus.condTrue) ∧
    (∀ r h2, syncMachineOSBuilder env fuel h key = some (r, h2) →
      (∃ rest, h2 = h ++ Event.buildCreate (newBuild env config pool)
        (env.api.buildCreate h (newBuild env config pool)) :: rest) ∧
      ((∃ ibr ref, Event.startBuild ibr (Res.ok ref) ∈ added h h2) →
        (∃ b r1, Event.buildUpdateStatus b r1 ∈ added h h2) ∧
        (∀ b ∈ statusWrites (added h h2),
          trueLifecycleCount b = 1 ∧ hasTrueCondition b MachineOSBuildPrepared = true ∧
          ∀ mosb, env.api.buildCreate h (newBuild env config pool) = Res.ok mosb →
            b.name = mosb.name)) ∧
      (r = none →
        (∃ ibr ref, Event.startBuild ibr (Res.ok ref) ∈ added h h2) ∧
        ∃ b, Event.buildUpdateStatus b none ∈ added h h2)) := by
  refine ⟨rfl, rfl, rfl, by simp [newBuild], ?_⟩
  intro r h2 hs
  have hd : doesMOSBExist env config = none := by
    simp only [doesMOSBExist, hpool, hnorec]
  simp only [syncMachineOSBuilder, hkey, hnobuild, hcfg, hd, CreateBuildFromConfig, hpool]
    at hs
  generalize hnb : newBuild env config pool = nb at hs ⊢
  cases hc : env.api.buildCreate h nb with
  | err e =>
    simp only [hc, Option.some.injEq, Prod.mk.injEq] at hs
    obtain ⟨hr, hh⟩ := hs
    subst hr hh
    refine ⟨⟨[], rfl⟩, ?_, by simp⟩
    rintro ⟨ibr, ref, hm⟩
    simp [added] at hm
  | ok mosb =>
    simp only [hc] at hs
    cases hst : startBuildForMachineConfigPool env fuel
        (h ++ [Event.buildCreate nb (Res.ok mosb)]) config
        { mosb with status := nb.status } with
    | none => simp [hst] at hs
    | some res =>
      obtain ⟨re, mosb1, h3⟩ := res
      have hcreate : GrowsBy (fun _ => True) h (h ++ [Event.buildCreate nb (Res.ok mosb)]) :=
        GrowsBy.snoc _ _ trivial
      rcases startBuildForMachineConfigPool_shape env fuel _ config _ re mosb1 h3 hst with
        ⟨gp, hm1, hre⟩ | ⟨hp, ibr, ref, gp, gq, hprep, hnone⟩
      · -- the start failed before `StartBuild` succeeded
        cases re with
        | none => exact absurd rfl hre
        | some e =>
          simp only [hst, syncAvailableStatus_eq, Option.some.injEq, Prod.mk.injEq] at hs
          obtain ⟨hr, hh⟩ := hs
          subst hr hh
          have gall : GrowsBy NotStarted (h ++ [Event.buildCreate nb (Res.ok mosb)])
              (h3 ++ [Event.buildUpdateStatus (availableRecord mosb1)
                (env.api.buildUpdateStatus h3 (availableRecord mosb1))]) :=
            (gp.mono prepEvent_notStarted).trans (GrowsBy.snoc _ _ trivial)
          obtain ⟨g0, hrest⟩ := grows_cons _ (by trivial) gall
          refine ⟨hrest, ?_, by simp⟩
          rintro ⟨ibr, ref, hm⟩
          exact absurd hm (NotStarted.not_mem g0.mem_added ibr ref)
      · -- `StartBuild` succeeded
        have hstart : Event.startBuild ibr (Res.ok ref) ∈ added h h3 :=
          mem_added_trans (hcreate.trans (gp.mono (fun _ _ => trivial)))
            (wrote_after gq)
        have gw : GrowsBy (StatusWritesOnly (IsPrepared mosb.name))
            (h ++ [Event.buildCreate nb (Res.ok mosb)]) h3 :=
          (gp.mono (prepEvent_statusWritesOnly _)).trans
            ((GrowsBy.snoc _ _ (by trivial)).trans
              (gq.mono (pendingEvent_statusWritesOnly _)))
        cases re with
        | none =>
          simp only [hst, Option.some.injEq, Prod.mk.injEq] at hs
          obtain ⟨hr, hh⟩ := hs
          subst hr hh
          obtain ⟨g0, hrest⟩ := grows_cons _ (by trivial) gw
          obtain ⟨b, hb⟩ := hnone rfl
          have gpre : GrowsBy (fun _ => True) h (hp ++ [Event.startBuild ibr (Res.ok ref)]) :=
            (hcreate.trans (gp.mono (fun _ _ => trivial))).trans (GrowsBy.snoc _ _ trivial)
          have hb1 : Event.buildUpdateStatus b none ∈ added h h3 := mem_added_trans gpre hb
          refine ⟨hrest, fun _ => ⟨⟨b, none, hb1⟩, ?_⟩, fun _ => ⟨⟨ibr, ref, hstart⟩, b, hb1⟩⟩
          intro w hw
          obtain ⟨hn, hcnt, ht⟩ := StatusWritesOnly.mem_statusWrites g0.mem_added w hw
          refine ⟨hcnt, ht, ?_⟩
          intro m hm
          cases hm
          exact hn
        | some e =>
          simp only [hst, syncAvailableStatus_eq, Option.some.injEq, Prod.mk.injEq] at hs
          obtain ⟨hr, hh⟩ := hs
          subst hr hh
          have gw2 := gw.trans (GrowsBy.snoc h3
            (Event.buildUpdateStatus (availableRecord mosb1)
              (env.api.buildUpdateStatus h3 (availableRecord mosb1)))
            (by exact isPrepared_availableRecord hprep))
          obtain ⟨g0, hrest⟩ := grows_cons _ (by trivial) gw2
          refine ⟨hrest, fun _ => ⟨⟨_, _, mem_added_snoc _
            (hcreate.trans (gw.mono (fun _ _ => trivial)))⟩, ?_⟩, by simp⟩
          intro w hw
          obtain ⟨hn, hcnt, ht⟩ := StatusWritesOnly.mem_statusWrites g0.mem_added w hw
          refine ⟨hcnt, ht, ?_⟩
          intro m hm
          cases hm
          exact hn

/-- Witness of C8: the configuration `layered` for pool `worker`, which desires `rendered-1`,
has no record and nothing fails; the reconciliation returns success, and its only status
write is for `worker-rendered-1-builder` with Prepared as the only condition with status
True, and it succeeds. -/
theorem syncMachineOSBuilder_creates_prepared_witness :
    syncMachineOSBuilder (exEnv [] [exConfig]) 1 [] "layered" =
      some (none, exPreparedHistory) ∧
    (statusWrites exPreparedHistory).map
        (fun b => (b.name, b.status.conditions.map (fun c => (c.condType, c.status)))) =
      [("worker-rendered-1-builder",
        [("Prepared", ConditionStatus.condTrue), ("Building", ConditionStatus.condFalse),
         ("Interrupted", ConditionStatus.condFalse), ("Succeeded", ConditionStatus.condFalse),
         ("Failed", ConditionStatus.condFalse)])] ∧
    (∃ ibr ref, Event.startBuild ibr (Res.ok ref) ∈ added [] exPreparedHistory) ∧
    (∃ b, Event.buildUpdateStatus b none ∈ added [] exPreparedHistory) :=
  have hs : syncMachineOSBuilder (exEnv [] [exConfig]) 1 [] "layered" =
      some (none, exPreparedHistory) := by decide
  have t := (syncMachineOSBuilder_creates_prepared (exEnv [] [exConfig]) 1 [] "layered" ""
    "layered" exConfig exPool (by decide) (by decide) (by decide) (by decide)
    (by decide)).2.2.2.2 none exPreparedHistory hs
  ⟨hs, by decide, (t.2.2 rfl).1, (t.2.2 rfl).2⟩

/-! ### Build pods -/

theorem isBuildPodErrorLoop_iff (l : List ContainerStatus) :
    isBuildPodErrorLoop l = true ↔ ∃ container ∈ l,
      (∃ reason, container.waitingReason = some reason ∧
        (reason = "ErrImagePull" ∨ reason = "CreateContainerError")) ∨
      (∃ exitCode, container.terminatedExitCode = some exitCode ∧ exitCode ≠ 0) := by
  induction l with
  | nil => simp [isBuildPodErrorLoop]
  | cons c rest ih =>
    unfold isBuildPodErrorLoop
    rcases hw : c.waitingReason with _ | reason <;>
      rcases ht : c.terminatedExitCode with _ | exitCode <;>
      simp [ih, errStates, hw, ht, or_assoc]

/-- C11: `isBuildPodError` returns true exactly when some container status of the pod is
waiting with the reason `ErrImagePull` or `CreateContainerError`, or is terminated with an
exit code other than zero; the phase of the pod does not change the result, and a pod without
container statuses is no error. -/
theorem isBuildPodError_spec (pod : Pod) :
    (isBuildPodError pod = true ↔ ∃ container ∈ pod.containerStatuses,
      (∃ reason, container.waitingReason = some reason ∧
        (reason = "ErrImagePull" ∨ reason = "CreateContainerError")) ∨
      (∃ exitCode, container.terminatedExitCode = some exitCode ∧ exitCode ≠ 0)) ∧
    (∀ phase, isBuildPodError { pod with phase := phase } = isBuildPodError pod) ∧
    (pod.containerStatuses = [] → isBuildPodError pod = false) := by
  refine ⟨isBuildPodErrorLoop_iff _, fun _ => rfl, fun hnil => ?_⟩
  simp [isBuildPodError, hnil, isBuildPodErrorLoop]

theorem markBuildFailed_eq (env : Env) (h : History) (mosc : MachineOSConfig)
    (mosb : MachineOSBuild) :
    markBuildFailed env h mosc mosb =
      (some (Err.new "BuildFailed"), failedRecord mosc mosb,
        h ++ [Event.buildUpdateStatus (failedRecord mosc mosb)
          (env.api.buildUpdateStatus h (failedRecord mosc mosb))]) := by
  simp [markBuildFailed, DefaultRetrySteps, RetryOnConflict, syncFailingStatus, IsConflict,
    Err.new, failedRecord, SetBuildConditions, NewMachineOSBuildState]

theorem failedRecord_failed (mosc : MachineOSConfig) (mosb : MachineOSBuild) :
    trueLifecycleCount (failedRecord mosc mosb) = 1 ∧
      hasTrueCondition (failedRecord mosc mosb) MachineOSBuildFailed = true :=
  failed_written _ mosb.status _ rfl

/-- C12: for a build pod that `isBuildPodError` reports, whose pool is found and has a
configuration and a matching record, `customBuildPodUpdater` runs `markBuildFailed` right
after it has read the pool, whatever the phase of the pod: next to the read of the pool its
only event is the status write of the record as Failed, with Failed the one lifecycle
condition that is True, and the same holds for the pod in any other phase, so the transition
of the phase is never made. -/
theorem customBuildPodUpdater_error_pod (env : Env) (ph : PodHelpers) (h : History)
    (pod : Pod) (pool : MachineConfigPool) (mosc : MachineOSConfig) (mosb : MachineOSBuild)
    (hpool : env.api.poolGet h (mapGetD pod.labels ph.TargetMachineConfigPoolLabelKey) =
      Res.ok pool)
    (hfound : getConfigAndBuildForPool env pool = some (mosc, some mosb))
    (herr : isBuildPodError pod = true) :
    (∀ phase, customBuildPodUpdater env ph h { pod with phase := phase } =
      ((markBuildFailed env
          (h ++ [Event.poolGet (mapGetD pod.labels ph.TargetMachineConfigPoolLabelKey)
            (Res.ok pool)]) mosc mosb).1,
        (markBuildFailed env
          (h ++ [Event.poolGet (mapGetD pod.labels ph.TargetMachineConfigPoolLabelKey)
            (Res.ok pool)]) mosc mosb).2.2)) ∧
    (∃ r, added h (customBuildPodUpdater env ph h pod).2 =
      [Event.poolGet (mapGetD pod.labels ph.TargetMachineConfigPoolLabelKey) (Res.ok pool),
        Event.buildUpdateStatus (failedRecord mosc mosb) r]) ∧
    (failedRecord mosc mosb).name = mosb.name ∧
    trueLifecycleCount (failedRecord mosc mosb) = 1 ∧
    hasTrueCondition (failedRecord mosc mosb) MachineOSBuildFailed = true := by
  have key : ∀ phase, customBuildPodUpdater env ph h { pod with phase := phase } =
      (some (Err.new "BuildFailed"),
        h ++ [Event.poolGet (mapGetD pod.labels ph.TargetMachineConfigPoolLabelKey)
            (Res.ok pool)] ++ [Event.buildUpdateStatus (failedRecord mosc mosb)
          (env.api.buildUpdateStatus
            (h ++ [Event.poolGet (mapGetD pod.labels ph.TargetMachineConfigPoolLabelKey)
              (Res.ok pool)]) (failedRecord mosc mosb))]) := by
    intro phase
    have herr1 : isBuildPodError { pod with phase := phase } = true := herr
    simp only [customBuildPodUpdater, hpool, hfound, herr1, if_true, markBuildFailed_eq]
  refine ⟨fun phase => ?_, ?_, rfl, failedRecord_failed mosc mosb⟩
  · rw [key phase, markBuildFailed_eq]
  · have k := key pod.phase
    simp only at k
    rw [k]
    exact ⟨env.api.buildUpdateStatus
      (h ++ [Event.poolGet (mapGetD pod.labels ph.TargetMachineConfigPoolLabelKey) (Res.ok pool)])
      (failedRecord mosc mosb), by simp [added]⟩

/-- C12, at a concrete input: a pod in phase Running with a container that waits with the
reason `ErrImagePull`. -/
theorem customBuildPodUpdater_error_pod_witness :
    customBuildPodUpdater (exEnv [exBuild] [exConfig]) exPodHelpers []
        (exPod PodSucceeded [] [exErrImagePull]) =
      ((markBuildFailed (exEnv [exBuild] [exConfig])
          ([] ++ [Event.poolGet "worker" (Res.ok exPool)]) exConfig exBuild).1,
        (markBuildFailed (exEnv [exBuild] [exConfig])
          ([] ++ [Event.poolGet "worker" (Res.ok exPool)]) exConfig exBuild).2.2) :=
  (customBuildPodUpdater_error_pod (exEnv [exBuild] [exConfig]) exPodHelpers []
    (exPod PodRunning [] [exErrImagePull]) exPool exConfig exBuild (by decide) (by decide)
    (by decide)).1 PodSucceeded

theorem startBuildForMachineConfigPool_statusWrites (env : Env) (fuel : Nat) (h : History)
    (mosc : MachineOSConfig) (mosb : MachineOSBuild) (r : Option Err)
    (mosb1 : MachineOSBuild) (h2 : History)
    (hs : startBuildForMachineConfigPool env fuel h mosc mosb = some (r, mosb1, h2)) :
    GrowsBy (StatusWritesOnly (IsPrepared mosb.name)) h h2 := by
  rcases startBuildForMachineConfigPool_shape env fuel h mosc mosb r mosb1 h2 hs with
    ⟨g, _, _⟩ | ⟨hp, ibr, ref, g1, g2, _, _⟩
  · exact g.mono (prepEvent_statusWritesOnly _)
  · exact (g1.mono (prepEvent_statusWritesOnly _)).trans
      (grows_cons _ (by trivial) (g2.mono (pendingEvent_statusWritesOnly _))).1

theorem isPrepared_not_failed {name : String} {b : MachineOSBuild} (p : IsPrepared name b) :
    hasTrueCondition b MachineOSBuildFailed = false := by
  obtain ⟨_, hc, ht⟩ := p
  have hp := (hasTrueCondition_iff b MachineOSBuildPrepared).mp ht
  have hsum := trueLifecycleCount_eq b
  have hF : ¬ 0 < trueCountOf MachineOSBuildFailed b.status.conditions := by omega
  rw [← hasTrueCondition_iff] at hF
  simpa using hF

theorem rescheduleBuild_statusWrites (env : Env) (ph : PodHelpers) (fuel : Nat) (h : History)
    (pod : Pod) :
    ∀ b ∈ statusWrites (added h (rescheduleBuild env ph fuel h pod).history),
      hasTrueCondition b MachineOSBuildPrepared = true ∧
        hasTrueCondition b MachineOSBuildFailed = false := by
  unfold rescheduleBuild
  cases hg : env.api.poolGet h (mapGetD pod.labels ph.TargetMachineConfigPoolLabelKey) with
  | err e => simp [Handled.history, added, statusWrites]
  | ok pool =>
    simp only
    rcases hf : getConfigAndBuildForPool env pool with _ | ⟨mosc, _ | mosb⟩
    · simp [Handled.history, added, statusWrites]
    · simp [Handled.history, added, statusWrites]
    · simp only
      rcases hs : startBuildForMachineConfigPool env fuel
          (h ++ [Event.poolGet (mapGetD pod.labels ph.TargetMachineConfigPoolLabelKey)
            (Res.ok pool)]) mosc mosb with _ | ⟨r, mosb1, h2⟩
      · simp [Handled.history, added, statusWrites]
      · simp only [Handled.history]
        have g := (grows_cons _ (by trivial)
          (startBuildForMachineConfigPool_statusWrites env fuel _ mosc mosb r mosb1 h2 hs)).1
        intro b hb
        have p := StatusWritesOnly.mem_statusWrites (GrowsBy.mem_added g) b hb
        exact ⟨p.2.2, isPrepared_not_failed p⟩

/-- C13, as the code has it: for a build pod with a pod condition of reason `Evicted`, the
handler of deletions runs `rescheduleBuild` whatever the phase of the pod, and the handler of
updates runs it when the phase of the pod is Failed and does nothing in any other phase; every
status write of a record that `rescheduleBuild` makes carries the record with Prepared True
and Failed not True. -/
theorem handleBuildPod_evicted (env : Env) (ph : PodHelpers) (fuel : Nat) (h : History)
    (pod : Pod) (hev : isPodEvicted pod = true) :
    handleBuildPodDeletion env ph fuel h pod = rescheduleBuild env ph fuel h pod ∧
    (pod.phase = PodFailed →
      handleBuildPodUpdate env ph fuel h pod = rescheduleBuild env ph fuel h pod) ∧
    (pod.phase ≠ PodFailed → handleBuildPodUpdate env ph fuel h pod = Handled.done h) ∧
    (∀ b ∈ statusWrites (added h (handleBuildPodDeletion env ph fuel h pod).history),
      hasTrueCondition b MachineOSBuildPrepared = true ∧
        hasTrueCondition b MachineOSBuildFailed = false) ∧
    (∀ b ∈ statusWrites (added h (handleBuildPodUpdate env ph fuel h pod).history),
      hasTrueCondition b MachineOSBuildPrepared = true ∧
        hasTrueCondition b MachineOSBuildFailed = false) := by
  have hdel : handleBuildPodDeletion env ph fuel h pod = rescheduleBuild env ph fuel h pod := by
    simp [handleBuildPodDeletion, hev]
  refine ⟨hdel, fun hp => by simp [handleBuildPodUpdate, hp, hev],
    fun hp => by simp [handleBuildPodUpdate, hp], ?_, ?_⟩
  · rw [hdel]
    exact rescheduleBuild_statusWrites env ph fuel h pod
  · by_cases hp : pod.phase = PodFailed
    · have hu : handleBuildPodUpdate env ph fuel h pod = rescheduleBuild env ph fuel h pod := by
        simp [handleBuildPodUpdate, hp, hev]
      rw [hu]
      exact rescheduleBuild_statusWrites env ph fuel h pod
    · have hu : handleBuildPodUpdate env ph fuel h pod = Handled.done h := by
        simp [handleBuildPodUpdate, hp]
      rw [hu]
      simp [Handled.history, added, statusWrites]

/-- C13, at a concrete input: an evicted pod in phase Failed. -/
theorem handleBuildPod_evicted_witness :
    handleBuildPodDeletion (exEnv [exBuild] [exConfig]) exPodHelpers 1 []
        (exPod PodFailed [exEvicted] []) =
      rescheduleBuild (exEnv [exBuild] [exConfig]) exPodHelpers 1 []
        (exPod PodFailed [exEvicted] []) :=
  (handleBuildPod_evicted (exEnv [exBuild] [exConfig]) exPodHelpers 1 []
    (exPod PodFailed [exEvicted] []) (by decide)).1

/-- C13 as stated fails: for an evicted pod in phase Running the handler of updates returns
without a call, where `rescheduleBuild` reads the pool and starts the build. -/
theorem handleBuildPodUpdate_evicted_counterexample :
    isPodEvicted (exPod PodRunning [exEvicted] []) = true ∧
    handleBuildPodUpdate (exEnv [exBuild] [exConfig]) exPodHelpers 1 []
        (exPod PodRunning [exEvicted] []) = Handled.done [] ∧
    handleBuildPodUpdate (exEnv [exBuild] [exConfig]) exPodHelpers 1 []
        (exPod PodRunning [exEvicted] []) ≠
      rescheduleBuild (exEnv [exBuild] [exConfig]) exPodHelpers 1 []
        (exPod PodRunning [exEvicted] []) := by
  decide

/-! ### Cleanup -/

theorem mem_filtered_toList (ignoreMissing : Bool) (r : Option Err) (e : Err) :
    e ∈ (if ignoreMissing then ignoreIsNotFoundErr r else r).toList ↔
      r = some e ∧ survives ignoreMissing e = true := by
  cases r with
  | none => cases ignoreMissing <;> simp [ignoreIsNotFoundErr]
  | some x =>
    by_cases hxe : x = e
    · subst hxe
      cases ignoreMissing <;> by_cases hx : IsNotFound x = true <;>
        simp [ignoreIsNotFoundErr, survives, hx]
    · have hne : ¬ e = x := fun hh => hxe hh.symm
      cases ignoreMissing <;> by_cases hx : IsNotFound x = true <;>
        simp [ignoreIsNotFoundErr, survives, hx, hxe, hne]

/-- C15: `postBuildCleanup` makes all three deletions, whatever the others return: it asks the
builder backend to delete the builder object (answer `r1`), then asks the API to delete the
ConfigMap of the rendered configuration (answer `r2`) and the ConfigMap of the Dockerfile
(answer `r3`), and records exactly these three calls with these answers. The errors it
aggregates are exactly the errors among the three answers that survive the filter: with
`ignoreMissing` a not-found error is dropped, without it every error is kept. So it returns an
error exactly when some deletion answers with a surviving error, and with `ignoreMissing` it
returns nil when every deletion answers nil or not-found. -/
theorem postBuildCleanup_spec (env : Env) (h : History) (mosc : MachineOSConfig)
    (mosb : MachineOSBuild) (ignoreMissing : Bool) (r1 r2 r3 : Option Err)
    (h1 : r1 = env.imageBuilder.DeleteBuildObject h mosb mosc)
    (h2 : r2 = env.api.configMapDelete (h ++ [Event.deleteBuildObject mosb mosc r1])
      (env.helpers.getMCConfigMapName (env.helpers.newImageBuildRequest mosc mosb)))
    (h3 : r3 = env.api.configMapDelete
      (h ++ [Event.deleteBuildObject mosb mosc r1] ++
        [Event.configMapDelete
          (env.helpers.getMCConfigMapName (env.helpers.newImageBuildRequest mosc mosb)) r2])
      (env.helpers.getDockerfileConfigMapName (env.helpers.newImageBuildRequest mosc mosb))) :
    (postBuildCleanup env h mosc mosb ignoreMissing).2 =
      h ++ [Event.deleteBuildObject mosb mosc r1,
        Event.configMapDelete
          (env.helpers.getMCConfigMapName (env.helpers.newImageBuildRequest mosc mosb)) r2,
        Event.configMapDelete
          (env.helpers.getDockerfileConfigMapName (env.helpers.newImageBuildRequest mosc mosb))
          r3] ∧
    (∀ e, e ∈ (postBuildCleanup env h mosc mosb ignoreMissing).1 ↔
      (r1 = some e ∨ r2 = some e ∨ r3 = some e) ∧ survives ignoreMissing e = true) ∧
    ((postBuildCleanup env h mosc mosb ignoreMissing).1 ≠ [] ↔
      ∃ e, (r1 = some e ∨ r2 = some e ∨ r3 = some e) ∧ survives ignoreMissing e = true) ∧
    (ignoreMissing = true →
      (∀ e, r1 = some e ∨ r2 = some e ∨ r3 = some e → IsNotFound e = true) →
      (postBuildCleanup env h mosc mosb ignoreMissing).1 = []) ∧
    (ignoreMissing = false →
      (postBuildCleanup env h mosc mosb ignoreMissing).1 =
        r1.toList ++ r2.toList ++ r3.toList) := by
  have hmem : ∀ e, e ∈ (postBuildCleanup env h mosc mosb ignoreMissing).1 ↔
      (r1 = some e ∨ r2 = some e ∨ r3 = some e) ∧ survives ignoreMissing e = true := by
    intro e
    subst h1
    subst h2
    subst h3
    simp only [postBuildCleanup, List.mem_append, mem_filtered_toList]
    tauto
  refine ⟨?_, hmem, ?_, ?_, ?_⟩
  · subst h1
    subst h2
    subst h3
    simp [postBuildCleanup]
  · rw [ne_eq, List.eq_nil_iff_forall_not_mem, not_forall]
    exact exists_congr (fun e => by rw [not_not]; exact hmem e)
  · intro hi hall
    rw [List.eq_nil_iff_forall_not_mem]
    intro e he
    obtain ⟨hr, hs⟩ := (hmem e).mp he
    have := hall e hr
    simp [survives, hi, this] at hs
  · intro hi
    subst h1
    subst h2
    subst h3
    subst hi
    simp [postBuildCleanup]

/-- Witness of C15: the builder object and the first ConfigMap are gone already and the
deletion of the second ConfigMap is refused. All three deletions are made, and with
`ignoreMissing` the refusal is the one error that is aggregated. -/
theorem postBuildCleanup_spec_witness :
    (postBuildCleanup exCleanupEnv [] exConfig exBuild true).2 =
      [Event.deleteBuildObject exBuild exConfig (some (errNotFound "build-rendered-1")),
        Event.configMapDelete "mc-rendered-1" (some (errNotFound "mc-rendered-1")),
        Event.configMapDelete "dockerfile-rendered-1" (some (Err.new "forbidden"))] ∧
    (∀ e, e ∈ (postBuildCleanup exCleanupEnv [] exConfig exBuild true).1 ↔
      (some (errNotFound "build-rendered-1") = some e ∨
        some (errNotFound "mc-rendered-1") = some e ∨ some (Err.new "forbidden") = some e) ∧
      survives true e = true) ∧
    (postBuildCleanup exCleanupEnv [] exConfig exBuild true).1 = [Err.new "forbidden"] :=
  have t := postBuildCleanup_spec exCleanupEnv [] exConfig exBuild true
    (some (errNotFound "build-rendered-1")) (some (errNotFound "mc-rendered-1"))
    (some (Err.new "forbidden")) (by decide) (by decide) (by decide)
  ⟨t.1, t.2.1, by decide⟩

/-! ### The Succeeded transition -/

theorem markBuildSucceeded_eq (env : Env) (h : History) (mosc : MachineOSConfig)
    (mosb : MachineOSBuild) :
    markBuildSucceeded env h mosc mosb =
      RetryOnConflict (succeededAttempt env) (4 + 1) (mosc, mosb, h) := rfl

theorem RetryOnConflict_err {σ : Type} (fn : σ → Option Err × σ) (I : σ → σ → Prop)
    (htrans : ∀ a b c, I a b → I b c → I a c)
    (hfn : ∀ s, (fn s).1 ≠ none → I s (fn s).2) :
    ∀ n s, (RetryOnConflict fn (n + 1) s).1 ≠ none → I s (RetryOnConflict fn (n + 1) s).2 := by
  intro n
  induction n with
  | zero =>
    intro s hr
    have h1 := hfn s
    unfold RetryOnConflict at hr ⊢
    rcases hf : fn s with ⟨r, s1⟩
    rw [hf] at hr h1
    cases r with
    | none => exact absurd rfl hr
    | some e => by_cases hc : IsConflict e = true <;> simpa [hc] using h1
  | succ n ih =>
    intro s hr
    have h1 := hfn s
    unfold RetryOnConflict at hr ⊢
    rcases hf : fn s with ⟨r, s1⟩
    rw [hf] at hr h1
    cases r with
    | none => exact absurd rfl hr
    | some e =>
      by_cases hc : IsConflict e = true
      · simp only [hc, if_true, Nat.add_one_ne_zero, if_false] at hr ⊢
        exact htrans _ _ _ (h1 (by simp)) (ih s1 hr)
      · simpa [hc] using h1

theorem foldl_set_finalImagePushspec (l : List Condition) (st : MachineOSBuildStatus) :
    (l.foldl SetMachineOSBuildCondition st).finalImagePushspec = st.finalImagePushspec := by
  induction l generalizing st with
  | nil => rfl
  | cons c rest ih => simp only [List.foldl_cons]; rw [ih]; rfl

theorem postBuildCleanup_history (env : Env) (h : History) (mosc : MachineOSConfig)
    (mosb : MachineOSBuild) (ignoreMissing : Bool) :
    ∃ r1 r2 r3, (postBuildCleanup env h mosc mosb ignoreMissing).2 =
      h ++ [Event.deleteBuildObject mosb mosc r1,
        Event.configMapDelete
          (env.helpers.getMCConfigMapName (env.helpers.newImageBuildRequest mosc mosb)) r2,
        Event.configMapDelete
          (env.helpers.getDockerfileConfigMapName (env.helpers.newImageBuildRequest mosc mosb))
          r3] ∧
      (postBuildCleanup env h mosc mosb ignoreMissing).1 =
        (if ignoreMissing then ignoreIsNotFoundErr r1 else r1).toList ++
          (if ignoreMissing then ignoreIsNotFoundErr r2 else r2).toList ++
          (if ignoreMissing then ignoreIsNotFoundErr r3 else r3).toList :=
  ⟨_, _, _, by simp [postBuildCleanup], rfl⟩

theorem postBuildCleanup_noStatus (env : Env) (h : History) (mosc : MachineOSConfig)
    (mosb : MachineOSBuild) (ignoreMissing : Bool) :
    GrowsBy NoStatusWritten h (postBuildCleanup env h mosc mosb ignoreMissing).2 := by
  obtain ⟨r1, r2, r3, hh, _⟩ := postBuildCleanup_history env h mosc mosb ignoreMissing
  refine ⟨_, hh, ?_⟩
  intro x hx
  simp only [List.mem_cons, List.mem_singleton, List.not_mem_nil, or_false] at hx
  rcases hx with rfl | rfl | rfl <;> trivial

theorem updateConfigAndBuild_err (env : Env) (h : History) (mosc : MachineOSConfig)
    (bs : MachineOSBuild) (hr : (updateConfigAndBuild env h mosc bs).1 ≠ none) :
    GrowsBy NoStatusWritten h (updateConfigAndBuild env h mosc bs).2 := by
  simp only [updateConfigAndBuild, syncAvailableStatus] at hr ⊢
  cases hcu : env.api.configUpdateStatus h mosc with
  | some e => exact GrowsBy.snoc _ _ (by trivial)
  | none =>
    simp only [hcu] at hr ⊢
    cases hbu : env.api.buildUpdate (h ++ [Event.configUpdateStatus mosc none]) bs with
    | err e => exact GrowsBy.trans (GrowsBy.snoc _ _ (by trivial)) (GrowsBy.snoc _ _ (by trivial))
    | ok newMosb =>
      simp only [hbu] at hr ⊢
      refine GrowsBy.trans (GrowsBy.snoc _ _ (by trivial))
        (GrowsBy.trans (GrowsBy.snoc _ _ (by trivial)) (GrowsBy.snoc _ _ ?_))
      revert hr
      generalize env.api.buildUpdateStatus _ _ = w
      intro hr
      cases w with
      | none => exact absurd rfl hr
      | some e => trivial

theorem updateConfigAndBuild_none (env : Env) (h : History) (mosc : MachineOSConfig)
    (bs : MachineOSBuild) (hr : (updateConfigAndBuild env h mosc bs).1 = none) :
    ∃ newMosb, (updateConfigAndBuild env h mosc bs).2 =
      h ++ [Event.configUpdateStatus mosc none, Event.buildUpdate bs (Res.ok newMosb),
        Event.buildUpdateStatus (availableRecord { newMosb with status := bs.status }) none] := by
  simp only [updateConfigAndBuild, syncAvailableStatus] at hr ⊢
  cases hcu : env.api.configUpdateStatus h mosc with
  | some e => simp [hcu] at hr
  | none =>
    simp only [hcu] at hr ⊢
    cases hbu : env.api.buildUpdate (h ++ [Event.configUpdateStatus mosc none]) bs with
    | err e => simp [hbu] at hr
    | ok newMosb =>
      simp only [hbu] at hr ⊢
      refine ⟨newMosb, ?_⟩
      rw [hr]
      simp [availableRecord]

theorem succeededAttempt_get_err (env : Env) (mosc0 : MachineOSConfig) (mosb0 : MachineOSBuild)
    (h0 : History) (e : Err)
    (hget : env.api.configMapGet h0
      (env.helpers.getDigestConfigMapName (env.helpers.newImageBuildRequest mosc0 mosb0)) =
        Res.err e) :
    succeededAttempt env (mosc0, mosb0, h0) =
      (some e, mosc0, mosb0, h0 ++ [Event.configMapGet
        (env.helpers.getDigestConfigMapName (env.helpers.newImageBuildRequest mosc0 mosb0))
        (Res.err e)]) := by
  simp only [succeededAttempt, hget]

theorem succeededAttempt_parse_err (env : Env) (mosc0 : MachineOSConfig)
    (mosb0 : MachineOSBuild) (h0 : History) (cm : ConfigMap) (e : Err)
    (hget : env.api.configMapGet h0
      (env.helpers.getDigestConfigMapName (env.helpers.newImageBuildRequest mosc0 mosb0)) =
        Res.ok cm)
    (hparse : env.helpers.ParseImagePullspec mosc0.spec.buildInputs.renderedImagePushspec
      (mapGetD cm.data "digest") = Res.err e) :
    succeededAttempt env (mosc0, mosb0, h0) =
      (some (e.wrap ("could not create digested image pullspec from the pullspec " ++
        quoted mosc0.status.currentImagePullspec ++ " and the digest " ++
        quoted (mapGetD cm.data "digest") ++ ": ")), mosc0, mosb0,
        h0 ++ [Event.configMapGet
          (env.helpers.getDigestConfigMapName (env.helpers.newImageBuildRequest mosc0 mosb0))
          (Res.ok cm)]) := by
  simp only [succeededAttempt, hget, hparse]

theorem succeededAttempt_cleanup_err (env : Env) (mosc0 : MachineOSConfig)
    (mosb0 : MachineOSBuild) (h0 : History) (cm : ConfigMap) (sha : String) (e : Err)
    (es : List Err) (h2 : History)
    (hget : env.api.configMapGet h0
      (env.helpers.getDigestConfigMapName (env.helpers.newImageBuildRequest mosc0 mosb0)) =
        Res.ok cm)
    (hparse : env.helpers.ParseImagePullspec mosc0.spec.buildInputs.renderedImagePushspec
      (mapGetD cm.data "digest") = Res.ok sha)
    (hclean : postBuildCleanup env (h0 ++ [Event.configMapGet
        (env.helpers.getDigestConfigMapName (env.helpers.newImageBuildRequest mosc0 mosb0))
        (Res.ok cm)]) (withCurrentImage mosc0 sha) (withFinalImage mosb0 sha) false =
      (e :: es, h2)) :
    succeededAttempt env (mosc0, mosb0, h0) =
      (some (Err.new ("could not do post-build cleanup: " ++ aggregateMessage (e :: es))),
        withCurrentImage mosc0 sha, withFinalImage mosb0 sha, h2) := by
  simp only [withCurrentImage, withFinalImage] at hclean
  simp only [succeededAttempt, hget, hparse, hclean, withCurrentImage, withFinalImage]

theorem succeededAttempt_cleanup_ok (env : Env) (mosc0 : MachineOSConfig)
    (mosb0 : MachineOSBuild) (h0 : History) (cm : ConfigMap) (sha : String) (h2 : History)
    (hget : env.api.configMapGet h0
      (env.helpers.getDigestConfigMapName (env.helpers.newImageBuildRequest mosc0 mosb0)) =
        Res.ok cm)
    (hparse : env.helpers.ParseImagePullspec mosc0.spec.buildInputs.renderedImagePushspec
      (mapGetD cm.data "digest") = Res.ok sha)
    (hclean : postBuildCleanup env (h0 ++ [Event.configMapGet
        (env.helpers.getDigestConfigMapName (env.helpers.newImageBuildRequest mosc0 mosb0))
        (Res.ok cm)]) (withCurrentImage mosc0 sha) (withFinalImage mosb0 sha) false =
      ([], h2)) :
    succeededAttempt env (mosc0, mosb0, h0) =
      ((updateConfigAndBuild env h2 (withCurrentImage mosc0 sha)
          (SetBuildConditions (withFinalImage mosb0 sha) succeededConditions)).1,
        withCurrentImage mosc0 sha,
        SetBuildConditions (withFinalImage mosb0 sha) succeededConditions,
        (updateConfigAndBuild env h2 (withCurrentImage mosc0 sha)
          (SetBuildConditions (withFinalImage mosb0 sha) succeededConditions)).2) := by
  simp only [withCurrentImage, withFinalImage] at hclean
  simp only [succeededAttempt, hget, hparse, hclean, withCurrentImage, withFinalImage,
    NewMachineOSBuildState]

theorem succeededAttempt_err (env : Env) (s : MachineOSConfig × MachineOSBuild × History)
    (hr : (succeededAttempt env s).1 ≠ none) :
    GrowsBy NoStatusWritten s.2.2 (succeededAttempt env s).2.2.2 := by
  obtain ⟨mosc0, mosb0, h0⟩ := s
  cases hget : env.api.configMapGet h0
      (env.helpers.getDigestConfigMapName (env.helpers.newImageBuildRequest mosc0 mosb0)) with
  | err e =>
    rw [succeededAttempt_get_err env mosc0 mosb0 h0 e hget]
    exact GrowsBy.snoc _ _ (by trivial)
  | ok cm =>
    cases hparse : env.helpers.ParseImagePullspec mosc0.spec.buildInputs.renderedImagePushspec
        (mapGetD cm.data "digest") with
    | err e =>
      rw [succeededAttempt_parse_err env mosc0 mosb0 h0 cm e hget hparse]
      exact GrowsBy.snoc _ _ (by trivial)
    | ok sha =>
      have g := postBuildCleanup_noStatus env (h0 ++ [Event.configMapGet
        (env.helpers.getDigestConfigMapName (env.helpers.newImageBuildRequest mosc0 mosb0))
        (Res.ok cm)]) (withCurrentImage mosc0 sha) (withFinalImage mosb0 sha) false
      rcases hclean : postBuildCleanup env (h0 ++ [Event.configMapGet
        (env.helpers.getDigestConfigMapName (env.helpers.newImageBuildRequest mosc0 mosb0))
        (Res.ok cm)]) (withCurrentImage mosc0 sha) (withFinalImage mosb0 sha) false with
        ⟨_ | ⟨e, es⟩, h2⟩
      · rw [succeededAttempt_cleanup_ok env mosc0 mosb0 h0 cm sha h2 hget hparse hclean] at hr ⊢
        rw [hclean] at g
        exact GrowsBy.trans (GrowsBy.snoc _ _ (by trivial))
          (GrowsBy.trans g (updateConfigAndBuild_err env h2 _ _ hr))
      · rw [succeededAttempt_cleanup_err env mosc0 mosb0 h0 cm sha e es h2 hget hparse hclean]
        rw [hclean] at g
        exact GrowsBy.trans (GrowsBy.snoc _ _ (by trivial)) g

theorem sameObjects_refl (s : MachineOSConfig × MachineOSBuild × History) : SameObjects s s :=
  ⟨GrowsBy.refl _ _, rfl, rfl, rfl, rfl⟩

theorem sameObjects_trans (a b c : MachineOSConfig × MachineOSBuild × History)
    (x : SameObjects a b) (y : SameObjects b c) : SameObjects a c :=
  ⟨x.1.trans y.1, y.2.1.trans x.2.1, y.2.2.1.trans x.2.2.1, y.2.2.2.1.trans x.2.2.2.1,
    y.2.2.2.2.trans x.2.2.2.2⟩

theorem succeededAttempt_same (env : Env) (s : MachineOSConfig × MachineOSBuild × History) :
    SameObjects s (succeededAttempt env s).2 := by
  obtain ⟨mosc0, mosb0, h0⟩ := s
  cases hget : env.api.configMapGet h0
      (env.helpers.getDigestConfigMapName (env.helpers.newImageBuildRequest mosc0 mosb0)) with
  | err e =>
    rw [succeededAttempt_get_err env mosc0 mosb0 h0 e hget]
    exact ⟨GrowsBy.snoc _ _ (by trivial), rfl, rfl, rfl, rfl⟩
  | ok cm =>
    cases hparse : env.helpers.ParseImagePullspec mosc0.spec.buildInputs.renderedImagePushspec
        (mapGetD cm.data "digest") with
    | err e =>
      rw [succeededAttempt_parse_err env mosc0 mosb0 h0 cm e hget hparse]
      exact ⟨GrowsBy.snoc _ _ (by trivial), rfl, rfl, rfl, rfl⟩
    | ok sha =>
      have g := (postBuildCleanup_noStatus env (h0 ++ [Event.configMapGet
        (env.helpers.getDigestConfigMapName (env.helpers.newImageBuildRequest mosc0 mosb0))
        (Res.ok cm)]) (withCurrentImage mosc0 sha) (withFinalImage mosb0 sha) false).mono
        (fun _ _ => trivial)
      rcases hclean : postBuildCleanup env (h0 ++ [Event.configMapGet
        (env.helpers.getDigestConfigMapName (env.helpers.newImageBuildRequest mosc0 mosb0))
        (Res.ok cm)]) (withCurrentImage mosc0 sha) (withFinalImage mosb0 sha) false with
        ⟨_ | ⟨e, es⟩, h2⟩
      · rw [succeededAttempt_cleanup_ok env mosc0 mosb0 h0 cm sha h2 hget hparse hclean]
        rw [hclean] at g
        refine ⟨GrowsBy.trans (GrowsBy.snoc _ _ (by trivial)) (GrowsBy.trans g ?_),
          rfl, rfl, rfl, rfl⟩
        exact (updateConfigAndBuild_grows env h2 _ _ (withFinalImage mosb0 sha).status rfl).mono
          (fun _ _ => trivial)
      · rw [succeededAttempt_cleanup_err env mosc0 mosb0 h0 cm sha e es h2 hget hparse hclean]
        rw [hclean] at g
        exact ⟨GrowsBy.trans (GrowsBy.snoc _ _ (by trivial)) g, rfl, rfl, rfl, rfl⟩

theorem toList_append_nil {r1 r2 r3 : Option Err}
    (hnil : r1.toList ++ r2.toList ++ r3.toList = []) : r1 = none ∧ r2 = none ∧ r3 = none := by
  cases r1 <;> cases r2 <;> cases r3 <;> simp at hnil ⊢

theorem succeededAttempt_none (env : Env) (mosc0 : MachineOSConfig) (mosb0 : MachineOSBuild)
    (h0 : History) (res : MachineOSConfig × MachineOSBuild × History)
    (hf : succeededAttempt env (mosc0, mosb0, h0) = (none, res)) :
    ∃ cm sha newMosb,
      env.helpers.ParseImagePullspec mosc0.spec.buildInputs.renderedImagePushspec
        (mapGetD cm.data "digest") = Res.ok sha ∧
      res.2.2 = h0 ++ [Event.configMapGet
          (env.helpers.getDigestConfigMapName (env.helpers.newImageBuildRequest mosc0 mosb0))
          (Res.ok cm),
        Event.deleteBuildObject (withFinalImage mosb0 sha) (withCurrentImage mosc0 sha) none,
        Event.configMapDelete (env.helpers.getMCConfigMapName
          (env.helpers.newImageBuildRequest (withCurrentImage mosc0 sha)
            (withFinalImage mosb0 sha))) none,
        Event.configMapDelete (env.helpers.getDockerfileConfigMapName
          (env.helpers.newImageBuildRequest (withCurrentImage mosc0 sha)
            (withFinalImage mosb0 sha))) none,
        Event.configUpdateStatus (withCurrentImage mosc0 sha) none,
        Event.buildUpdate (SetBuildConditions (withFinalImage mosb0 sha) succeededConditions)
          (Res.ok newMosb),
        Event.buildUpdateStatus (succeededWrite newMosb mosb0 sha) none] ∧
      res.1 = withCurrentImage mosc0 sha ∧
      res.2.1 = SetBuildConditions (withFinalImage mosb0 sha) succeededConditions := by
  cases hget : env.api.configMapGet h0
      (env.helpers.getDigestConfigMapName (env.helpers.newImageBuildRequest mosc0 mosb0)) with
  | err e => simp [succeededAttempt_get_err env mosc0 mosb0 h0 e hget] at hf
  | ok cm =>
    cases hparse : env.helpers.ParseImagePullspec mosc0.spec.buildInputs.renderedImagePushspec
        (mapGetD cm.data "digest") with
    | err e => simp [succeededAttempt_parse_err env mosc0 mosb0 h0 cm e hget hparse] at hf
    | ok sha =>
      obtain ⟨r1, r2, r3, hh, he⟩ := postBuildCleanup_history env (h0 ++ [Event.configMapGet
        (env.helpers.getDigestConfigMapName (env.helpers.newImageBuildRequest mosc0 mosb0))
        (Res.ok cm)]) (withCurrentImage mosc0 sha) (withFinalImage mosb0 sha) false
      rcases hclean : postBuildCleanup env (h0 ++ [Event.configMapGet
        (env.helpers.getDigestConfigMapName (env.helpers.newImageBuildRequest mosc0 mosb0))
        (Res.ok cm)]) (withCurrentImage mosc0 sha) (withFinalImage mosb0 sha) false with
        ⟨_ | ⟨e, es⟩, h2⟩
      · rw [succeededAttempt_cleanup_ok env mosc0 mosb0 h0 cm sha h2 hget hparse hclean] at hf
        rw [hclean] at hh he
        simp only [Bool.false_eq_true, if_false] at he
        obtain ⟨e1, e2, e3⟩ := toList_append_nil he.symm
        subst e1 e2 e3
        simp only [Prod.mk.injEq] at hf
        obtain ⟨hnone, hres⟩ := hf
        obtain ⟨newMosb, hu⟩ := updateConfigAndBuild_none env h2 _ _ hnone
        refine ⟨cm, sha, newMosb, hparse, ?_, ?_, ?_⟩
        · rw [← hres]
          simp only
          rw [hu]
          simp only at hh
          rw [hh]
          simp [succeededWrite]
        · rw [← hres]
        · rw [← hres]
      · simp [succeededAttempt_cleanup_err env mosc0 mosb0 h0 cm sha e es h2 hget hparse
          hclean] at hf

theorem succeededWrite_spec (newMosb mosb0 : MachineOSBuild) (sha : String) :
    (succeededWrite newMosb mosb0 sha).status.finalImagePushspec = sha ∧
    trueLifecycleCount (succeededWrite newMosb mosb0 sha) = 1 ∧
    hasTrueCondition (succeededWrite newMosb mosb0 sha) MachineOSBuildSucceeded = true := by
  refine ⟨?_, succeeded_written _ (withFinalImage mosb0 sha).status rfl⟩
  simp only [succeededWrite, availableRecord, SetMachineOSBuildCondition, SetBuildConditions,
    foldl_set_finalImagePushspec, withFinalImage]

/-- C16: when `markBuildSucceeded` returns without an error, its last attempt has read the
digest ConfigMap, has made of the push repository R of the configuration and the digest D the
pullspec that `ParseImagePullspec` gives for them, has deleted the builder object and the two
ConfigMaps of the build, each without an error, and after that has written the status of the
configuration with that pullspec as `CurrentImagePullspec` and the status of the record with
the same pullspec as `FinalImagePushspec` and Succeeded as its one true lifecycle condition.
When it returns an error, no status write of the record has been accepted; and when the
digest ConfigMap cannot be read or the pullspec cannot be made (with an error other than a
conflict), or the cleanup fails, the attempt ends there with the error and writes no
status. -/
theorem markBuildSucceeded_spec (env : Env) (h : History) (mosc : MachineOSConfig)
    (mosb : MachineOSBuild) :
    ((markBuildSucceeded env h mosc mosb).1 = none →
      ∃ hpre mosc0 mosb0 cm sha newMosb,
        GrowsBy (fun _ => True) h hpre ∧
        mosc0.spec = mosc.spec ∧ mosc0.name = mosc.name ∧
        mosb0.spec = mosb.spec ∧ mosb0.name = mosb.name ∧
        env.helpers.ParseImagePullspec mosc.spec.buildInputs.renderedImagePushspec
          (mapGetD cm.data "digest") = Res.ok sha ∧
        (markBuildSucceeded env h mosc mosb).2.2.2 = hpre ++ [Event.configMapGet
            (env.helpers.getDigestConfigMapName (env.helpers.newImageBuildRequest mosc0 mosb0))
            (Res.ok cm),
          Event.deleteBuildObject (withFinalImage mosb0 sha) (withCurrentImage mosc0 sha) none,
          Event.configMapDelete (env.helpers.getMCConfigMapName
            (env.helpers.newImageBuildRequest (withCurrentImage mosc0 sha)
              (withFinalImage mosb0 sha))) none,
          Event.configMapDelete (env.helpers.getDockerfileConfigMapName
            (env.helpers.newImageBuildRequest (withCurrentImage mosc0 sha)
              (withFinalImage mosb0 sha))) none,
          Event.configUpdateStatus (withCurrentImage mosc0 sha) none,
          Event.buildUpdate (SetBuildConditions (withFinalImage mosb0 sha) succeededConditions)
            (Res.ok newMosb),
          Event.buildUpdateStatus (succeededWrite newMosb mosb0 sha) none] ∧
        (withCurrentImage mosc0 sha).status.currentImagePullspec = sha ∧
        (succeededWrite newMosb mosb0 sha).status.finalImagePushspec = sha ∧
        trueLifecycleCount (succeededWrite newMosb mosb0 sha) = 1 ∧
        hasTrueCondition (succeededWrite newMosb mosb0 sha) MachineOSBuildSucceeded = true ∧
        (markBuildSucceeded env h mosc mosb).2.1.status.currentImagePullspec = sha ∧
        (markBuildSucceeded env h mosc mosb).2.2.1.status.finalImagePushspec = sha) ∧
    ((markBuildSucceeded env h mosc mosb).1 ≠ none →
      ∀ b, Event.buildUpdateStatus b none ∉ added h (markBuildSucceeded env h mosc mosb).2.2.2) ∧
    (∀ e, env.api.configMapGet h
        (env.helpers.getDigestConfigMapName (env.helpers.newImageBuildRequest mosc mosb)) =
          Res.err e → IsConflict e = false →
      markBuildSucceeded env h mosc mosb =
        (some e, mosc, mosb, h ++ [Event.configMapGet
          (env.helpers.getDigestConfigMapName (env.helpers.newImageBuildRequest mosc mosb))
          (Res.err e)])) ∧
    (∀ cm e, env.api.configMapGet h
        (env.helpers.getDigestConfigMapName (env.helpers.newImageBuildRequest mosc mosb)) =
          Res.ok cm →
      env.helpers.ParseImagePullspec mosc.spec.buildInputs.renderedImagePushspec
        (mapGetD cm.data "digest") = Res.err e → IsConflict e = false →
      (markBuildSucceeded env h mosc mosb).1 ≠ none ∧
      (markBuildSucceeded env h mosc mosb).2.2.2 = h ++ [Event.configMapGet
        (env.helpers.getDigestConfigMapName (env.helpers.newImageBuildRequest mosc mosb))
        (Res.ok cm)]) ∧
    (∀ cm sha, env.api.configMapGet h
        (env.helpers.getDigestConfigMapName (env.helpers.newImageBuildRequest mosc mosb)) =
          Res.ok cm →
      env.helpers.ParseImagePullspec mosc.spec.buildInputs.renderedImagePushspec
        (mapGetD cm.data "digest") = Res.ok sha →
      (postBuildCleanup env (h ++ [Event.configMapGet
        (env.helpers.getDigestConfigMapName (env.helpers.newImageBuildRequest mosc mosb))
        (Res.ok cm)]) (withCurrentImage mosc sha) (withFinalImage mosb sha) false).1 ≠ [] →
      (markBuildSucceeded env h mosc mosb).1 ≠ none ∧
      (markBuildSucceeded env h mosc mosb).2.2.2 =
        (postBuildCleanup env (h ++ [Event.configMapGet
          (env.helpers.getDigestConfigMapName (env.helpers.newImageBuildRequest mosc mosb))
          (Res.ok cm)]) (withCurrentImage mosc sha) (withFinalImage mosb sha) false).2) := by
  refine ⟨fun hr => ?_, fun hr b hb => ?_, fun e hget hc => ?_, fun cm e hget hparse hc => ?_,
    fun cm sha hget hparse hclean => ?_⟩
  · rw [markBuildSucceeded_eq] at hr ⊢
    obtain ⟨⟨mosc0, mosb0, h0⟩, hI, hf⟩ := RetryOnConflict_none (succeededAttempt env) SameObjects
      sameObjects_refl sameObjects_trans (succeededAttempt_same env) 4 (mosc, mosb, h) hr
    obtain ⟨cm, sha, newMosb, hparse, hh, hc, hb⟩ := succeededAttempt_none env mosc0 mosb0 h0 _ hf
    obtain ⟨hg, hs1, hn1, hs2, hn2⟩ := hI
    obtain ⟨w1, w2, w3⟩ := succeededWrite_spec newMosb mosb0 sha
    simp only at hs1
    refine ⟨h0, mosc0, mosb0, cm, sha, newMosb, hg, hs1, hn1, hs2, hn2, ?_, hh, rfl, w1, w2, w3,
      ?_, ?_⟩
    · rw [← hs1]; exact hparse
    · rw [hc]; rfl
    · rw [hb]
      simp only [SetBuildConditions, foldl_set_finalImagePushspec, withFinalImage]
  · rw [markBuildSucceeded_eq] at hr hb
    have g := RetryOnConflict_err (succeededAttempt env)
      (fun s s1 => GrowsBy NoStatusWritten s.2.2 s1.2.2) (fun _ _ _ => GrowsBy.trans)
      (succeededAttempt_err env) 4 (mosc, mosb, h) hr
    exact GrowsBy.mem_added g _ hb
  · rw [markBuildSucceeded_eq]
    unfold RetryOnConflict
    rw [succeededAttempt_get_err env mosc mosb h e hget]
    simp [hc]
  · rw [markBuildSucceeded_eq]
    unfold RetryOnConflict
    rw [succeededAttempt_parse_err env mosc mosb h cm e hget hparse]
    have hw : IsConflict (Err.wrap ("could not create digested image pullspec from the pullspec " ++
        quoted mosc.status.currentImagePullspec ++ " and the digest " ++
        quoted (mapGetD cm.data "digest") ++ ": ") e) = false := by
      simpa [IsConflict, Err.wrap] using hc
    simp [hw]
  · rw [markBuildSucceeded_eq]
    unfold RetryOnConflict
    rcases hcl : postBuildCleanup env (h ++ [Event.configMapGet
        (env.helpers.getDigestConfigMapName (env.helpers.newImageBuildRequest mosc mosb))
        (Res.ok cm)]) (withCurrentImage mosc sha) (withFinalImage mosb sha) false with
      ⟨_ | ⟨e, es⟩, h2⟩
    · rw [hcl] at hclean; exact absurd rfl hclean
    · rw [succeededAttempt_cleanup_err env mosc mosb h cm sha e es h2 hget hparse hcl]
      simp [IsConflict, Err.new]

/-- C16, at a concrete input: the push repository `registry.example/os` and the digest
`sha256:abc`. -/
theorem markBuildSucceeded_spec_witness :
    (markBuildSucceeded { exEnv [exBuild] [exConfig] with api := exDigestApi } [] exConfig
      exBuild).1 = none ∧
    ∃ sha,
      (markBuildSucceeded { exEnv [exBuild] [exConfig] with api := exDigestApi } [] exConfig
        exBuild).2.1.status.currentImagePullspec = sha ∧
      (markBuildSucceeded { exEnv [exBuild] [exConfig] with api := exDigestApi } [] exConfig
        exBuild).2.2.1.status.finalImagePushspec = sha ∧
      sha = "registry.example/os@sha256:abc" := by
  refine ⟨by decide, ?_⟩
  obtain ⟨_, _, _, _, sha, _, _, _, _, _, _, _, _, _, _, _, _, h1, h2⟩ :=
    (markBuildSucceeded_spec { exEnv [exBuild] [exConfig] with api := exDigestApi } [] exConfig
      exBuild).1 (by decide)
  refine ⟨sha, h1, h2, ?_⟩
  rw [← h1]
  decide

/-! ### Retries of a transition -/

/-- C17, at the failing input: the store holds the record at the version token `2` and the
caller holds it at the token `1`. `markBuildInterrupted`, `markBuildInProgress`,
`markBuildPendingWithObjectRef` and `markBuildSucceeded` make the five attempts of the retry
policy, each sends the record at the token `1` that the first attempt had, and a conflict is
returned; `markBuildFailed` makes one attempt and returns its own error. -/
theorem transitions_retry_stale_record :
    ((markBuildInterrupted exConflictEnv [] exConfig exBuild).1.map IsConflict = some true ∧
      writeTokens (markBuildInterrupted exConflictEnv [] exConfig exBuild).2.2 =
        List.replicate 5 ("1", false)) ∧
    ((markBuildInProgress exConflictEnv [] exBuild).1.map IsConflict = some true ∧
      writeTokens (markBuildInProgress exConflictEnv [] exBuild).2.2 =
        List.replicate 5 ("1", false)) ∧
    ((markBuildPendingWithObjectRef exConflictEnv [] exConfig exBuild exObjectRef).1.map
        IsConflict = some true ∧
      writeTokens (markBuildPendingWithObjectRef exConflictEnv [] exConfig exBuild
        exObjectRef).2.2 = List.replicate 5 ("1", false)) ∧
    ((markBuildSucceeded exConflictEnv [] exConfig exBuild).1.map IsConflict = some true ∧
      writeTokens (markBuildSucceeded exConflictEnv [] exConfig exBuild).2.2.2 =
        List.replicate 5 ("1", false)) ∧
    ((markBuildFailed exConflictEnv [] exConfig exBuild).1 = some (Err.new "BuildFailed") ∧
      writeTokens (markBuildFailed exConflictEnv [] exConfig exBuild).2.2 = [("1", false)]) := by
  decide

/-! ### Rescheduling a build -/

/-- C14, at the failing input: the build of the record has been started once over the store,
so `StartBuild` has been called and the ConfigMaps of the rendered configuration and of the
Dockerfile are stored; then the build pod is evicted. `rescheduleBuild`, run by either
handler, stops in `prepareForBuild` at the create of the ConfigMap of the rendered
configuration, which the store answers with AlreadyExists, and `StartBuild` is not called
again. -/
theorem rescheduleBuild_started_record :
    exStarted.1 = none ∧
    (exStarted.2.2.filter isStartBuild).length = 1 ∧
    ((Store.after exStore exStarted.2.2).getConfigMap "mc-rendered-1").isSome = true ∧
    ((Store.after exStore exStarted.2.2).getConfigMap "dockerfile-rendered-1").isSome = true ∧
    isPodEvicted (exPod PodFailed [exEvicted] []) = true ∧
    handleBuildPodUpdate (exStoreEnv [exStarted.2.1]) exPodHelpers 1 exStarted.2.2
        (exPod PodFailed [exEvicted] []) =
      rescheduleBuild (exStoreEnv [exStarted.2.1]) exPodHelpers 1 exStarted.2.2
        (exPod PodFailed [exEvicted] []) ∧
    handleBuildPodDeletion (exStoreEnv [exStarted.2.1]) exPodHelpers 1 exStarted.2.2
        (exPod PodFailed [exEvicted] []) =
      rescheduleBuild (exStoreEnv [exStarted.2.1]) exPodHelpers 1 exStarted.2.2
        (exPod PodFailed [exEvicted] []) ∧
    (added exStarted.2.2 (rescheduleBuild (exStoreEnv [exStarted.2.1]) exPodHelpers 1
        exStarted.2.2 (exPod PodFailed [exEvicted] [])).history).any isStartBuild = false ∧
    (added exStarted.2.2 (rescheduleBuild (exStoreEnv [exStarted.2.1]) exPodHelpers 1
        exStarted.2.2 (exPod PodFailed [exEvicted] [])).history).getLast? =
      some (Event.configMapCreate
        { name := "mc-rendered-1", data := [("machineconfig", "")] }
        (some (errAlreadyExists "mc-rendered-1"))) := by
  decide

/-! ### Canonical secrets -/

/-- C19, at the failing inputs. The store holds, under the derived name, a secret whose
credentials are the freshly computed ones and that carries no label: the secret is returned
as it is stored and nothing is written, because the labels that are checked are the ones of
the computed secret. And when the stored credentials differ as well, the update sends the
stored secret with the new credentials and the labels it had, so what is stored afterwards
does not carry the labels of the computed secret. -/
theorem handleCanonicalizedPullSecret_stale_labels :
    exCanonicalHelpers.canonicalizePullSecret exLegacySecret = Res.ok exComputedSecret ∧
    exCanonicalHelpers.hasCanonicalizedSecretLabels
      { exComputedSecret with labels := [] } = false ∧
    handleCanonicalizedPullSecret
        (exSecretEnv [exLegacySecret, { exComputedSecret with labels := [] }])
        (fun _ _ => none) [] exComputedSecret =
      some (Res.ok { exComputedSecret with labels := [] },
        [Event.secretGet "pull-canonical" (Res.ok { exComputedSecret with labels := [] })]) ∧
    handleCanonicalizedPullSecret
        (exSecretEnv [exLegacySecret, { exComputedSecret with labels := [], data := [] }])
        (fun _ _ => none) [] exComputedSecret =
      some (Res.ok { exComputedSecret with labels := [] },
        [Event.secretGet "pull-canonical"
            (Res.ok { exComputedSecret with labels := [], data := [] }),
          Event.secretGet "pull-canonical"
            (Res.ok { exComputedSecret with labels := [], data := [] }),
          Event.secretUpdate { exComputedSecret with labels := [] }
            (Res.ok { exComputedSecret with labels := [] })]) := by
  decide

theorem Store.after_replicate_get (init : Store) (name : String) (r : Res Secret) (n : Nat) :
    Store.after init (List.replicate n (Event.secretGet name r)) = init := by
  induction n with
  | zero => rfl
  | succ n ih =>
    unfold Store.after at ih ⊢
    rw [List.replicate_succ', List.foldl_append, ih]
    rfl

theorem validatePullSecret_loop (fuel n : Nat) :
    validatePullSecret (exSecretEnv [exLoopSecret]) fuel
      (List.replicate n (Event.secretGet "loop-canonical" (Res.ok exLoopSecret)))
      "loop-canonical" = none := by
  induction fuel generalizing n with
  | zero => rfl
  | succ fuel ih =>
    have hget : (exSecretEnv [exLoopSecret]).api.secretGet
        (List.replicate n (Event.secretGet "loop-canonical" (Res.ok exLoopSecret)))
        "loop-canonical" = Res.ok exLoopSecret := by
      simp only [exSecretEnv, storeApi, Store.after_replicate_get]
      decide
    have hcanon : (exSecretEnv [exLoopSecret]).helpers.canonicalizePullSecret exLoopSecret =
        Res.ok exLoopSecret := by decide
    have hic : (exSecretEnv [exLoopSecret]).helpers.isCanonicalizedSecret exLoopSecret =
        true := by decide
    have hlabel : mapGetD exLoopSecret.labels
        (exSecretEnv [exLoopSecret]).helpers.OriginalSecretNameLabelKey = "loop-canonical" := by
      decide
    unfold validatePullSecret
    simp only [hget, hcanon, hic, hlabel, Bool.not_true, Bool.and_false, Bool.false_eq_true,
      if_false, Bool.and_self]
    rw [← List.replicate_succ']
    exact ih (n + 1)

/-- C20 as stated fails: over the store `exChain` the call for `second-canonical` returns
only with four nested calls, and for a secret whose original-name label is its own name no
number of nested calls is enough. -/
theorem validatePullSecret_depth_counterexample :
    validatePullSecret (exSecretEnv exChain) 2 [] "second-canonical" = none ∧
    validatePullSecret (exSecretEnv exChain) 3 [] "second-canonical" = none ∧
    (validatePullSecret (exSecretEnv exChain) 4 [] "second-canonical").map Prod.fst =
      some (Res.ok exComputedSecret) ∧
    ∀ fuel, validatePullSecret (exSecretEnv [exLoopSecret]) fuel [] "loop-canonical" = none :=
  ⟨by decide, by decide, by decide, fun fuel => validatePullSecret_loop fuel 0⟩

theorem Store.after_snoc_get (init : Store) (h : History) (name : String) (r : Res Secret) :
    Store.after init (h ++ [Event.secretGet name r]) = Store.after init h := by
  simp [Store.after, List.foldl_append, Store.step]

theorem storeApi_create_after_get (init : Store) (base : Api) (h1 : History) (s : Secret)
    (e1 e2 : Err) (hget : (storeApi init base).secretGet h1 s.name = Res.err e1)
    (hcreate : (storeApi init base).secretCreate (h1 ++ [Event.secretGet s.name (Res.err e1)])
      s = Res.err e2) : IsAlreadyExists e2 = false := by
  simp only [storeApi, Store.after_snoc_get] at hget hcreate
  cases hs : (Store.after init h1).getSecret s.name with
  | some t => simp [hs] at hget
  | none => simp [hs] at hcreate

theorem handleCanonicalizedPullSecret_returns (env : Env)
    (hrace : ∀ h1 s e1 e2, env.api.secretGet h1 s.name = Res.err e1 →
      env.api.secretCreate (h1 ++ [Event.secretGet s.name (Res.err e1)]) s = Res.err e2 →
      IsAlreadyExists e2 = false)
    (validate : History → String → Option (Res Secret × History)) (h : History)
    (secret : Secret) : ∃ r, handleCanonicalizedPullSecret env validate h secret = some r := by
  unfold handleCanonicalizedPullSecret
  cases hv : env.helpers.validateCanonicalizedSecret secret with
  | some e => exact ⟨_, rfl⟩
  | none =>
    simp only
    cases hg : env.api.secretGet h secret.name with
    | ok out =>
      simp only
      split <;> exact ⟨_, rfl⟩
    | err e =>
      simp only
      split
      · unfold createCanonicalizedSecret
        simp only [hv]
        cases hc : env.api.secretCreate (h ++ [Event.secretGet secret.name (Res.err e)])
            secret with
        | ok out => exact ⟨_, rfl⟩
        | err e2 =>
          simp only [hrace h secret e e2 hg hc, Bool.false_eq_true, if_false]
          exact ⟨_, rfl⟩
      · exact ⟨_, rfl⟩

/-- C20, as the code has it: `validatePullSecret` puts no bound on its own depth. It returns
within two nested calls when no create that follows a not-found read is answered
AlreadyExists, and the secret that the original-name label of a canonicalized secret names is
not itself canonicalized. -/
theorem validatePullSecret_two_calls (env : Env) (h : History) (name : String)
    (hrace : ∀ h1 s e1 e2, env.api.secretGet h1 s.name = Res.err e1 →
      env.api.secretCreate (h1 ++ [Event.secretGet s.name (Res.err e1)]) s = Res.err e2 →
      IsAlreadyExists e2 = false)
    (hlabel : ∀ s c t, env.api.secretGet h name = Res.ok s →
      env.helpers.canonicalizePullSecret s = Res.ok c →
      env.helpers.isCanonicalizedSecret s = true →
      env.api.secretGet (h ++ [Event.secretGet name (Res.ok s)])
        (mapGetD c.labels env.helpers.OriginalSecretNameLabelKey) = Res.ok t →
      env.helpers.isCanonicalizedSecret t = false) (fuel : Nat) :
    ∃ r, validatePullSecret env (fuel + 2) h name = some r := by
  unfold validatePullSecret
  cases hg : env.api.secretGet h name with
  | err e => exact ⟨_, rfl⟩
  | ok s =>
    simp only
    cases hc : env.helpers.canonicalizePullSecret s with
    | err e => exact ⟨_, rfl⟩
    | ok c =>
      simp only
      split
      · exact ⟨_, rfl⟩
      · rename_i hA
        split
        · exact handleCanonicalizedPullSecret_returns env hrace _ _ _
        · rename_i hB
          have hs : env.helpers.isCanonicalizedSecret s = true := by
            cases h1 : env.helpers.isCanonicalizedSecret s <;>
              cases h2 : env.helpers.isCanonicalizedSecret c <;> simp [h1, h2] at hA hB ⊢
          unfold validatePullSecret
          cases hg2 : env.api.secretGet (h ++ [Event.secretGet name (Res.ok s)])
              (mapGetD c.labels env.helpers.OriginalSecretNameLabelKey) with
          | err e => exact ⟨_, rfl⟩
          | ok t =>
            simp only
            have ht := hlabel s c t hg hc hs hg2
            cases hc2 : env.helpers.canonicalizePullSecret t with
            | err e => exact ⟨_, rfl⟩
            | ok c2 =>
              simp only [ht]
              split
              · exact ⟨_, rfl⟩
              · split
                · exact handleCanonicalizedPullSecret_returns env hrace _ _ _
                · rename_i hA2 hB2
                  exfalso
                  cases h2 : env.helpers.isCanonicalizedSecret c2 <;> simp [h2] at hA2 hB2

/-- C20, at a concrete input: the canonical secret `pull-canonical` of the secret `pull`. -/
theorem validatePullSecret_two_calls_witness :
    ∃ r, validatePullSecret (exSecretEnv [exComputedSecret, exLegacySecret]) 2 []
      "pull-canonical" = some r :=
  validatePullSecret_two_calls (exSecretEnv [exComputedSecret, exLegacySecret]) []
    "pull-canonical"
    (fun h1 s e1 e2 hget hcreate => storeApi_create_after_get _ _ h1 s e1 e2 hget hcreate)
    (fun s c t hs hc _ ht => by
      have e1 : s = exComputedSecret := by
        have : (exSecretEnv [exComputedSecret, exLegacySecret]).api.secretGet []
          "pull-canonical" = Res.ok exComputedSecret := by decide
        rw [this] at hs
        exact (Res.ok.inj hs).symm
      subst e1
      have e2 : c = exComputedSecret := by
        have : (exSecretEnv [exComputedSecret, exLegacySecret]).helpers.canonicalizePullSecret
          exComputedSecret = Res.ok exComputedSecret := by decide
        rw [this] at hc
        exact (Res.ok.inj hc).symm
      subst e2
      have e3 : t = exLegacySecret := by
        have : (exSecretEnv [exComputedSecret, exLegacySecret]).api.secretGet
          ([] ++ [Event.secretGet "pull-canonical" (Res.ok exComputedSecret)])
          (mapGetD exComputedSecret.labels
            (exSecretEnv [exComputedSecret,
              exLegacySecret]).helpers.OriginalSecretNameLabelKey) =
            Res.ok exLegacySecret := by decide
        rw [this] at ht
        exact (Res.ok.inj ht).symm
      subst e3
      decide) 0

/-! ### Idempotence of `validatePullSecret` over the store -/

theorem Store.getSecret_name {store : Store} {name : String} {s : Secret}
    (hs : store.getSecret name = some s) : s.name = name := by
  have := List.find?_some hs
  simpa using this

theorem Store.after_snoc_put (init : Store) (h : History) (e : Event) (out : Secret)
    (he : e = Event.secretCreate out (Res.ok out) ∨ e = Event.secretUpdate out (Res.ok out)) :
    (Store.after init (h ++ [e])).getSecret =
      fun n => if out.name = n then some out else (Store.after init h).getSecret n := by
  funext n
  rcases he with rfl | rfl <;>
    simp [Store.after, List.foldl_append, Store.step, Store.getSecret, List.find?_cons] <;>
    split <;> simp_all

/-- What a call of `handleCanonicalizedPullSecret` that returns a secret leaves: the secret
returned is the one stored under the derived name, its credentials are the computed ones, and
no other secret has changed. -/
theorem handleCanonicalizedPullSecret_leaves (init : Store) (base : Api) (env : Env)
    (henv : env.api = storeApi init base)
    (validate : History → String → Option (Res Secret × History)) (h : History)
    (c s1 : Secret) (h1 : History)
    (hf : handleCanonicalizedPullSecret env validate h c = some (Res.ok s1, h1)) :
    env.helpers.validateCanonicalizedSecret c = none ∧
    (Store.after init h1).getSecret c.name = some s1 ∧
    secretBytes c DockerConfigJsonKey = secretBytes s1 DockerConfigJsonKey ∧
    ∀ n, n ≠ c.name → (Store.after init h1).getSecret n = (Store.after init h).getSecret n := by
  unfold handleCanonicalizedPullSecret at hf
  cases hv : env.helpers.validateCanonicalizedSecret c with
  | some e => simp [hv] at hf
  | none =>
    refine ⟨rfl, ?_⟩
    simp only [hv, henv] at hf
    cases hg : (Store.after init h).getSecret c.name with
    | some out =>
      have hname := Store.getSecret_name hg
      simp only [storeApi, hg] at hf
      split at hf
      · rename_i hcond
        simp only [Option.some.injEq, Prod.mk.injEq, Res.ok.injEq] at hf
        obtain ⟨rfl, rfl⟩ := hf
        refine ⟨?_, hcond.1, fun n _ => ?_⟩
        · rw [Store.after_snoc_get]; exact hg
        · rw [Store.after_snoc_get]
      · simp only [updateCanonicalizedSecret, hv, henv, storeApi, Store.after_snoc_get, hg,
          hname, DefaultRetrySteps, RetryOnConflict, Option.some.injEq, Prod.mk.injEq,
          Res.ok.injEq] at hf
        obtain ⟨rfl, rfl⟩ := hf
        have hput := Store.after_snoc_put init
          (h ++ [Event.secretGet c.name (Res.ok out)] ++ [Event.secretGet c.name (Res.ok out)])
          (Event.secretUpdate { name := c.name, labels := out.labels, data := c.data }
            (Res.ok { name := c.name, labels := out.labels, data := c.data }))
          { name := c.name, labels := out.labels, data := c.data } (Or.inr rfl)
        rw [hput]
        refine ⟨by simp, rfl, ?_⟩
        intro n hn
        simp [Ne.symm hn, Store.after, List.foldl_append, Store.step]
    | none =>
      simp only [storeApi, hg, errNotFound, IsNotFound, beq_self_eq_true, if_true,
        createCanonicalizedSecret, hv, henv, Store.after_snoc_get, Option.some.injEq,
        Prod.mk.injEq, Res.ok.injEq] at hf
      obtain ⟨rfl, rfl⟩ := hf
      have hput := Store.after_snoc_put init
        (h ++ [Event.secretGet c.name (Res.err (errNotFound c.name))])
        (Event.secretCreate c (Res.ok c)) c (Or.inl rfl)
      simp only [errNotFound] at hput
      rw [hput]
      refine ⟨by simp, rfl, ?_⟩
      intro n hn
      simp [Ne.symm hn, Store.after_snoc_get]

theorem handleCanonicalizedPullSecret_upToDate (init : Store) (base : Api) (env : Env)
    (henv : env.api = storeApi init base)
    (validate : History → String → Option (Res Secret × History)) (h : History)
    (c s1 : Secret) (hv : env.helpers.validateCanonicalizedSecret c = none)
    (hs : (Store.after init h).getSecret c.name = some s1)
    (hb : secretBytes c DockerConfigJsonKey = secretBytes s1 DockerConfigJsonKey)
    (hl : env.helpers.hasCanonicalizedSecretLabels c = true) :
    handleCanonicalizedPullSecret env validate h c =
      some (Res.ok s1, h ++ [Event.secretGet c.name (Res.ok s1)]) := by
  simp [handleCanonicalizedPullSecret, hv, henv, storeApi, hs, hb, hl]

/-- C18: over the store, for a source secret, which is a stored secret that is not itself
canonicalized, whose canonical secret has a derived name other than its own and carries the
labels of canonical secrets: when a call of `validatePullSecret` returns a secret, the call
made right after it on the same name returns the same secret, and its only events are reads
of secrets, so it creates nothing and updates nothing. -/
theorem validatePullSecret_idempotent (init : Store) (base : Api) (env : Env)
    (henv : env.api = storeApi init base) (fuel : Nat) (h : History) (name : String)
    (secret c s1 : Secret) (h1 : History)
    (hsrc : (Store.after init h).getSecret name = some secret)
    (hnot : env.helpers.isCanonicalizedSecret secret = false)
    (hcanon : env.helpers.canonicalizePullSecret secret = Res.ok c)
    (hname : env.helpers.isCanonicalizedSecret c = true → c.name ≠ name)
    (hlabels : env.helpers.isCanonicalizedSecret c = true →
      env.helpers.hasCanonicalizedSecretLabels c = true)
    (hfirst : validatePullSecret env (fuel + 1) h name = some (Res.ok s1, h1)) :
    ∃ h2, validatePullSecret env (fuel + 1) h1 name = some (Res.ok s1, h2) ∧
      GrowsBy IsSecretGet h1 h2 := by
  have hget : ∀ h0, (Store.after init h0).getSecret name = some secret →
      env.api.secretGet h0 name = Res.ok secret := by
    intro h0 h0s
    simp [henv, storeApi, h0s]
  unfold validatePullSecret at hfirst ⊢
  simp only [hget h hsrc, hcanon, hnot] at hfirst
  cases hc : env.helpers.isCanonicalizedSecret c with
  | false =>
    simp only [hc, Bool.not_false, Bool.and_self, if_true, Option.some.injEq, Prod.mk.injEq,
      Res.ok.injEq] at hfirst
    obtain ⟨rfl, rfl⟩ := hfirst
    have hstore : (Store.after init (h ++ [Event.secretGet name (Res.ok secret)])).getSecret
        name = some secret := by rw [Store.after_snoc_get]; exact hsrc
    simp only [hget _ hstore, hcanon, hnot, hc, Bool.not_false, Bool.and_self, if_true]
    exact ⟨_, rfl, GrowsBy.snoc _ _ (by trivial)⟩
  | true =>
    simp only [hc, Bool.not_true, Bool.not_false, Bool.and_true, Bool.false_eq_true,
      if_false, Bool.and_self, if_true] at hfirst
    obtain ⟨hv, hs1, hb, hframe⟩ := handleCanonicalizedPullSecret_leaves init base env henv _ _
      c s1 h1 hfirst
    have hne : name ≠ c.name := fun e => hname hc e.symm
    have hstore : (Store.after init h1).getSecret name = some secret := by
      rw [hframe name hne, Store.after_snoc_get]; exact hsrc
    simp only [hget _ hstore, hcanon, hnot, hc, Bool.not_true, Bool.not_false, Bool.and_true,
      Bool.false_eq_true, if_false, Bool.and_self, if_true]
    have hs2 : (Store.after init (h1 ++ [Event.secretGet name (Res.ok secret)])).getSecret
        c.name = some s1 := by rw [Store.after_snoc_get]; exact hs1
    rw [handleCanonicalizedPullSecret_upToDate init base env henv _ _ c s1 hv hs2 hb
      (hlabels hc)]
    refine ⟨_, rfl, ⟨[Event.secretGet name (Res.ok secret), Event.secretGet c.name (Res.ok s1)],
      by simp, ?_⟩⟩
    intro e he
    simp only [List.mem_cons, List.mem_singleton, List.not_mem_nil, or_false] at he
    rcases he with rfl | rfl <;> trivial

/-- C18, at a concrete input: the secret `pull` with bare credentials, in a store without
its canonical secret; the first call creates `pull-canonical`. -/
theorem validatePullSecret_idempotent_witness :
    ∃ h2, validatePullSecret (exSecretEnv [exLegacySecret]) 1
        [Event.secretGet "pull" (Res.ok exLegacySecret),
          Event.secretGet "pull-canonical" (Res.err (errNotFound "pull-canonical")),
          Event.secretCreate exComputedSecret (Res.ok exComputedSecret)] "pull" =
        some (Res.ok exComputedSecret, h2) ∧
      GrowsBy IsSecretGet
        [Event.secretGet "pull" (Res.ok exLegacySecret),
          Event.secretGet "pull-canonical" (Res.err (errNotFound "pull-canonical")),
          Event.secretCreate exComputedSecret (Res.ok exComputedSecret)] h2 :=
  validatePullSecret_idempotent { secrets := [exLegacySecret], configMaps := [] } exApi
    (exSecretEnv [exLegacySecret]) rfl 0 [] "pull" exLegacySecret exComputedSecret
    exComputedSecret _ (by decide) (by decide) (by decide) (fun _ => by decide)
    (fun _ => by decide) (by decide)

/-! ### Event handlers -/

/-- C23, the code at failing inputs: `configChangeCauseBuild` returns the result of the
equality test itself. For two configurations with the same build inputs it returns true, for
two configurations whose build inputs differ it returns false; in general it returns true
exactly when the build inputs are equal. -/
theorem configChangeCauseBuild_inverted :
    configChangeCauseBuild exConfig exConfig = true ∧
    exConfig.spec.buildInputs ≠ exConfigBadPushspec.spec.buildInputs ∧
    configChangeCauseBuild exConfig exConfigBadPushspec = false ∧
    ∀ old cur, configChangeCauseBuild old cur = true ↔
      old.spec.buildInputs = cur.spec.buildInputs :=
  ⟨by decide, by decide, by decide, fun old cur => by simp [configChangeCauseBuild]⟩

/-- C27: `updateMachineOSConfig` starts no build. When the build inputs of the old and the
current configuration are equal it returns with the history as it is; when they differ the
test `configChangeCauseBuild` is false and the one thing it does is to put the key of the
current configuration on the work queue. -/
theorem updateMachineOSConfig_spec (env : Env) (fuel : Nat) (h : History)
    (old cur : MachineOSConfig) :
    (old.spec.buildInputs = cur.spec.buildInputs →
      updateMachineOSConfig env fuel h old cur = Handled.done h) ∧
    (old.spec.buildInputs ≠ cur.spec.buildInputs →
      configChangeCauseBuild old cur = false ∧
      updateMachineOSConfig env fuel h old cur =
        Handled.done (h ++ [Event.queueAdd (MetaNamespaceKey cur.ns cur.name)])) ∧
    (∀ ibr r, Event.startBuild ibr r ∉
      added h (updateMachineOSConfig env fuel h old cur).history) := by
  by_cases heq : old.spec.buildInputs = cur.spec.buildInputs
  · have hd : updateMachineOSConfig env fuel h old cur = Handled.done h := by
      simp [updateMachineOSConfig, heq]
    refine ⟨fun _ => hd, fun hne => absurd heq hne, ?_⟩
    rw [hd]
    simp [Handled.history, added]
  · have hc : configChangeCauseBuild old cur = false := by simp [configChangeCauseBuild, heq]
    have hd : updateMachineOSConfig env fuel h old cur =
        Handled.done (h ++ [Event.queueAdd (MetaNamespaceKey cur.ns cur.name)]) := by
      simp [updateMachineOSConfig, heq, hc, enqueueMachineOSConfig]
    refine ⟨fun he => absurd he heq, fun _ => ⟨hc, hd⟩, ?_⟩
    rw [hd]
    simp [Handled.history, added]

/-- C25, the code at a failing input: the record `exBuild` goes from no condition to Prepared
and its configuration is in the cache. `updateMachineOSBuild` returns at its first test, which
compares the status of the old record with itself: it neither asks the backend nor puts a key
on the work queue, and it does so for every pair of records. -/
theorem updateMachineOSBuild_ignores_every_update :
    exBuild.status ≠ (exBuildIn MachineOSBuildPrepared).status ∧
    (exEnv [exBuild] [exConfig]).machineOSConfigListerGet
      (exBuildIn MachineOSBuildPrepared).spec.machineOSConfig.name = Res.ok exConfig ∧
    updateMachineOSBuild (exEnv [exBuild] [exConfig]) 1 [] exBuild
      (exBuildIn MachineOSBuildPrepared) = Handled.done [] ∧
    ∀ env fuel h old cur, updateMachineOSBuild env fuel h old cur = Handled.done h :=
  ⟨by decide, by decide, by decide,
    fun env fuel h old cur => by simp [updateMachineOSBuild]⟩

/-- C30, the code at failing inputs: for a tombstone that wraps the configuration `exConfig`,
and for a value that is neither a configuration nor a tombstone, `deleteMachineOSConfig` reads
`mosc.Spec` of the nil configuration that the type assertion has left, before it looks at the
tombstone. The handler `deleteMachineOSBuild` returns for the same notifications. -/
theorem deleteMachineOSConfig_tombstone :
    deleteMachineOSConfig (exEnv [exBuild] [exConfig]) [] (Notified.tombstone (some exConfig)) =
      Handled.panicked [] ∧
    deleteMachineOSConfig (exEnv [exBuild] [exConfig]) [] Notified.other =
      Handled.panicked [] ∧
    deleteMachineOSBuild [] (Notified.tombstone (some exBuild)) = Handled.done [] ∧
    deleteMachineOSBuild [] Notified.other = Handled.done [] ∧
    ∀ env h obj, deleteMachineOSConfig env h (Notified.tombstone obj) = Handled.panicked h :=
  ⟨by decide, by decide, by decide, by decide, fun _ _ _ => rfl⟩

/-- C28, the code at failing inputs: the pool `worker` of the pod has no configuration, or has
the configuration `exConfig` and no record. `rescheduleBuild` and `markBuildFailedDueToError`
go on with the nil configuration or record and read a field of it;
`customBuildPodUpdater` returns the error of its nil check. -/
theorem podHandlers_missing_objects :
    getConfigAndBuildForPool (exEnv [] []) exPool = none ∧
    rescheduleBuild (exEnv [] []) exPodHelpers 1 [] (exPod PodFailed [exEvicted] []) =
      Handled.panicked [Event.poolGet "worker" (Res.ok exPool)] ∧
    markBuildFailedDueToError (exEnv [] []) exPodHelpers [] (exPod PodFailed [] []) =
      Handled.panicked [Event.poolGet "worker" (Res.ok exPool)] ∧
    getConfigAndBuildForPool (exEnv [] [exConfig]) exPool = some (exConfig, none) ∧
    rescheduleBuild (exEnv [] [exConfig]) exPodHelpers 1 [] (exPod PodFailed [exEvicted] []) =
      Handled.panicked [Event.poolGet "worker" (Res.ok exPool)] ∧
    markBuildFailedDueToError (exEnv [] [exConfig]) exPodHelpers [] (exPod PodFailed [] []) =
      Handled.panicked [Event.poolGet "worker" (Res.ok exPool)] ∧
    customBuildPodUpdater (exEnv [] [exConfig]) exPodHelpers [] (exPod PodFailed [] []) =
      (some (Err.new "missing MOSC/MOSB for pool worker"),
        [Event.poolGet "worker" (Res.ok exPool)]) := by
  decide

/-- C26: `markBuildFailed` returns its error `BuildFailed` for every environment,
configuration and record, whatever the API server answers to the status write. So
`customBuildPodUpdater`, where it runs `markBuildFailed` (for a pod that `isBuildPodError`
reports, and for a pod in phase Failed whose record is not Failed yet), returns that error
and puts no key on the work queue. -/
theorem markBuildFailed_always_errors (env : Env) (h : History) (mosc : MachineOSConfig)
    (mosb : MachineOSBuild) :
    (markBuildFailed env h mosc mosb).1 = some (Err.new "BuildFailed") ∧
    (env.api.buildUpdateStatus h (failedRecord mosc mosb) = none →
      (markBuildFailed env h mosc mosb).1 ≠ none) ∧
    (∀ ph pod pool,
      env.api.poolGet h (mapGetD pod.labels ph.TargetMachineConfigPoolLabelKey) = Res.ok pool →
      getConfigAndBuildForPool env pool = some (mosc, some mosb) →
      (isBuildPodError pod = true ∨
        (pod.phase = PodFailed ∧ isInState mosb MachineOSBuildFailed = false)) →
      (customBuildPodUpdater env ph h pod).1 = some (Err.new "BuildFailed") ∧
      (added h (customBuildPodUpdater env ph h pod).2).any isQueueAdd = false) := by
  refine ⟨by rw [markBuildFailed_eq], fun _ => by rw [markBuildFailed_eq]; simp, ?_⟩
  intro ph pod pool hpool hfound hcase
  have key : customBuildPodUpdater env ph h pod =
      (some (Err.new "BuildFailed"),
        h ++ [Event.poolGet (mapGetD pod.labels ph.TargetMachineConfigPoolLabelKey)
            (Res.ok pool)] ++ [Event.buildUpdateStatus (failedRecord mosc mosb)
          (env.api.buildUpdateStatus
            (h ++ [Event.poolGet (mapGetD pod.labels ph.TargetMachineConfigPoolLabelKey)
              (Res.ok pool)]) (failedRecord mosc mosb))]) := by
    by_cases herr : isBuildPodError pod = true
    · simp only [customBuildPodUpdater, hpool, hfound, herr, if_true, markBuildFailed_eq]
    · rcases hcase with he | ⟨hphase, hstate⟩
      · exact absurd he herr
      · simp [customBuildPodUpdater, hpool, hfound, herr, hphase, hstate, markBuildFailed_eq,
          NewMachineOSBuildState, PodPending, PodRunning, PodSucceeded, PodFailed]
  rw [key]
  exact ⟨rfl, by simp [added, isQueueAdd]⟩

/-- C26, at a concrete input: a pod in phase Failed whose record has no condition, over an
API server that accepts the status write. -/
theorem markBuildFailed_always_errors_witness :
    (exEnv [exBuild] [exConfig]).api.buildUpdateStatus
        [Event.poolGet "worker" (Res.ok exPool)] (failedRecord exConfig exBuild) = none ∧
    (customBuildPodUpdater (exEnv [exBuild] [exConfig]) exPodHelpers []
      (exPod PodFailed [] [])).1 = some (Err.new "BuildFailed") ∧
    (added [] (customBuildPodUpdater (exEnv [exBuild] [exConfig]) exPodHelpers []
      (exPod PodFailed [] [])).2).any isQueueAdd = false :=
  ⟨by decide,
    (markBuildFailed_always_errors (exEnv [exBuild] [exConfig]) [] exConfig exBuild).2.2
      exPodHelpers (exPod PodFailed [] []) exPool (by decide) (by decide)
      (Or.inr ⟨by decide, by decide⟩)⟩

theorem markBuildInterrupted_name (env : Env) (h : History) (mosc : MachineOSConfig)
    (mosb : MachineOSBuild) : (markBuildInterrupted env h mosc mosb).2.1.name = mosb.name := by
  unfold markBuildInterrupted
  exact RetryOnConflict_inv _ (fun (s s1 : MachineOSBuild × History) => s1.1.name = s.1.name)
    (fun _ => rfl) (fun _ _ _ x y => y.trans x) (fun s => by simp [syncAvailableStatus,
      SetBuildConditions, NewMachineOSBuildState]) _ (mosb, h)

/-- What `deleteMachineOSConfig` does when the pool of the deleted configuration is in the
cache and the record named after the pool and its rendered configuration exists: it asks the
backend whether a build is running and ends with the deletion of the record. When the backend
reports a running build, the builder object is deleted and the record is marked Interrupted
before the record is deleted; when it reports none, the deletion of the record is the only
thing that follows the question. -/
theorem deleteMachineOSConfig_spec (env : Env) (h : History) (mosc : MachineOSConfig)
    (mcp : MachineConfigPool) (mosb : MachineOSBuild)
    (hpool : env.mcpListerGet mosc.spec.machineConfigPool.name = Res.ok mcp)
    (hrec : env.machineOSBuildListerGet
      (buildName mosc.spec.machineConfigPool.name mcp.configuration.name) = Res.ok mosb) :
    ((env.imageBuilder.IsBuildRunning h mosb mosc).1 = false →
      deleteMachineOSConfig env h (Notified.object mosc) =
        Handled.done (h ++ [Event.isBuildRunning mosb mosc false
            (env.imageBuilder.IsBuildRunning h mosb mosc).2,
          Event.buildDelete mosb.name
            (env.api.buildDelete (h ++ [Event.isBuildRunning mosb mosc false
              (env.imageBuilder.IsBuildRunning h mosb mosc).2]) mosb.name)])) ∧
    ((env.imageBuilder.IsBuildRunning h mosb mosc).1 = true →
      ∃ d hi r,
        GrowsBy (WritesOnly (fun b => trueLifecycleCount b = 1 ∧
            hasTrueCondition b MachineOSBuildInterrupted = true))
          (h ++ [Event.isBuildRunning mosb mosc true
              (env.imageBuilder.IsBuildRunning h mosb mosc).2,
            Event.deleteBuildObject mosb mosc d]) hi ∧
        (∃ b w, Event.buildUpdateStatus b w ∈ added h hi) ∧
        deleteMachineOSConfig env h (Notified.object mosc) =
          Handled.done (hi ++ [Event.buildDelete mosb.name r])) := by
  constructor
  · intro hrun
    simp [deleteMachineOSConfig, hpool, hrec, hrun]
  · intro hrun
    obtain ⟨d, hd⟩ : ∃ d, env.imageBuilder.DeleteBuildObject
        (h ++ [Event.isBuildRunning mosb mosc true
          (env.imageBuilder.IsBuildRunning h mosb mosc).2]) mosb mosc = d := ⟨_, rfl⟩
    have g := markBuildInterrupted_grows env
      (h ++ [Event.isBuildRunning mosb mosc true
          (env.imageBuilder.IsBuildRunning h mosb mosc).2] ++
        [Event.deleteBuildObject mosb mosc d]) mosc mosb
    have hw := markBuildInterrupted_writes env
      (h ++ [Event.isBuildRunning mosb mosc true
          (env.imageBuilder.IsBuildRunning h mosb mosc).2] ++
        [Event.deleteBuildObject mosb mosc d]) mosc mosb
    have hname := markBuildInterrupted_name env
      (h ++ [Event.isBuildRunning mosb mosc true
          (env.imageBuilder.IsBuildRunning h mosb mosc).2] ++
        [Event.deleteBuildObject mosb mosc d]) mosc mosb
    have hdel : deleteMachineOSConfig env h (Notified.object mosc) =
        Handled.done ((markBuildInterrupted env
          (h ++ [Event.isBuildRunning mosb mosc true
              (env.imageBuilder.IsBuildRunning h mosb mosc).2] ++
            [Event.deleteBuildObject mosb mosc d]) mosc mosb).2.2 ++
          [Event.buildDelete mosb.name (env.api.buildDelete (markBuildInterrupted env
            (h ++ [Event.isBuildRunning mosb mosc true
                (env.imageBuilder.IsBuildRunning h mosb mosc).2] ++
              [Event.deleteBuildObject mosb mosc d]) mosc mosb).2.2 mosb.name)]) := by
      simp only [deleteMachineOSConfig, hpool, hrec, hrun, if_true, hd, hname]
    obtain ⟨res, hres⟩ : ∃ res, markBuildInterrupted env
        (h ++ [Event.isBuildRunning mosb mosc true
            (env.imageBuilder.IsBuildRunning h mosb mosc).2] ++
          [Event.deleteBuildObject mosb mosc d]) mosc mosb = res := ⟨_, rfl⟩
    rw [hres] at g hw hdel
    refine ⟨d, res.2.2, env.api.buildDelete res.2.2 mosb.name, by simpa using g, ?_, hdel⟩
    obtain ⟨b, w, hb⟩ := hw
    have gpre : GrowsBy (fun _ => True) h
        (h ++ [Event.isBuildRunning mosb mosc true
            (env.imageBuilder.IsBuildRunning h mosb mosc).2] ++
          [Event.deleteBuildObject mosb mosc d]) :=
      ⟨[Event.isBuildRunning mosb mosc true (env.imageBuilder.IsBuildRunning h mosb mosc).2,
        Event.deleteBuildObject mosb mosc d], by simp, fun _ _ => trivial⟩
    exact ⟨b, w, mem_added_trans gpre hb⟩

/-- C24, the code at three inputs: the configuration `exConfig`, which owns the record
`exBuild`, is deleted. When the backend reports no running build, the handler asks the backend
and deletes the record: neither the builder object nor a ConfigMap is deleted before. When the
backend reports a running build, the builder object is the only artifact that is deleted
before the record, and no ConfigMap is. When the pool has moved on to `rendered-2`, the handler
looks up `worker-rendered-2-builder`, finds nothing and returns: the record `exBuild` of the
configuration is not deleted. The sibling `finalizeOptOut` deletes all three artifacts. -/
theorem deleteMachineOSConfig_cleanup :
    exBuild.spec.machineOSConfig.name = exConfig.name ∧
    deleteMachineOSConfig (exEnv [exBuild] [exConfig]) [] (Notified.object exConfig) =
      Handled.done [Event.isBuildRunning exBuild exConfig false none,
        Event.buildDelete "worker-rendered-1-builder" none] ∧
    (deleteMachineOSConfig exRunningEnv [] (Notified.object exConfig)).history.filter
        isArtifactDelete = [Event.deleteBuildObject exBuild exConfig none] ∧
    (deleteMachineOSConfig exRunningEnv [] (Notified.object exConfig)).history.getLast? =
      some (Event.buildDelete "worker-rendered-1-builder" none) ∧
    exMovedEnv.machineOSBuilds = [exBuild] ∧
    deleteMachineOSConfig exMovedEnv [] (Notified.object exConfig) = Handled.done [] ∧
    (finalizeOptOut (exEnv [exBuild] [exConfig]) [] exConfig exBuild).2 =
      [Event.deleteBuildObject exBuild exConfig none,
        Event.configMapDelete "mc-rendered-1" none,
        Event.configMapDelete "dockerfile-rendered-1" none] := by
  decide

/-! ### Record names -/

theorem append_cons_inj_of_not_mem {c : Char} :
    ∀ (l1 l2 r1 r2 : List Char), c ∉ l1 → c ∉ l2 → l1 ++ c :: r1 = l2 ++ c :: r2 →
      l1 = l2 ∧ r1 = r2
  | [], [], _, _, _, _, h => ⟨rfl, by simpa using h⟩
  | [], b :: l2, _, _, _, h2, h => by
    simp only [List.nil_append, List.cons_append, List.cons.injEq] at h
    exact absurd (h.1 ▸ List.mem_cons_self _ _) h2
  | a :: l1, [], _, _, h1, _, h => by
    simp only [List.nil_append, List.cons_append, List.cons.injEq] at h
    exact absurd (h.1 ▸ List.mem_cons_self _ _) h1
  | a :: l1, b :: l2, r1, r2, h1, h2, h => by
    simp only [List.cons_append, List.cons.injEq] at h
    obtain ⟨hl, hr⟩ := append_cons_inj_of_not_mem l1 l2 r1 r2
      (fun m => h1 (List.mem_cons_of_mem _ m)) (fun m => h2 (List.mem_cons_of_mem _ m)) h.2
    exact ⟨by rw [h.1, hl], hr⟩

theorem buildName_data (pool rendered : String) :
    (buildName pool rendered).data =
      pool.data ++ '-' :: (rendered.data ++ "-builder".data) := by
  simp [buildName, String.data_append]

theorem machineOSBuildListerGet_named (env : Env) (name : String) (mosb : MachineOSBuild)
    (hget : env.machineOSBuildListerGet name = Res.ok mosb) : mosb.name = name := by
  unfold Env.machineOSBuildListerGet at hget
  cases hf : env.machineOSBuilds.find? (fun b => b.name == name) with
  | none => rw [hf] at hget; simp at hget
  | some b =>
    rw [hf] at hget
    simp only [Res.ok.injEq] at hget
    subst hget
    simpa using List.find?_some hf

/-- C29, as the code has it: the name `pool-rendered-builder` of a record determines the pair
it is made of when the names of the pools contain no `-`; and of two pairs with the same name,
the ones with the same pool have the same rendered configuration and the ones with the same
rendered configuration have the same pool. The names that `CreateBuildFromConfig` gives and
that `doesMOSBExist` looks up are these names. So when `doesMOSBExist` returns, for a
configuration `mosc` whose pool `mcp` is in the cache, a record that carries the name and the
spec that `CreateBuildFromConfig` gives to the record of a configuration `config1` with the
pool `mcp1`, and the names of the two pools contain no `-`, then `config1` names the pool of
`mosc` and the record desires the rendered configuration of `mcp`. -/
theorem buildName_injective (pool rendered pool1 rendered1 : String)
    (hname : buildName pool rendered = buildName pool1 rendered1) :
    ('-' ∉ pool.data → '-' ∉ pool1.data → pool = pool1 ∧ rendered = rendered1) ∧
    (pool = pool1 → rendered = rendered1) ∧
    (rendered = rendered1 → pool = pool1) ∧
    (∀ env config mcp, (newBuild env config mcp).name =
      buildName config.spec.machineConfigPool.name mcp.configuration.name) ∧
    (∀ (env : Env) (mosc : MachineOSConfig) (mosb : MachineOSBuild),
      doesMOSBExist env mosc = some mosb →
      ∃ mcp, env.mcpListerGet mosc.spec.machineConfigPool.name = Res.ok mcp ∧
        mosb.name = buildName mosc.spec.machineConfigPool.name mcp.configuration.name) ∧
    (∀ (env env1 : Env) (mosc config1 : MachineOSConfig) (mcp mcp1 : MachineConfigPool)
      (mosb : MachineOSBuild),
      env.mcpListerGet mosc.spec.machineConfigPool.name = Res.ok mcp →
      doesMOSBExist env mosc = some mosb →
      mosb.name = (newBuild env1 config1 mcp1).name →
      mosb.spec = (newBuild env1 config1 mcp1).spec →
      '-' ∉ mosc.spec.machineConfigPool.name.data →
      '-' ∉ config1.spec.machineConfigPool.name.data →
      config1.spec.machineConfigPool.name = mosc.spec.machineConfigPool.name ∧
      mosb.spec.desiredConfig.name = mcp.configuration.name) := by
  have inj : ∀ p r p1 r1 : String, buildName p r = buildName p1 r1 →
      '-' ∉ p.data → '-' ∉ p1.data → p = p1 ∧ r = r1 := by
    intro p r p1 r1 hn h1 h2
    have hd : p.data ++ '-' :: (r.data ++ "-builder".data) =
        p1.data ++ '-' :: (r1.data ++ "-builder".data) := by
      rw [← buildName_data, ← buildName_data, hn]
    obtain ⟨hl, hr⟩ := append_cons_inj_of_not_mem _ _ _ _ h1 h2 hd
    exact ⟨String.ext hl, String.ext (List.append_cancel_right hr)⟩
  have look : ∀ (env : Env) (mosc : MachineOSConfig) (mosb : MachineOSBuild),
      doesMOSBExist env mosc = some mosb →
      ∃ mcp, env.mcpListerGet mosc.spec.machineConfigPool.name = Res.ok mcp ∧
        mosb.name = buildName mosc.spec.machineConfigPool.name mcp.configuration.name := by
    intro env mosc mosb hex
    unfold doesMOSBExist at hex
    cases hp : env.mcpListerGet mosc.spec.machineConfigPool.name with
    | err e => simp [hp] at hex
    | ok mcp =>
      simp only [hp] at hex
      cases hg : env.machineOSBuildListerGet
          (buildName mosc.spec.machineConfigPool.name mcp.configuration.name) with
      | err e => simp [hg] at hex
      | ok b =>
        simp only [hg, Option.some.injEq] at hex
        subst hex
        exact ⟨mcp, rfl, machineOSBuildListerGet_named env _ _ hg⟩
  have hd : pool.data ++ '-' :: (rendered.data ++ "-builder".data) =
      pool1.data ++ '-' :: (rendered1.data ++ "-builder".data) := by
    rw [← buildName_data, ← buildName_data, hname]
  refine ⟨fun h1 h2 => inj _ _ _ _ hname h1 h2, fun hp => ?_, fun hr => ?_, fun _ _ _ => rfl,
    look, ?_⟩
  · subst hp
    have := List.append_cancel_left hd
    simp only [List.cons.injEq, true_and] at this
    exact String.ext (List.append_cancel_right this)
  · subst hr
    exact String.ext (List.append_cancel_right hd)
  · intro env env1 mosc config1 mcp mcp1 mosb hpool hex hn hs h1 h2
    obtain ⟨mcp2, hp2, hnm⟩ := look env mosc mosb hex
    rw [hpool] at hp2
    simp only [Res.ok.injEq] at hp2
    subst hp2
    have heq : buildName config1.spec.machineConfigPool.name mcp1.configuration.name =
        buildName mosc.spec.machineConfigPool.name mcp.configuration.name := by
      rw [← hnm, hn]; rfl
    obtain ⟨hp, hr⟩ := inj _ _ _ _ heq h2 h1
    refine ⟨hp, ?_⟩
    rw [hs]
    exact hr

/-- Witness of C29: the pool `worker` and the rendered configuration `rendered-1`; the record
`exBuild` carries the name and the spec that `CreateBuildFromConfig` gives for `exConfig` and
`exPool`, and `doesMOSBExist` returns it for `exConfig`. -/
theorem buildName_injective_witness :
    ("worker" = "worker" ∧ "rendered-1" = "rendered-1") ∧
    doesMOSBExist (exEnv [exBuild] [exConfig]) exConfig = some exBuild ∧
    exConfig.spec.machineConfigPool.name = exConfig.spec.machineConfigPool.name ∧
    exBuild.spec.desiredConfig.name = exPool.configuration.name :=
  have t := buildName_injective "worker" "rendered-1" "worker" "rendered-1" rfl
  ⟨t.1 (by decide) (by decide), by decide,
    t.2.2.2.2.2 (exEnv [exBuild] [exConfig]) (exEnv [exBuild] [exConfig]) exConfig exConfig
      exPool exPool exBuild (by decide) (by decide) (by decide) (by decide) (by decide)
      (by decide)⟩

/-- C29 as stated fails: the pool `a-b` with the rendered configuration `c` and the pool `a`
with the rendered configuration `b-c` are different pairs with the same record name. So the
lookup by name returns a record of another pool and another rendered configuration: in
`exHyphenEnv` the only record is the one `CreateBuildFromConfig` has made for the
configuration `layered-a-b` of the pool `a-b`, which desires `c`, and `doesMOSBExist` returns
it for the configuration `layered-a` of the pool `a`, which desires `b-c`. -/
theorem buildName_collision_counterexample :
    ("a-b", "c") ≠ ("a", "b-c") ∧ buildName "a-b" "c" = buildName "a" "b-c" ∧
    exHyphenEnv.mcpListerGet "a" = Res.ok (exPoolFor "a" "b-c") ∧
    doesMOSBExist exHyphenEnv (exConfigFor "layered-a" "a") =
      some (newBuild (exEnv [] []) (exConfigFor "layered-a-b" "a-b") (exPoolFor "a-b" "c")) ∧
    (newBuild (exEnv [] []) (exConfigFor "layered-a-b" "a-b")
      (exPoolFor "a-b" "c")).spec.machineOSConfig.name = "layered-a-b" ∧
    (newBuild (exEnv [] []) (exConfigFor "layered-a-b" "a-b")
      (exPoolFor "a-b" "c")).spec.desiredConfig.name = "c" := by
  decide

/-! ### The preparation of a build -/

theorem getOptionalSecret_eq (env : Env) (h : History) (name : String) :
    getOptionalSecret env h name =
      (optionalResult ("could not retrieve optional secret: " ++ name ++ ": ")
          (env.api.secretGet h name),
        h ++ [Event.secretGet name (env.api.secretGet h name)]) := by
  unfold getOptionalSecret optionalResult
  cases env.api.secretGet h name with
  | ok s => rfl
  | err e => by_cases hn : IsNotFound e = true <;> simp [hn]

theorem getOptionalConfigMap_eq (env : Env) (h : History) (name : String) :
    getOptionalConfigMap env h name =
      (optionalResult ("could not retrieve optional ConfigMap: " ++ name ++ ": ")
          (env.api.configMapGet h name),
        h ++ [Event.configMapGet name (env.api.configMapGet h name)]) := by
  unfold getOptionalConfigMap optionalResult
  cases env.api.configMapGet h name with
  | ok s => rfl
  | err e => by_cases hn : IsNotFound e = true <;> simp [hn]

theorem optionalResult_ok {α : Type} (what : String) (r : Res α)
    (hf : lookupFailed r = false) : optionalResult what r = Res.ok (foundObject r) := by
  cases r with
  | ok a => rfl
  | err e =>
    have hn : IsNotFound e = true := by simpa [lookupFailed] using hf
    simp [optionalResult, foundObject, hn]

theorem optionalResult_failed {α : Type} (what : String) (r : Res α)
    (hf : lookupFailed r = true) : ∃ e, optionalResult what r = Res.err e := by
  cases r with
  | ok a => simp [lookupFailed] at hf
  | err e =>
    have hn : IsNotFound e = false := by simpa [lookupFailed] using hf
    exact ⟨e.wrap what, by simp [optionalResult, hn]⟩

theorem foundObject_isSome {α : Type} (r : Res α) : (foundObject r).isSome = isFound r := by
  cases r <;> rfl

theorem prepareForBuild_cases (env : Env) (h : History) (mosb : MachineOSBuild)
    (mosc : MachineOSConfig) :
    ((∃ e, (prepareForBuild env h mosb mosc).1 = Res.err e) ∧
      ∀ x ∈ added h (prepareForBuild env h mosb mosc).2, isConfigMapCreate x = false) ∨
    (∃ cmI images cmO d r1 r2 r3 mc creates,
      env.helpers.ParseImagesFromConfigMap cmI = Res.ok images ∧
      env.helpers.ParseOSImageURLConfigMap cmO = Res.ok d ∧
      lookupFailed r1 = false ∧ lookupFailed r2 = false ∧ lookupFailed r3 = false ∧
      (prepareForBuild env h mosb mosc).2 =
        h ++ prepareReads env mosb cmI cmO r1 r2 r3 mc ++ creates ∧
      (∀ x ∈ creates, isConfigMapCreate x = true) ∧
      (∀ ibr, (prepareForBuild env h mosb mosc).1 = Res.ok ibr →
        ibr = preparedRequest env mosb mosc images d r1 r2 r3 ∧
        ∃ cm1 cm2, creates =
          [Event.configMapCreate cm1 none, Event.configMapCreate cm2 none])) := by
  generalize hp : prepareForBuild env h mosb mosc = out
  unfold prepareForBuild at hp
  simp only [getImagesConfig, getOSImageURLConfig, getOptionalSecret_eq,
    getOptionalConfigMap_eq] at hp
  cases hI : env.api.configMapGet h env.helpers.MachineConfigOperatorImagesConfigMapName with
  | err e =>
    simp only [hI] at hp
    subst hp
    exact Or.inl ⟨⟨_, rfl⟩, by simp [added, isConfigMapCreate]⟩
  | ok cmI =>
    simp only [hI] at hp
    cases hPI : env.helpers.ParseImagesFromConfigMap cmI with
    | err e =>
      simp only [hPI] at hp
      subst hp
      exact Or.inl ⟨⟨_, rfl⟩, by simp [added, isConfigMapCreate]⟩
    | ok images =>
      simp only [hPI] at hp
      generalize hh1 : h ++ [Event.configMapGet
        env.helpers.MachineConfigOperatorImagesConfigMapName (Res.ok cmI)] = h1 at hp
      cases hO : env.api.configMapGet h1 env.helpers.MachineConfigOSImageURLConfigMapName with
      | err e =>
        simp only [hO] at hp
        subst hp hh1
        exact Or.inl ⟨⟨_, rfl⟩, by simp [added, isConfigMapCreate]⟩
      | ok cmO =>
        simp only [hO] at hp
        cases hPO : env.helpers.ParseOSImageURLConfigMap cmO with
        | err e =>
          simp only [hPO] at hp
          subst hp hh1
          exact Or.inl ⟨⟨_, rfl⟩, by simp [added, isConfigMapCreate]⟩
        | ok d =>
          simp only [hPO] at hp
          generalize hh2 : h1 ++ [Event.configMapGet
            env.helpers.MachineConfigOSImageURLConfigMapName (Res.ok cmO)] = h2 at hp
          generalize hr1 : env.api.secretGet h2 env.helpers.EtcPkiEntitlementSecretName = r1
            at hp
          by_cases hf1 : lookupFailed r1 = true
          · obtain ⟨e, he⟩ := optionalResult_failed ("could not retrieve optional secret: " ++
              env.helpers.EtcPkiEntitlementSecretName ++ ": ") r1 hf1
            simp only [he] at hp
            subst hp hh2 hh1
            exact Or.inl ⟨⟨_, rfl⟩, by simp [added, isConfigMapCreate]⟩
          · rw [Bool.not_eq_true] at hf1
            simp only [optionalResult_ok _ r1 hf1] at hp
            generalize hh3 : h2 ++ [Event.secretGet env.helpers.EtcPkiEntitlementSecretName
              r1] = h3 at hp
            generalize hr2 : env.api.secretGet h3 env.helpers.EtcPkiRpmGpgSecretName = r2 at hp
            by_cases hf2 : lookupFailed r2 = true
            · obtain ⟨e, he⟩ := optionalResult_failed
                ("could not retrieve optional secret: " ++
                  env.helpers.EtcPkiRpmGpgSecretName ++ ": ") r2 hf2
              simp only [he] at hp
              subst hp hh3 hh2 hh1
              exact Or.inl ⟨⟨_, rfl⟩, by simp [added, isConfigMapCreate]⟩
            · rw [Bool.not_eq_true] at hf2
              simp only [optionalResult_ok _ r2 hf2] at hp
              generalize hh4 : h3 ++ [Event.secretGet env.helpers.EtcPkiRpmGpgSecretName
                r2] = h4 at hp
              generalize hr3 : env.api.configMapGet h4 env.helpers.EtcYumReposDConfigMapName =
                r3 at hp
              by_cases hf3 : lookupFailed r3 = true
              · obtain ⟨e, he⟩ := optionalResult_failed
                  ("could not retrieve optional ConfigMap: " ++
                    env.helpers.EtcYumReposDConfigMapName ++ ": ") r3 hf3
                simp only [he] at hp
                subst hp hh4 hh3 hh2 hh1
                exact Or.inl ⟨⟨_, rfl⟩, by simp [added, isConfigMapCreate]⟩
              · rw [Bool.not_eq_true] at hf3
                simp only [optionalResult_ok _ r3 hf3, foundObject_isSome] at hp
                generalize hh5 : h4 ++ [Event.configMapGet
                  env.helpers.EtcYumReposDConfigMapName r3] = h5 at hp
                have hibr : ({ env.helpers.newImageBuildRequestFromBuildInputs mosb mosc with
                    mcoImagePullspec := images.machineConfigOperator
                    hasEtcPkiEntitlementKeys := isFound r1
                    hasEtcPkiRpmGpgKeys := isFound r2
                    hasEtcYumReposDConfigs := isFound r3
                    machineOSConfig := fillDefaults mosc d } : ImageBuildRequest) =
                    preparedRequest env mosb mosc images d r1 r2 r3 := rfl
                simp only [hibr] at hp
                cases hmc : env.api.machineConfigGet h5 mosb.spec.desiredConfig.name with
                | err e =>
                  simp only [hmc] at hp
                  subst hp hh5 hh4 hh3 hh2 hh1
                  exact Or.inl ⟨⟨_, rfl⟩, by simp [added, isConfigMapCreate]⟩
                | ok mc =>
                  simp only [hmc] at hp
                  have hreads : h5 ++ [Event.machineConfigGet mosb.spec.desiredConfig.name
                      (Res.ok mc)] = h ++ prepareReads env mosb cmI cmO r1 r2 r3 mc := by
                    subst hh5 hh4 hh3 hh2 hh1
                    simp [prepareReads]
                  simp only [hreads] at hp
                  cases htc : env.helpers.toConfigMap
                      (preparedRequest env mosb mosc images d r1 r2 r3) mc with
                  | err e =>
                    simp only [htc] at hp
                    subst hp
                    exact Or.inl ⟨⟨_, rfl⟩, by simp [added, prepareReads, isConfigMapCreate]⟩
                  | ok cm1 =>
                    simp only [htc] at hp
                    right
                    cases hc1 : env.api.configMapCreate
                        (h ++ prepareReads env mosb cmI cmO r1 r2 r3 mc) cm1 with
                    | some e =>
                      simp only [hc1] at hp
                      subst hp
                      exact ⟨cmI, images, cmO, d, r1, r2, r3, mc,
                        [Event.configMapCreate cm1 (some e)], hPI, hPO, hf1, hf2, hf3, rfl,
                        by simp [isConfigMapCreate], by simp⟩
                    | none =>
                      simp only [hc1] at hp
                      cases hdc : env.helpers.dockerfileToConfigMap
                          (preparedRequest env mosb mosc images d r1 r2 r3) with
                      | err e =>
                        simp only [hdc] at hp
                        subst hp
                        exact ⟨cmI, images, cmO, d, r1, r2, r3, mc,
                          [Event.configMapCreate cm1 none], hPI, hPO, hf1, hf2, hf3, rfl,
                          by simp [isConfigMapCreate], by simp⟩
                      | ok cm2 =>
                        simp only [hdc] at hp
                        cases hc2 : env.api.configMapCreate
                            (h ++ prepareReads env mosb cmI cmO r1 r2 r3 mc ++
                              [Event.configMapCreate cm1 none]) cm2 with
                        | some e =>
                          simp only [hc2] at hp
                          subst hp
                          exact ⟨cmI, images, cmO, d, r1, r2, r3, mc,
                            [Event.configMapCreate cm1 none,
                              Event.configMapCreate cm2 (some e)], hPI, hPO, hf1, hf2, hf3,
                            by simp, by simp [isConfigMapCreate], by simp⟩
                        | none =>
                          simp only [hc2] at hp
                          subst hp
                          exact ⟨cmI, images, cmO, d, r1, r2, r3, mc,
                            [Event.configMapCreate cm1 none, Event.configMapCreate cm2 none],
                            hPI, hPO, hf1, hf2, hf3, by simp, by simp [isConfigMapCreate],
                            fun ibr hi => ⟨by simpa using hi.symm, cm1, cm2, rfl⟩⟩

theorem prepareForBuild_ok (env : Env) (h : History) (mosb : MachineOSBuild)
    (mosc : MachineOSConfig) (ibr : ImageBuildRequest)
    (hok : (prepareForBuild env h mosb mosc).1 = Res.ok ibr) :
    ∃ cmI images cmO d r1 r2 r3 mc cm1 cm2,
      env.helpers.ParseImagesFromConfigMap cmI = Res.ok images ∧
      env.helpers.ParseOSImageURLConfigMap cmO = Res.ok d ∧
      lookupFailed r1 = false ∧ lookupFailed r2 = false ∧ lookupFailed r3 = false ∧
      (prepareForBuild env h mosb mosc).2 =
        h ++ prepareReads env mosb cmI cmO r1 r2 r3 mc ++
          [Event.configMapCreate cm1 none, Event.configMapCreate cm2 none] ∧
      ibr = preparedRequest env mosb mosc images d r1 r2 r3 := by
  rcases prepareForBuild_cases env h mosb mosc with ⟨⟨e, he⟩, _⟩ |
    ⟨cmI, images, cmO, d, r1, r2, r3, mc, creates, hPI, hPO, hf1, hf2, hf3, hh, _, hibr⟩
  · rw [he] at hok; exact absurd hok (by simp)
  · obtain ⟨hi, cm1, cm2, hcr⟩ := hibr ibr hok
    subst hcr
    exact ⟨cmI, images, cmO, d, r1, r2, r3, mc, cm1, cm2, hPI, hPO, hf1, hf2, hf3, hh, hi⟩

/-- What a successful `prepareForBuild` fills into its copy of the configuration: the base
extensions image and the base OS image are the cluster-wide defaults where the configuration
left them empty and the configured values where it set them; the release version is the
cluster-wide default when the configuration left the base OS image empty, whatever release
version it set, and the configured value, set or empty, when it set the base OS image; every
other field is the one of the configuration. -/
theorem prepareForBuild_defaults (env : Env) (h : History) (mosb : MachineOSBuild)
    (mosc : MachineOSConfig) (ibr : ImageBuildRequest)
    (hok : (prepareForBuild env h mosb mosc).1 = Res.ok ibr) :
    ∃ cmO d,
      Event.configMapGet env.helpers.MachineConfigOSImageURLConfigMapName (Res.ok cmO) ∈
        added h (prepareForBuild env h mosb mosc).2 ∧
      env.helpers.ParseOSImageURLConfigMap cmO = Res.ok d ∧
      ibr.machineOSConfig = fillDefaults mosc d ∧
      ibr.machineOSConfig.spec.buildInputs.baseOSExtensionsImagePullspec =
        (if mosc.spec.buildInputs.baseOSExtensionsImagePullspec = "" then
          d.baseOSExtensionsContainerImage
        else mosc.spec.buildInputs.baseOSExtensionsImagePullspec) ∧
      ibr.machineOSConfig.spec.buildInputs.baseOSImagePullspec =
        (if mosc.spec.buildInputs.baseOSImagePullspec = "" then d.baseOSContainerImage
        else mosc.spec.buildInputs.baseOSImagePullspec) ∧
      ibr.machineOSConfig.spec.buildInputs.releaseVersion =
        (if mosc.spec.buildInputs.baseOSImagePullspec = "" then d.releaseVersion
        else mosc.spec.buildInputs.releaseVersion) ∧
      ibr.machineOSConfig.spec.buildInputs.baseImagePullSecret =
        mosc.spec.buildInputs.baseImagePullSecret ∧
      ibr.machineOSConfig.spec.buildInputs.imageBuilderType =
        mosc.spec.buildInputs.imageBuilderType ∧
      ibr.machineOSConfig.spec.buildInputs.renderedImagePushSecret =
        mosc.spec.buildInputs.renderedImagePushSecret ∧
      ibr.machineOSConfig.spec.buildInputs.renderedImagePushspec =
        mosc.spec.buildInputs.renderedImagePushspec ∧
      ibr.machineOSConfig.spec.machineConfigPool = mosc.spec.machineConfigPool ∧
      ibr.machineOSConfig.name = mosc.name ∧ ibr.machineOSConfig.ns = mosc.ns ∧
      ibr.machineOSConfig.resourceVersion = mosc.resourceVersion ∧
      ibr.machineOSConfig.status = mosc.status := by
  obtain ⟨cmI, images, cmO, d, r1, r2, r3, mc, cm1, cm2, _, hPO, _, _, _, hh, hibr⟩ :=
    prepareForBuild_ok env h mosb mosc ibr hok
  refine ⟨cmO, d, ?_, hPO, ?_⟩
  · rw [hh]; simp [added, prepareReads]
  · subst hibr
    simp only [preparedRequest, fillDefaults]
    by_cases he : mosc.spec.buildInputs.baseOSExtensionsImagePullspec = "" <;>
      by_cases hb : mosc.spec.buildInputs.baseOSImagePullspec = "" <;> simp [he, hb]

/-- C21, the code at two inputs: over defaults with base OS image `registry.example/base` and
release version `4.16`, `prepareForBuild` returns a request for each of two configurations.
For `exConfigOwnBase`, which sets the base OS image and leaves the release version unset, the
request carries the configured base OS image and an empty release version: the unset release
version is not filled with the default. For `exConfigOwnRelease`, which sets the release
version `4.15` and leaves the base OS image unset, the request carries the default base OS
image and the release version `4.16`: the configured release version is not kept. -/
theorem prepareForBuild_releaseVersion :
    exConfigOwnBase.spec.buildInputs.releaseVersion = "" ∧
    (preparedInputs (prepareForBuild (exEnv [exBuild] [exConfigOwnBase]) [] exBuild
      exConfigOwnBase)).map (fun b => (b.baseOSImagePullspec, b.releaseVersion)) =
        some ("registry.example/custom", "") ∧
    exConfigOwnRelease.spec.buildInputs.releaseVersion = "4.15" ∧
    exConfigOwnRelease.spec.buildInputs.baseOSImagePullspec = "" ∧
    (preparedInputs (prepareForBuild (exEnv [exBuild] [exConfigOwnRelease]) [] exBuild
      exConfigOwnRelease)).map (fun b => (b.baseOSImagePullspec, b.releaseVersion)) =
        some ("registry.example/base", "4.16") := by
  decide

/-- C22: `getOptionalSecret` and `getOptionalConfigMap` return the object for a lookup that
finds it, nil without an error for a lookup that fails with not-found, and an error for every
other failure. Let `prepareForBuild` have read and parsed its two mandatory ConfigMaps, and
let `r1`, `r2` and `r3` be the answers of the API server to the lookups of the secret of the
entitlement keys, of the secret of the RPM GPG keys and of the ConfigMap of the yum
repositories. When each of them is an object or a not-found error, `prepareForBuild` does not
stop at the lookups: it goes on to read the rendered MachineConfig, every request it returns is
the one whose presence flags are `isFound r1`, `isFound r2` and `isFound r3` (true for an
object, false for not-found), and it returns that request as soon as the remaining steps
succeed. When one of them is an error other than not-found, `prepareForBuild` returns an error
and has created no ConfigMap. -/
theorem prepareForBuild_optional_inputs (env : Env) (h : History) (mosb : MachineOSBuild)
    (mosc : MachineOSConfig) (cmI cmO : ConfigMap) (images : Images) (d : OSImageURLConfig)
    (r1 r2 : Res Secret) (r3 : Res ConfigMap)
    (hI : env.api.configMapGet h env.helpers.MachineConfigOperatorImagesConfigMapName =
      Res.ok cmI)
    (hPI : env.helpers.ParseImagesFromConfigMap cmI = Res.ok images)
    (hO : env.api.configMapGet
        (h ++ [Event.configMapGet env.helpers.MachineConfigOperatorImagesConfigMapName
          (Res.ok cmI)])
        env.helpers.MachineConfigOSImageURLConfigMapName = Res.ok cmO)
    (hPO : env.helpers.ParseOSImageURLConfigMap cmO = Res.ok d)
    (hr1 : env.api.secretGet
        (h ++ [Event.configMapGet env.helpers.MachineConfigOperatorImagesConfigMapName
            (Res.ok cmI),
          Event.configMapGet env.helpers.MachineConfigOSImageURLConfigMapName (Res.ok cmO)])
        env.helpers.EtcPkiEntitlementSecretName = r1)
    (hr2 : env.api.secretGet
        (h ++ [Event.configMapGet env.helpers.MachineConfigOperatorImagesConfigMapName
            (Res.ok cmI),
          Event.configMapGet env.helpers.MachineConfigOSImageURLConfigMapName (Res.ok cmO),
          Event.secretGet env.helpers.EtcPkiEntitlementSecretName r1])
        env.helpers.EtcPkiRpmGpgSecretName = r2)
    (hr3 : env.api.configMapGet
        (h ++ [Event.configMapGet env.helpers.MachineConfigOperatorImagesConfigMapName
            (Res.ok cmI),
          Event.configMapGet env.helpers.MachineConfigOSImageURLConfigMapName (Res.ok cmO),
          Event.secretGet env.helpers.EtcPkiEntitlementSecretName r1,
          Event.secretGet env.helpers.EtcPkiRpmGpgSecretName r2])
        env.helpers.EtcYumReposDConfigMapName = r3) :
    (∀ h0 name,
      (∀ s, env.api.secretGet h0 name = Res.ok s →
        (getOptionalSecret env h0 name).1 = Res.ok (some s)) ∧
      (∀ e, env.api.secretGet h0 name = Res.err e → IsNotFound e = true →
        (getOptionalSecret env h0 name).1 = Res.ok none) ∧
      (∀ e, env.api.secretGet h0 name = Res.err e → IsNotFound e = false →
        ∃ e1, (getOptionalSecret env h0 name).1 = Res.err e1)) ∧
    (∀ h0 name,
      (∀ cm, env.api.configMapGet h0 name = Res.ok cm →
        (getOptionalConfigMap env h0 name).1 = Res.ok (some cm)) ∧
      (∀ e, env.api.configMapGet h0 name = Res.err e → IsNotFound e = true →
        (getOptionalConfigMap env h0 name).1 = Res.ok none) ∧
      (∀ e, env.api.configMapGet h0 name = Res.err e → IsNotFound e = false →
        ∃ e1, (getOptionalConfigMap env h0 name).1 = Res.err e1)) ∧
    (lookupFailed r1 = false → lookupFailed r2 = false → lookupFailed r3 = false →
      (∃ rest, (prepareForBuild env h mosb mosc).2 =
        h ++ [Event.configMapGet env.helpers.MachineConfigOperatorImagesConfigMapName
            (Res.ok cmI),
          Event.configMapGet env.helpers.MachineConfigOSImageURLConfigMapName (Res.ok cmO),
          Event.secretGet env.helpers.EtcPkiEntitlementSecretName r1,
          Event.secretGet env.helpers.EtcPkiRpmGpgSecretName r2,
          Event.configMapGet env.helpers.EtcYumReposDConfigMapName r3,
          Event.machineConfigGet mosb.spec.desiredConfig.name
            (env.api.machineConfigGet
              (h ++ [Event.configMapGet env.helpers.MachineConfigOperatorImagesConfigMapName
                  (Res.ok cmI),
                Event.configMapGet env.helpers.MachineConfigOSImageURLConfigMapName
                  (Res.ok cmO),
                Event.secretGet env.helpers.EtcPkiEntitlementSecretName r1,
                Event.secretGet env.helpers.EtcPkiRpmGpgSecretName r2,
                Event.configMapGet env.helpers.EtcYumReposDConfigMapName r3])
              mosb.spec.desiredConfig.name)] ++ rest ∧
        ∀ y ∈ rest, isConfigMapCreate y = true) ∧
      (∀ ibr, (prepareForBuild env h mosb mosc).1 = Res.ok ibr →
        ibr = preparedRequest env mosb mosc images d r1 r2 r3) ∧
      (∀ mc cm1 cm2,
        env.api.machineConfigGet
          (h ++ [Event.configMapGet env.helpers.MachineConfigOperatorImagesConfigMapName
              (Res.ok cmI),
            Event.configMapGet env.helpers.MachineConfigOSImageURLConfigMapName (Res.ok cmO),
            Event.secretGet env.helpers.EtcPkiEntitlementSecretName r1,
            Event.secretGet env.helpers.EtcPkiRpmGpgSecretName r2,
            Event.configMapGet env.helpers.EtcYumReposDConfigMapName r3])
          mosb.spec.desiredConfig.name = Res.ok mc →
        env.helpers.toConfigMap (preparedRequest env mosb mosc images d r1 r2 r3) mc =
          Res.ok cm1 →
        env.api.configMapCreate (h ++ prepareReads env mosb cmI cmO r1 r2 r3 mc) cm1 = none →
        env.helpers.dockerfileToConfigMap (preparedRequest env mosb mosc images d r1 r2 r3) =
          Res.ok cm2 →
        env.api.configMapCreate
          (h ++ prepareReads env mosb cmI cmO r1 r2 r3 mc ++ [Event.configMapCreate cm1 none])
          cm2 = none →
        prepareForBuild env h mosb mosc =
          (Res.ok (preparedRequest env mosb mosc images d r1 r2 r3),
            h ++ prepareReads env mosb cmI cmO r1 r2 r3 mc ++
              [Event.configMapCreate cm1 none, Event.configMapCreate cm2 none]))) ∧
    ((preparedRequest env mosb mosc images d r1 r2 r3).hasEtcPkiEntitlementKeys = isFound r1 ∧
      (preparedRequest env mosb mosc images d r1 r2 r3).hasEtcPkiRpmGpgKeys = isFound r2 ∧
      (preparedRequest env mosb mosc images d r1 r2 r3).hasEtcYumReposDConfigs = isFound r3) ∧
    (lookupFailed r1 = true ∨ lookupFailed r2 = true ∨ lookupFailed r3 = true →
      (∃ e, (prepareForBuild env h mosb mosc).1 = Res.err e) ∧
      ∀ y ∈ added h (prepareForBuild env h mosb mosc).2, isConfigMapCreate y = false) := by
  have a2 : ∀ (a b : Event), h ++ [a] ++ [b] = h ++ [a, b] := by intros; simp
  have a3 : ∀ (a b c : Event), h ++ [a, b] ++ [c] = h ++ [a, b, c] := by intros; simp
  have a4 : ∀ (a b c e : Event), h ++ [a, b, c] ++ [e] = h ++ [a, b, c, e] := by intros; simp
  have a5 : ∀ (a b c e f : Event), h ++ [a, b, c, e] ++ [f] = h ++ [a, b, c, e, f] := by
    intros; simp
  have hp : prepareForBuild env h mosb mosc = prepareForBuild env h mosb mosc := rfl
  generalize hout : prepareForBuild env h mosb mosc = out at hp
  rw [← hp] at hout
  clear hp
  unfold prepareForBuild at hout
  simp only [getImagesConfig, getOSImageURLConfig, getOptionalSecret_eq,
    getOptionalConfigMap_eq, hI, hPI, hO, hPO, a2, hr1, a3, hr2, a4, hr3, a5] at hout
  refine ⟨fun h0 name => ?_, fun h0 name => ?_, fun hf1 hf2 hf3 => ?_, ⟨rfl, rfl, rfl⟩,
    fun hfail => ?_⟩
  · rw [getOptionalSecret_eq]
    refine ⟨fun s hs => by simp [hs, optionalResult], fun e he hn => by
      simp [he, optionalResult, hn], fun e he hn => ?_⟩
    exact optionalResult_failed _ _ (by simp [he, lookupFailed, hn])
  · rw [getOptionalConfigMap_eq]
    refine ⟨fun s hs => by simp [hs, optionalResult], fun e he hn => by
      simp [he, optionalResult, hn], fun e he hn => ?_⟩
    exact optionalResult_failed _ _ (by simp [he, lookupFailed, hn])
  · simp only [optionalResult_ok _ r1 hf1, a3, hr2] at hout
    simp only [optionalResult_ok _ r2 hf2, a4, hr3] at hout
    simp only [optionalResult_ok _ r3 hf3, a5, foundObject_isSome] at hout
    simp only [List.append_assoc, List.cons_append, List.nil_append] at hout
    refine ⟨?_, ?_, ?_⟩
    · generalize env.api.machineConfigGet _ mosb.spec.desiredConfig.name = rm at hout ⊢
      cases rm with
      | err e => subst hout; exact ⟨[], by simp, by simp⟩
      | ok mc =>
        simp only at hout
        generalize env.helpers.toConfigMap _ mc = t at hout
        cases t with
        | err e => subst hout; exact ⟨[], by simp, by simp⟩
        | ok cm1 =>
          simp only at hout
          generalize env.api.configMapCreate _ cm1 = c1 at hout
          cases c1 with
          | some e =>
            subst hout
            exact ⟨[Event.configMapCreate cm1 (some e)], by simp, by simp [isConfigMapCreate]⟩
          | none =>
            simp only at hout
            generalize env.helpers.dockerfileToConfigMap _ = t2 at hout
            cases t2 with
            | err e =>
              subst hout
              exact ⟨[Event.configMapCreate cm1 none], by simp, by simp [isConfigMapCreate]⟩
            | ok cm2 =>
              simp only at hout
              generalize hc2 : env.api.configMapCreate _ cm2 = c2 at hout
              have hc : ∀ y ∈ [Event.configMapCreate cm1 none, Event.configMapCreate cm2 c2],
                  isConfigMapCreate y = true := by simp [isConfigMapCreate]
              cases c2 with
              | some e => subst hout; exact ⟨_, by simp, hc⟩
              | none => subst hout; exact ⟨_, by simp, hc⟩
    · intro ibr hi
      subst hout
      revert hi
      split
      · simp
      · split
        · simp
        · split
          · simp
          · split
            · simp
            · split
              · simp
              · intro hi
                simpa [preparedRequest] using hi.symm
    · intro mc cm1 cm2 e1 e2 e3 e4 e5
      simp only [prepareReads, List.append_assoc, List.cons_append, List.nil_append,
        preparedRequest] at e2 e3 e4 e5 ⊢
      simp only [e1, e2, e3, e4, e5] at hout
      exact hout.symm
  · by_cases hf1 : lookupFailed r1 = true
    · obtain ⟨e, he⟩ := optionalResult_failed ("could not retrieve optional secret: " ++
        env.helpers.EtcPkiEntitlementSecretName ++ ": ") r1 hf1
      simp only [he] at hout
      subst hout
      exact ⟨⟨_, rfl⟩, by simp [added, isConfigMapCreate]⟩
    · rw [Bool.not_eq_true] at hf1
      simp only [optionalResult_ok _ r1 hf1, a3, hr2] at hout
      by_cases hf2 : lookupFailed r2 = true
      · obtain ⟨e, he⟩ := optionalResult_failed ("could not retrieve optional secret: " ++
          env.helpers.EtcPkiRpmGpgSecretName ++ ": ") r2 hf2
        simp only [he] at hout
        subst hout
        exact ⟨⟨_, rfl⟩, by simp [added, isConfigMapCreate]⟩
      · rw [Bool.not_eq_true] at hf2
        simp only [optionalResult_ok _ r2 hf2, a4, hr3] at hout
        have hf3 : lookupFailed r3 = true := by
          rcases hfail with hx | hx | hx
          · rw [hf1] at hx; exact absurd hx (by decide)
          · rw [hf2] at hx; exact absurd hx (by decide)
          · exact hx
        obtain ⟨e, he⟩ := optionalResult_failed ("could not retrieve optional ConfigMap: " ++
          env.helpers.EtcYumReposDConfigMapName ++ ": ") r3 hf3
        simp only [he] at hout
        subst hout
        exact ⟨⟨_, rfl⟩, by simp [added, isConfigMapCreate]⟩

/-- Witness of C22: over `exApi` neither secret exists and the ConfigMap of the yum
repositories does. `prepareForBuild` returns a request, with the two flags of the secrets
false and the flag of the ConfigMap true, and has created both ConfigMaps. Over
`exForbiddenApi` the read of the secret of the entitlement keys fails with an error that is
not a not-found error: `prepareForBuild` returns an error and has created no ConfigMap. -/
theorem prepareForBuild_optional_inputs_witness :
    prepareForBuild (exEnv [exBuild] [exConfig]) [] exBuild exConfig =
      (Res.ok (preparedRequest (exEnv [exBuild] [exConfig]) exBuild exConfig
          { machineConfigOperator := "registry.example/mco" }
          { baseOSContainerImage := "registry.example/base"
            baseOSExtensionsContainerImage := "registry.example/extensions"
            releaseVersion := "4.16" }
          (Res.err { kind := ErrKind.notFound, msg := "secret not found" })
          (Res.err { kind := ErrKind.notFound, msg := "secret not found" })
          (Res.ok { name := "etc-yum-repos-d", data := [] })),
        [Event.configMapGet "machine-config-operator-images"
            (Res.ok { name := "machine-config-operator-images", data := [] }),
          Event.configMapGet "machine-config-osimageurl"
            (Res.ok { name := "machine-config-osimageurl", data := [] }),
          Event.secretGet "etc-pki-entitlement"
            (Res.err { kind := ErrKind.notFound, msg := "secret not found" }),
          Event.secretGet "etc-pki-rpm-gpg"
            (Res.err { kind := ErrKind.notFound, msg := "secret not found" }),
          Event.configMapGet "etc-yum-repos-d" (Res.ok { name := "etc-yum-repos-d", data := [] }),
          Event.machineConfigGet "rendered-1" (Res.ok { name := "rendered-1", raw := "" }),
          Event.configMapCreate { name := "mc-rendered-1", data := [("machineconfig", "")] } none,
          Event.configMapCreate { name := "dockerfile-rendered-1", data := [("Dockerfile", "")] }
            none]) ∧
    ((preparedRequest (exEnv [exBuild] [exConfig]) exBuild exConfig
          { machineConfigOperator := "registry.example/mco" }
          { baseOSContainerImage := "registry.example/base"
            baseOSExtensionsContainerImage := "registry.example/extensions"
            releaseVersion := "4.16" }
          (Res.err { kind := ErrKind.notFound, msg := "secret not found" })
          (Res.err { kind := ErrKind.notFound, msg := "secret not found" })
          (Res.ok { name := "etc-yum-repos-d", data := [] })).hasEtcPkiEntitlementKeys = false ∧
      (preparedRequest (exEnv [exBuild] [exConfig]) exBuild exConfig
          { machineConfigOperator := "registry.example/mco" }
          { baseOSContainerImage := "registry.example/base"
            baseOSExtensionsContainerImage := "registry.example/extensions"
            releaseVersion := "4.16" }
          (Res.err { kind := ErrKind.notFound, msg := "secret not found" })
          (Res.err { kind := ErrKind.notFound, msg := "secret not found" })
          (Res.ok { name := "etc-yum-repos-d", data := [] })).hasEtcPkiRpmGpgKeys = false ∧
      (preparedRequest (exEnv [exBuild] [exConfig]) exBuild exConfig
          { machineConfigOperator := "registry.example/mco" }
          { baseOSContainerImage := "registry.example/base"
            baseOSExtensionsContainerImage := "registry.example/extensions"
            releaseVersion := "4.16" }
          (Res.err { kind := ErrKind.notFound, msg := "secret not found" })
          (Res.err { kind := ErrKind.notFound, msg := "secret not found" })
          (Res.ok { name := "etc-yum-repos-d", data := [] })).hasEtcYumReposDConfigs = true) ∧
    ((∃ e, (prepareForBuild { exEnv [exBuild] [exConfig] with api := exForbiddenApi } [] exBuild
        exConfig).1 = Res.err e) ∧
      ∀ y ∈ added [] (prepareForBuild { exEnv [exBuild] [exConfig] with api := exForbiddenApi }
        [] exBuild exConfig).2, isConfigMapCreate y = false) :=
  have t := prepareForBuild_optional_inputs (exEnv [exBuild] [exConfig]) [] exBuild exConfig
    { name := "machine-config-operator-images", data := [] }
    { name := "machine-config-osimageurl", data := [] }
    { machineConfigOperator := "registry.example/mco" }
    { baseOSContainerImage := "registry.example/base"
      baseOSExtensionsContainerImage := "registry.example/extensions"
      releaseVersion := "4.16" }
    (Res.err { kind := ErrKind.notFound, msg := "secret not found" })
    (Res.err { kind := ErrKind.notFound, msg := "secret not found" })
    (Res.ok { name := "etc-yum-repos-d", data := [] })
    (by decide) (by decide) (by decide) (by decide) (by decide) (by decide) (by decide)
  ⟨(t.2.2.1 (by decide) (by decide) (by decide)).2.2 { name := "rendered-1", raw := "" }
      { name := "mc-rendered-1", data := [("machineconfig", "")] }
      { name := "dockerfile-rendered-1", data := [("Dockerfile", "")] }
      (by decide) (by decide) (by decide) (by decide) (by decide),
    t.2.2.2.1,
    (prepareForBuild_optional_inputs { exEnv [exBuild] [exConfig] with api := exForbiddenApi }
      [] exBuild exConfig
      { name := "machine-config-operator-images", data := [] }
      { name := "machine-config-osimageurl", data := [] }
      { machineConfigOperator := "registry.example/mco" }
      { baseOSContainerImage := "registry.example/base"
        baseOSExtensionsContainerImage := "registry.example/extensions"
        releaseVersion := "4.16" }
      (Res.err { kind := ErrKind.other, msg := "secrets is forbidden" })
      (Res.err { kind := ErrKind.other, msg := "secrets is forbidden" })
      (Res.ok { name := "etc-yum-repos-d", data := [] })
      (by decide) (by decide) (by decide) (by decide) (by decide) (by decide)
      (by decide)).2.2.2.2 (Or.inl (by decide))⟩

end MachineOSBuilder
